import Mathlib

/-!
# Hierarchical page tables (`VirtualMemory.cpp`)

A shallow embedding of the page-fault handler of `src/VirtualMemory.cpp` and of the
device it drives, followed by the properties established about it.

Conventions of the embedding.

* `uint64_t` quantities (addresses, page numbers, distances) are natural numbers; the one
  place where unsigned wrap-around can occur, the subtraction in `computeCyclicDistance`,
  is written modulo `2 ^ 64`.
* `word_t` values stored in memory are integers.  A `word_t` that the program uses as a
  frame number is converted with `Int.toNat`; on the table entries of every state the
  program can reach this conversion is the identity.
* The device (`PhysicalMemory`) is not part of the sources and is modelled from the
  specification, together with a journal of the mutating calls it received.
-/

namespace VirtualMemory

/-! ## Geometry -/

/-- Modelled from the spec: the build-time constants of `MemoryConstants.h`, which is not
among the sources.  `fits` says that a virtual address fits a `uint64_t`.  `indexFits` says
that `1 << OFFSET_WIDTH`, which `parseAddress` computes as an `int`, is a value of that 32-bit
type, so that the mask `(1 << OFFSET_WIDTH) - 1` does not overflow and a table index fits the
`word_t` it is stored in. -/
structure Geometry where
  OFFSET_WIDTH : Nat
  TABLES_DEPTH : Nat
  NUM_FRAMES : Nat
  fits : OFFSET_WIDTH * (TABLES_DEPTH + 1) < 64
  indexFits : OFFSET_WIDTH < 31

/-- Modelled from the spec: `PAGE_SIZE = 1 << OFFSET_WIDTH`. -/
def PAGE_SIZE (g : Geometry) : Nat := 1 <<< g.OFFSET_WIDTH

/-- Modelled from the spec: `NUM_PAGES = 1 << (OFFSET_WIDTH * TABLES_DEPTH)`. -/
def NUM_PAGES (g : Geometry) : Nat := 1 <<< (g.OFFSET_WIDTH * g.TABLES_DEPTH)

/-- Modelled from the spec: `VIRTUAL_MEMORY_SIZE = NUM_PAGES * PAGE_SIZE`. -/
def VIRTUAL_MEMORY_SIZE (g : Geometry) : Nat := NUM_PAGES g * PAGE_SIZE g

/-! ## The device -/

/-- A mutating call received by the device. -/
inductive Call where
  | write (addr : Nat) (value : Int)
  | evict (frame page : Nat)
  | restore (frame page : Nat)
  deriving DecidableEq, Repr

/-- Modelled from the spec: the physical memory device of `PhysicalMemory.h`, which is not
among the sources.  `ram` is the word array, `swap` the backing store (page number to page
contents, `none` for a page that was never evicted), `journal` the mutating calls received so
far, most recent first. -/
structure Device where
  ram : Nat → Int
  swap : Nat → Option (List Int)
  journal : List Call

/-- Modelled from the spec: `PMread(physAddr, out_word)`. -/
def PMread (d : Device) (addr : Nat) : Int := d.ram addr

/-- Modelled from the spec: `PMwrite(physAddr, word)`. -/
def PMwrite (d : Device) (addr : Nat) (value : Int) : Device :=
  { ram := fun a => if a = addr then value else d.ram a
    swap := d.swap
    journal := Call.write addr value :: d.journal }

/-- Modelled from the spec: `PMevict(frame, pageNumber)` copies the frame to the backing
store under `pageNumber`. -/
def PMevict (g : Geometry) (d : Device) (frame page : Nat) : Device :=
  { ram := d.ram
    swap := fun p =>
      if p = page then some ((List.range (PAGE_SIZE g)).map fun o => d.ram (frame * PAGE_SIZE g + o))
      else d.swap p
    journal := Call.evict frame page :: d.journal }

/-- Modelled from the spec: `PMrestore(frame, pageNumber)` copies the stored page into the
frame, and fills the frame with zeros when the page was never evicted. -/
def PMrestore (g : Geometry) (d : Device) (frame page : Nat) : Device :=
  { ram := fun a =>
      if frame * PAGE_SIZE g ≤ a ∧ a < frame * PAGE_SIZE g + PAGE_SIZE g then
        ((d.swap page).getD []).getD (a - frame * PAGE_SIZE g) 0
      else d.ram a
    swap := d.swap
    journal := Call.restore frame page :: d.journal }

/-! ## Helpers of `VirtualMemory.cpp` -/

/-- The `clearFrame` of the source: writes `0` to every word of the frame, by ascending offset. -/
def clearFrame (g : Geometry) (d : Device) (frameIndex : Nat) : Device :=
  (List.range (PAGE_SIZE g)).foldl (fun dev offset => PMwrite dev (frameIndex * PAGE_SIZE g + offset) 0) d

/-- The loop of `parseAddress`: `n` iterations remain, `acc` holds the indices already
stored (those of the higher positions).  The source computes the mask
`(1 << OFFSET_WIDTH) - 1` as an `int` and stores the masked address in a `word_t`; by
`Geometry.indexFits` the mask is at most `2 ^ 30 - 1`, so neither overflows and both are
the natural numbers written here. -/
def parseLoop (g : Geometry) : Nat → Nat → List Nat → List Nat
  | 0, _, acc => acc
  | n + 1, virtualAddress, acc =>
    parseLoop g n (virtualAddress >>> g.OFFSET_WIDTH)
      ((virtualAddress &&& ((1 <<< g.OFFSET_WIDTH) - 1)) :: acc)

/-- The `parseAddress` of the source: the list `indices[0..TABLES_DEPTH]`. -/
def parseAddress (g : Geometry) (virtualAddress : Nat) : List Nat :=
  parseLoop g (g.TABLES_DEPTH + 1) virtualAddress []

/-- The `computeCyclicDistance` of the source; `NUM_PAGES - diff` is a `uint64_t`
subtraction. -/
def computeCyclicDistance (g : Geometry) (pageA pageB : Nat) : Nat :=
  let diff := if pageA > pageB then pageA - pageB else pageB - pageA
  let rest := (NUM_PAGES g + 2 ^ 64 - diff % 2 ^ 64) % 2 ^ 64
  if diff < rest then diff else rest

/-- The `unlinkFromParent` of the source: clears the first entry of the parent table that
equals the child. -/
def unlinkFromParent (g : Geometry) (d : Device) (parentFrame childFrame : Nat) : Device :=
  match (List.range (PAGE_SIZE g)).find?
      (fun offset => decide (PMread d (parentFrame * PAGE_SIZE g + offset) = (childFrame : Int))) with
  | some offset => PMwrite d (parentFrame * PAGE_SIZE g + offset) 0
  | none => d

/-! ## Frame search -/

/-- The `FrameSearchResult` record of the source. -/
structure FrameSearchResult where
  maxUsedFrame : Nat
  emptyTable : Nat
  emptyTableParent : Nat
  bestEvictFrame : Nat
  bestEvictParent : Nat
  bestEvictOffset : Nat
  bestEvictPageNumber : Nat
  bestDistance : Nat
  deriving DecidableEq, Repr

/-- The `FrameSearchResult result = {0}` of the source. -/
def FrameSearchResult.zero : FrameSearchResult :=
  ⟨0, 0, 0, 0, 0, 0, 0, 0⟩

/-- The update of `maxUsedFrame` on entry of `dfsSearch`. -/
def noteFrame (currentFrame : Nat) (result : FrameSearchResult) : FrameSearchResult :=
  if currentFrame > result.maxUsedFrame then { result with maxUsedFrame := currentFrame } else result

/-- The leaf case of `dfsSearch`. -/
def noteLeaf (g : Geometry) (currentFrame targetPage parentFrame parentOffset currentPageNumber : Nat)
    (result : FrameSearchResult) : FrameSearchResult :=
  let distance := computeCyclicDistance g targetPage currentPageNumber
  if distance > result.bestDistance then
    { result with
      bestDistance := distance
      bestEvictFrame := currentFrame
      bestEvictParent := parentFrame
      bestEvictOffset := parentOffset
      bestEvictPageNumber := currentPageNumber }
  else result

/-- The test after the loop of `dfsSearch`: an empty table that is neither the root nor the
protected frame is recorded when none was recorded before. -/
def noteTable (isEmpty : Bool) (currentFrame avoidFrame parentFrame : Nat)
    (result : FrameSearchResult) : FrameSearchResult :=
  if isEmpty = true ∧ currentFrame ≠ 0 ∧ currentFrame ≠ avoidFrame ∧ result.emptyTable = 0 then
    { result with emptyTable := currentFrame, emptyTableParent := parentFrame }
  else result

/-- The `dfsSearch` of the source.  The first argument is the number of levels below the
current frame, `TABLES_DEPTH - depth`; the source's test `depth == TABLES_DEPTH` is the case
`0`.  The loop over the entries carries `isEmpty` and the record. -/
def dfsSearch (g : Geometry) (d : Device) :
    Nat → Nat → Nat → Nat → Nat → Nat → Nat → FrameSearchResult → FrameSearchResult
  | 0, currentFrame, targetPage, _, parentFrame, parentOffset, currentPageNumber, result =>
    noteLeaf g currentFrame targetPage parentFrame parentOffset currentPageNumber
      (noteFrame currentFrame result)
  | below + 1, currentFrame, targetPage, avoidFrame, parentFrame, _, currentPageNumber, result =>
    let scanned : Bool × FrameSearchResult :=
      (List.range (PAGE_SIZE g)).foldl
        (fun acc offset =>
          let entry := PMread d (currentFrame * PAGE_SIZE g + offset)
          if entry ≠ 0 then
            (false, dfsSearch g d below entry.toNat targetPage avoidFrame currentFrame offset
              ((currentPageNumber <<< g.OFFSET_WIDTH) ||| offset) acc.2)
          else acc)
        (true, noteFrame currentFrame result)
    noteTable scanned.1 currentFrame avoidFrame parentFrame scanned.2

/-- The first two lines of `findFreeOrEvictFrame`: the record filled by `dfsSearch` from the
root, `dfsSearch(0, 0, targetPage, avoidFrame, 0, 0, 0, &result)` on `result = {0}`. -/
def scanTree (g : Geometry) (d : Device) (targetPage avoidFrame : Nat) : FrameSearchResult :=
  dfsSearch g d g.TABLES_DEPTH 0 targetPage avoidFrame 0 0 0 FrameSearchResult.zero

/-- The `findFreeOrEvictFrame` of the source: the frame supplied and the device afterwards. -/
def findFreeOrEvictFrame (g : Geometry) (d : Device) (targetPage avoidFrame : Nat) : Nat × Device :=
  let result := scanTree g d targetPage avoidFrame
  if result.emptyTable ≠ 0 then
    (result.emptyTable, unlinkFromParent g d result.emptyTableParent result.emptyTable)
  else if result.maxUsedFrame + 1 < g.NUM_FRAMES then
    (result.maxUsedFrame + 1, d)
  else
    let victimFrame := (PMread d (result.bestEvictParent * PAGE_SIZE g + result.bestEvictOffset)).toNat
    let d1 := PMevict g d victimFrame result.bestEvictPageNumber
    (victimFrame, PMwrite d1 (result.bestEvictParent * PAGE_SIZE g + result.bestEvictOffset) 0)

/-- One iteration of the second loop of `traverseTree`, at `level`, from the device and the
current frame. -/
def traverseStep (g : Geometry) (indices : List Nat) (pageNumber : Nat)
    (st : Nat × Device) (level : Nat) : Nat × Device :=
  let currentFrame := st.1
  let d := st.2
  let entry := PMread d (currentFrame * PAGE_SIZE g + indices.getD level 0)
  if entry = 0 then
    let found := findFreeOrEvictFrame g d pageNumber currentFrame
    let newFrame := found.1
    let d1 := if level < g.TABLES_DEPTH - 1 then clearFrame g found.2 newFrame
              else PMrestore g found.2 newFrame pageNumber
    (newFrame, PMwrite d1 (currentFrame * PAGE_SIZE g + indices.getD level 0) (newFrame : Int))
  else (entry.toNat, d)

/-- The page number computed by the first loop of `traverseTree`. -/
def pageNumberOf (g : Geometry) (indices : List Nat) : Nat :=
  (List.range g.TABLES_DEPTH).foldl
    (fun pageNumber level => (pageNumber <<< g.OFFSET_WIDTH) ||| indices.getD level 0) 0

/-- The `traverseTree` of the source: the physical address and the device afterwards. -/
def traverseTree (g : Geometry) (d : Device) (virtualAddress : Nat) : Nat × Device :=
  let indices := parseAddress g virtualAddress
  let pageNumber := pageNumberOf g indices
  let st := (List.range g.TABLES_DEPTH).foldl (traverseStep g indices pageNumber) (0, d)
  (st.1 * PAGE_SIZE g + indices.getD g.TABLES_DEPTH 0, st.2)

/-! ## API -/

/-- The `VMinitialize` of the source. -/
def VMinitialize (g : Geometry) (d : Device) : Device := clearFrame g d 0

/-- The outcome of `VMread`: the returned `int`, the word stored through `value` (`none`
when nothing was stored) and the device afterwards. -/
structure ReadOutcome where
  ret : Int
  stored : Option Int
  device : Device

/-- The `VMread` of the source; `value` tells whether the output pointer is non-null. -/
def VMread (g : Geometry) (d : Device) (virtualAddress : Nat) (value : Bool) : ReadOutcome :=
  if virtualAddress ≥ VIRTUAL_MEMORY_SIZE g ∨ value = false then ⟨0, none, d⟩
  else
    let found := traverseTree g d virtualAddress
    ⟨1, some (PMread found.2 found.1), found.2⟩

/-- The `VMwrite` of the source: the returned `int` and the device afterwards. -/
def VMwrite (g : Geometry) (d : Device) (virtualAddress : Nat) (value : Int) : Int × Device :=
  if virtualAddress ≥ VIRTUAL_MEMORY_SIZE g then (0, d)
  else
    let found := traverseTree g d virtualAddress
    (1, PMwrite found.2 found.1 value)

/-- The state of the second loop of `traverseTree` after `level` iterations: the current
frame and the device. -/
def traverseUpTo (g : Geometry) (d : Device) (virtualAddress level : Nat) : Nat × Device :=
  (List.range level).foldl
    (traverseStep g (parseAddress g virtualAddress)
      (pageNumberOf g (parseAddress g virtualAddress))) (0, d)

/-! ## Sequences of API calls -/

/-- A call of the API after `VMinitialize`; `ptr` tells whether the output pointer of a
read is non-null. -/
inductive Op where
  | read (addr : Nat) (ptr : Bool)
  | write (addr : Nat) (value : Int)

/-- The device after one API call. -/
def applyOp (g : Geometry) (d : Device) : Op → Device
  | Op.read a p => (VMread g d a p).device
  | Op.write a w => (VMwrite g d a w).2

/-- The device after a sequence of API calls, first call first. -/
def run (g : Geometry) (d : Device) (ops : List Op) : Device :=
  ops.foldl (applyOp g) d

/-- A device state reached from `VMinitialize` by a sequence of `VMread`/`VMwrite` calls. -/
def Reachable (g : Geometry) (d : Device) : Prop :=
  ∃ (d0 : Device) (ops : List Op), d = run g ( VMinitialize g d0) ops

/-- The value of the most recent `VMwrite` to address `a` in a sequence of calls, `none`
when the sequence has none. -/
def lastWrite (a : Nat) (ops : List Op) : Option Int :=
  ops.foldl
    (fun acc op =>
      match op with
      | Op.write a' w => if a' = a then some w else acc
      | Op.read _ _ => acc)
    none

/-! ## The materialized tree -/

/-- The frame reached from `frame` by following the table entries at the offsets of
`path`, `none` when an entry on the way is 0. -/
def walkFrom (g : Geometry) (d : Device) : Nat → List Nat → Option Nat
  | frame, [] => some frame
  | frame, offset :: rest =>
    if PMread d (frame * PAGE_SIZE g + offset) = 0 then none
    else walkFrom g d (PMread d (frame * PAGE_SIZE g + offset)).toNat rest

/-- A sequence of at most `TABLES_DEPTH` table offsets. -/
def ValidPath (g : Geometry) (path : List Nat) : Prop :=
  path.length ≤ g.TABLES_DEPTH ∧ ∀ o ∈ path, o < PAGE_SIZE g

/-- The frame `frame` is reached from the root (frame 0) along `path`: it is part of the
materialized tree, at depth `path.length`. -/
def Resident (g : Geometry) (d : Device) (path : List Nat) (frame : Nat) : Prop :=
  ValidPath g path ∧ walkFrom g d 0 path = some frame

/-- The page number spelled by the offsets of a path, as `dfsSearch` accumulates it. -/
def pageFrom (g : Geometry) (page : Nat) (path : List Nat) : Nat :=
  path.foldl (fun pn o => (pn <<< g.OFFSET_WIDTH) ||| o) page

/-- The arguments with which `dfsSearch` reaches the end of `path` when it starts at
`frame` with the given parent, parent offset and page number: the frame, its parent, the
offset of the entry in the parent and the accumulated page number. -/
def trail (g : Geometry) (d : Device) : Nat → Nat → Nat → Nat → List Nat → Option (Nat × Nat × Nat × Nat)
  | frame, parent, offset, page, [] => some (frame, parent, offset, page)
  | frame, _, _, page, o :: rest =>
    if PMread d (frame * PAGE_SIZE g + o) = 0 then none
    else trail g d (PMread d (frame * PAGE_SIZE g + o)).toNat frame o
      ((page <<< g.OFFSET_WIDTH) ||| o) rest

/-- The events of `dfsSearch` on a subtree, in the order in which it acts on the record. -/
inductive Visit where
  | enter (frame : Nat)
  | leaf (frame parent offset page : Nat)
  | table (frame parent : Nat) (isEmpty : Bool)
  deriving DecidableEq, Repr

/-- The events of `dfsSearch` below `frame`, in order: entry of the frame, its children by
ascending offset, and for a table the test made after the loop. -/
def visits (g : Geometry) (d : Device) : Nat → Nat → Nat → Nat → Nat → List Visit
  | 0, frame, parent, offset, page => [Visit.enter frame, Visit.leaf frame parent offset page]
  | below + 1, frame, parent, _, page =>
    Visit.enter frame ::
      ((List.range (PAGE_SIZE g)).flatMap fun o =>
          if PMread d (frame * PAGE_SIZE g + o) ≠ 0 then
            visits g d below (PMread d (frame * PAGE_SIZE g + o)).toNat frame o
              ((page <<< g.OFFSET_WIDTH) ||| o)
          else []) ++
        [Visit.table frame parent
          ((List.range (PAGE_SIZE g)).all fun o => decide (PMread d (frame * PAGE_SIZE g + o) = 0))]

/-- The action of one event of `dfsSearch` on the record. -/
def applyVisit (g : Geometry) (targetPage avoidFrame : Nat) (result : FrameSearchResult) :
    Visit → FrameSearchResult
  | Visit.enter frame => noteFrame frame result
  | Visit.leaf frame parent offset page => noteLeaf g frame targetPage parent offset page result
  | Visit.table frame parent isEmpty => noteTable isEmpty frame avoidFrame parent result

/-- The page numbers of the resident leaves, in the order in which `dfsSearch` from the root
meets them (table entries by ascending offset). -/
def leafPages (g : Geometry) (d : Device) : List Nat :=
  (visits g d g.TABLES_DEPTH 0 0 0 0).filterMap fun v =>
    match v with
    | Visit.leaf _ _ _ page => some page
    | _ => none

/-- The word of virtual memory held for the page of `path` at `offset`: the word of the
leaf frame when the page is resident, the word of the backing store otherwise. -/
def content (g : Geometry) (d : Device) (path : List Nat) (offset : Nat) : Int :=
  match walkFrom g d 0 path with
  | some frame => d.ram (frame * PAGE_SIZE g + offset)
  | none => ((d.swap (pageFrom g 0 path)).getD []).getD offset 0

/-- The word of virtual memory at a virtual address, as the device holds it. -/
def vmem (g : Geometry) (d : Device) (virtualAddress : Nat) : Int :=
  content g d ((parseAddress g virtualAddress).take g.TABLES_DEPTH)
    ((parseAddress g virtualAddress).getD g.TABLES_DEPTH 0)

/-- The tree invariant: a frame is reached along one path only, the frames of the tree are
exactly `0, ..., k` for some `k < NUM_FRAMES`, and no entry of a table of the tree is
negative. -/
structure TreeInv (g : Geometry) (d : Device) : Prop where
  inj : ∀ p q f, Resident g d p f → Resident g d q f → p = q
  range : ∃ k, k < g.NUM_FRAMES ∧ ∀ f, (∃ p, Resident g d p f) ↔ f ≤ k
  nonneg : ∀ p f o, Resident g d p f → p.length < g.TABLES_DEPTH → o < PAGE_SIZE g →
    0 ≤ d.ram (f * PAGE_SIZE g + o)

/-! ## Concrete geometries and devices -/

/-- The small geometry of the specification's scenarios: `OFFSET_WIDTH = 4`,
`TABLES_DEPTH = 2`, `NUM_FRAMES = 6`. -/
def demoGeometry : Geometry := ⟨4, 2, 6, by decide, by decide⟩

/-- A geometry with fewer frames than table levels: `OFFSET_WIDTH = 1`, `TABLES_DEPTH = 2`,
`NUM_FRAMES = 2`. -/
def tightGeometry : Geometry := ⟨1, 2, 2, by decide, by decide⟩

/-- A device whose memory holds arbitrary non-zero words and whose backing store is empty. -/
def demoDevice : Device := ⟨fun a => (a : Int) + 7, fun _ => none, []⟩

/-- The device of the scenarios right after `VMinitialize`. -/
def demoStart : Device := VMinitialize demoGeometry demoDevice

/-- The device of the scenarios after the pages 0, 1, 2 and 3 were written: all six frames
are in use. -/
def demoFull : Device :=
  run demoGeometry demoStart [Op.write 0 1, Op.write 16 2, Op.write 32 3, Op.write 48 4]

/-- The resolver at level 1 of the first write, `VMwrite(13, 3)` on `demoStart`: the current
frame, which is the table just created, and the device. -/
def coldFault : Nat × Device := traverseUpTo demoGeometry demoStart 13 1

/-- The resolver at level 1 of `VMwrite(64, 5)` on `demoFull`: the current frame and the
device at the fault that forces an eviction. -/
def demoFault : Nat × Device := traverseUpTo demoGeometry demoFull 64 1

/-- The record of the scan made for the fault of `demoFault` (the faulting page is 4). -/
def demoScan : FrameSearchResult :=
  scanTree demoGeometry demoFault.2 (pageNumberOf demoGeometry (parseAddress demoGeometry 64))
    demoFault.1

/-- The device of the scenarios after the pages 0, 16, 1 and 2 were written: the write of
page 2 evicted page 16, whose table, frame 3, is left without children. -/
def demoSparse : Device :=
  run demoGeometry demoStart [Op.write 0 1, Op.write 256 2, Op.write 16 3, Op.write 32 4]

/-- A geometry with as many frames as table levels: `OFFSET_WIDTH = 1`, `TABLES_DEPTH = 3`,
`NUM_FRAMES = 3`. -/
def crampedGeometry : Geometry := ⟨1, 3, 3, by decide, by decide⟩

/-- The device of `crampedGeometry` after `VMinitialize` and `VMwrite(8, 2)`. -/
def crampedDevice : Device :=
  run crampedGeometry ( VMinitialize crampedGeometry demoDevice) [Op.write 8 2]

/-- A geometry without table levels: `OFFSET_WIDTH = 1`, `TABLES_DEPTH = 0`,
`NUM_FRAMES = 2`. -/
def flatGeometry : Geometry := ⟨1, 0, 2, by decide, by decide⟩

/-- The resolver of `tightGeometry` at level 1 of the first write, `VMwrite(0, 3)`. -/
def tightFault : Nat × Device :=
  traverseUpTo tightGeometry ( VMinitialize tightGeometry demoDevice) 0 1

/-- The resolver on `demoSparse` at level 1 of `VMwrite(48, 5)`, a write to page 3. -/
def sparseFault : Nat × Device := traverseUpTo demoGeometry demoSparse 48 1

/-- A device whose physical memory is all zeros and whose backing store holds no page. -/
def blankDevice : Device := ⟨fun _ => 0, fun _ => none, []⟩

/-- A geometry with fewer frames than table levels: `OFFSET_WIDTH = 1`, `TABLES_DEPTH = 4`,
`NUM_FRAMES = 3`. -/
def slimGeometry : Geometry := ⟨1, 4, 3, by decide, by decide⟩

/-- The device of `slimGeometry` after `VMinitialize`, `VMwrite(18, 1)` and `VMwrite(0, 2)`. -/
def slimDevice : Device :=
  run slimGeometry ( VMinitialize slimGeometry blankDevice) [Op.write 18 1, Op.write 0 2]

/-! ## The second source variant, `yaara/VirtualMemory.cpp` -/

namespace yaara

/-- The `FindFrameReturnVal` enumeration of the source. -/
inductive FindFrameReturnVal where
  | CONTINUE
  | EMPTY_PAGE_TABLE
  | BIGGER_DISTANCE
  | BREAK
  deriving DecidableEq, Repr

/-- The `frameSearchingVariables` record of the source. -/
structure frameSearchingVariables where
  emptyTableIndex : Nat
  maxUsedFrame : Nat
  maxDistance : Nat
  furthestAwayReferenceAddress : Nat
  furthestAwayPageIndex : Nat
  deriving DecidableEq, Repr

/-- The default member initializers of `frameSearchingVariables`. -/
def frameSearchingVariables.zero : frameSearchingVariables :=
  ⟨0, 0, 0, 0, 0⟩

/-- The `parseAddress` of the source, whose loop is that of the first variant. -/
def parseAddress (g : Geometry) (address : Nat) : List Nat :=
  parseLoop g (g.TABLES_DEPTH + 1) address []

/-- The `checkLeaf` of the source; `NUM_PAGES - distance` is a `uint64_t` subtraction. -/
def checkLeaf (g : Geometry) (page intermediatePageValue : Nat)
    (varsStruct : frameSearchingVariables) : FindFrameReturnVal × frameSearchingVariables :=
  let distance :=
    if page > intermediatePageValue then page - intermediatePageValue
    else intermediatePageValue - page
  let rest := (NUM_PAGES g + 2 ^ 64 - distance % 2 ^ 64) % 2 ^ 64
  let cyclicalDistance := if distance < rest then distance else rest
  if cyclicalDistance > varsStruct.maxDistance then
    (FindFrameReturnVal.BIGGER_DISTANCE,
      { varsStruct with
        maxDistance := cyclicalDistance
        furthestAwayPageIndex := intermediatePageValue })
  else (FindFrameReturnVal.CONTINUE, varsStruct)

/-- The `findFrame` of the source.  The first argument is the number of levels below the
frame, `TABLES_DEPTH - level`.  The loop over the entries carries the value returned from
inside the loop (`none` while the loop runs), `isEmpty`, the record and the device, which
the scan writes when it meets an empty table. -/
def findFrame (g : Geometry) :
    Nat → Nat → Nat → Nat → Nat → frameSearchingVariables × Device →
      FindFrameReturnVal × frameSearchingVariables × Device
  | 0, frameIndex, _, page, intermediatePageValue, st =>
    let varsStruct :=
      if frameIndex > st.1.maxUsedFrame then { st.1 with maxUsedFrame := frameIndex } else st.1
    let checked := checkLeaf g page intermediatePageValue varsStruct
    (checked.1, checked.2, st.2)
  | below + 1, frameIndex, parentTable, page, intermediatePageValue, st =>
    let varsStruct :=
      if frameIndex > st.1.maxUsedFrame then { st.1 with maxUsedFrame := frameIndex } else st.1
    let looped : Option FindFrameReturnVal × Bool × frameSearchingVariables × Device :=
      (List.range (PAGE_SIZE g)).foldl
        (fun acc i =>
          match acc.1 with
          | some _ => acc
          | none =>
            let value := PMread acc.2.2.2 (frameIndex * PAGE_SIZE g + i)
            if value ≠ 0 then
              let returned := findFrame g below value.toNat parentTable page
                ((intermediatePageValue <<< g.OFFSET_WIDTH) + i) (acc.2.2.1, acc.2.2.2)
              match returned.1 with
              | FindFrameReturnVal.BREAK =>
                (some FindFrameReturnVal.BREAK, false, returned.2.1, returned.2.2)
              | FindFrameReturnVal.EMPTY_PAGE_TABLE =>
                (some FindFrameReturnVal.BREAK, false, returned.2.1,
                  PMwrite returned.2.2 (frameIndex * PAGE_SIZE g + i) 0)
              | FindFrameReturnVal.BIGGER_DISTANCE =>
                (none, false,
                  { returned.2.1 with
                    furthestAwayReferenceAddress := frameIndex * PAGE_SIZE g + i },
                  returned.2.2)
              | FindFrameReturnVal.CONTINUE => (none, false, returned.2.1, returned.2.2)
            else acc)
        (none, true, varsStruct, st.2)
    match looped.1 with
    | some returnVal => (returnVal, looped.2.2.1, looped.2.2.2)
    | none =>
      if looped.2.1 = true ∧ frameIndex ≠ parentTable then
        (FindFrameReturnVal.EMPTY_PAGE_TABLE,
          { looped.2.2.1 with emptyTableIndex := frameIndex }, looped.2.2.2)
      else (FindFrameReturnVal.CONTINUE, looped.2.2.1, looped.2.2.2)

/-- The `swapIn` of the source. -/
def swapIn (g : Geometry) (d : Device) (isTable : Bool) (page newFrameIndex : Nat) : Device :=
  if isTable = true then
    (List.range (PAGE_SIZE g)).foldl
      (fun dev i => PMwrite dev (newFrameIndex * PAGE_SIZE g + i) 0) d
  else PMrestore g d newFrameIndex page

/-- The `pageFault` of the source: the frame returned and the device afterwards. -/
def pageFault (g : Geometry) (d : Device) (isTable : Bool) (parentTable page : Nat) :
    Nat × Device :=
  let scanned := findFrame g g.TABLES_DEPTH 0 parentTable page 0 (frameSearchingVariables.zero, d)
  let varsStruct := scanned.2.1
  let d1 := scanned.2.2
  let chosen : Nat × Device :=
    if varsStruct.emptyTableIndex ≠ 0 then (varsStruct.emptyTableIndex, d1)
    else if varsStruct.maxUsedFrame < g.NUM_FRAMES - 1 then (varsStruct.maxUsedFrame + 1, d1)
    else
      let newFrameIndex := (PMread d1 varsStruct.furthestAwayReferenceAddress).toNat
      (newFrameIndex,
        PMwrite (PMevict g d1 newFrameIndex varsStruct.furthestAwayPageIndex)
          varsStruct.furthestAwayReferenceAddress 0)
  (chosen.1, swapIn g chosen.2 isTable page chosen.1)

/-- The `getAddressIteration` of the source, from the current frame and the device. -/
def getAddressIteration (g : Geometry) (virtualAddress : Nat) (parsedAddress : List Nat)
    (st : Nat × Device) (i : Nat) : Nat × Device :=
  let currentAddress := st.1
  let value := PMread st.2 (currentAddress * PAGE_SIZE g + parsedAddress.getD i 0)
  if value = 0 then
    let faulted := pageFault g st.2 (decide (i < g.TABLES_DEPTH - 1)) currentAddress
      (virtualAddress >>> g.OFFSET_WIDTH)
    (faulted.1,
      PMwrite faulted.2 (currentAddress * PAGE_SIZE g + parsedAddress.getD i 0) (faulted.1 : Int))
  else (value.toNat, st.2)

/-- The `getPhysicalAddress` of the source: the physical address and the device afterwards. -/
def getPhysicalAddress (g : Geometry) (d : Device) (virtualAddress : Nat) : Nat × Device :=
  let parsedAddress := parseAddress g virtualAddress
  let st := (List.range g.TABLES_DEPTH).foldl
    (getAddressIteration g virtualAddress parsedAddress) (0, d)
  (st.1 * PAGE_SIZE g + parsedAddress.getD g.TABLES_DEPTH 0, st.2)

/-- The `VMinitialize` of the source. -/
def VMinitialize (g : Geometry) (d : Device) : Device :=
  (List.range (PAGE_SIZE g)).foldl (fun dev i => PMwrite dev i 0) d

/-- The `VMread` of the source; `value` tells whether the output pointer is non-null. -/
def VMread (g : Geometry) (d : Device) (virtualAddress : Nat) (value : Bool) : ReadOutcome :=
  if value = false ∨ virtualAddress ≥ VIRTUAL_MEMORY_SIZE g then ⟨0, none, d⟩
  else
    let found := getPhysicalAddress g d virtualAddress
    ⟨1, some (PMread found.2 found.1), found.2⟩

/-- The `VMwrite` of the source: the returned `int` and the device afterwards. -/
def VMwrite (g : Geometry) (d : Device) (virtualAddress : Nat) (value : Int) : Int × Device :=
  if virtualAddress ≥ VIRTUAL_MEMORY_SIZE g then (0, d)
  else
    let found := getPhysicalAddress g d virtualAddress
    (1, PMwrite found.2 found.1 value)

/-- The device after one API call of the second variant. -/
def applyOp (g : Geometry) (d : Device) : Op → Device
  | Op.read a p => (VMread g d a p).device
  | Op.write a w => (VMwrite g d a w).2

/-- The device after a sequence of API calls of the second variant, first call first. -/
def run (g : Geometry) (d : Device) (ops : List Op) : Device :=
  ops.foldl (applyOp g) d

end yaara

/-- The values the API of the first variant returns along a sequence of calls: for each call
the returned `int` and the word stored through the output pointer of a read. -/
def returns (g : Geometry) (d : Device) : List Op → List (Int × Option Int)
  | [] => []
  | Op.read a p :: rest =>
    ((VMread g d a p).ret, (VMread g d a p).stored) :: returns g (VMread g d a p).device rest
  | Op.write a w :: rest => ((VMwrite g d a w).1, none) :: returns g (VMwrite g d a w).2 rest

/-- The values the API of the second variant returns along a sequence of calls. -/
def yaara.returns (g : Geometry) (d : Device) : List Op → List (Int × Option Int)
  | [] => []
  | Op.read a p :: rest =>
    ((yaara.VMread g d a p).ret, (yaara.VMread g d a p).stored) ::
      yaara.returns g (yaara.VMread g d a p).device rest
  | Op.write a w :: rest =>
    ((yaara.VMwrite g d a w).1, none) :: yaara.returns g (yaara.VMwrite g d a w).2 rest

/-- The records of the two scans carry the same information, as long as neither has met an
empty table it may reuse. -/
def yaara.Agrees (g : Geometry) (result : FrameSearchResult)
    (varsStruct : yaara.frameSearchingVariables) : Prop :=
  varsStruct.emptyTableIndex = 0 ∧ result.emptyTable = 0 ∧
  varsStruct.maxUsedFrame = result.maxUsedFrame ∧
  varsStruct.maxDistance = result.bestDistance ∧
  varsStruct.furthestAwayPageIndex = result.bestEvictPageNumber ∧
  varsStruct.furthestAwayReferenceAddress =
    result.bestEvictParent * PAGE_SIZE g + result.bestEvictOffset

/-- A frame both scans take for reuse when they leave it: a table (`below` levels above the
leaves, `below > 0`) whose entries are all 0 and which is neither the protected frame nor
frame 0. -/
def yaara.Reusable (g : Geometry) (d : Device) (avoidFrame below frame : Nat) : Prop :=
  0 < below ∧ (∀ o, o < PAGE_SIZE g → d.ram (frame * PAGE_SIZE g + o) = 0) ∧
    frame ≠ avoidFrame ∧ frame ≠ 0

/-- How the outcome `found` of `findFrame` on a subtree relates to the record `result` that
`dfsSearch` leaves on the same subtree, entered from entry `parentOffset` of `parentFrame`
on the device `d`: one case for each value `findFrame` returns. -/
def yaara.ScanOutcome (g : Geometry) (d : Device) (avoidFrame below frame parentFrame
    parentOffset : Nat) (result : FrameSearchResult)
    (found : yaara.FindFrameReturnVal × yaara.frameSearchingVariables × Device) : Prop :=
  (found.1 = yaara.FindFrameReturnVal.CONTINUE ∧ found.2.2 = d ∧
    yaara.Agrees g result found.2.1 ∧ ¬ yaara.Reusable g d avoidFrame below frame) ∨
  (found.1 = yaara.FindFrameReturnVal.BIGGER_DISTANCE ∧ found.2.2 = d ∧
    yaara.Agrees g result
      { found.2.1 with
        furthestAwayReferenceAddress := parentFrame * PAGE_SIZE g + parentOffset } ∧
    below = 0) ∨
  (found.1 = yaara.FindFrameReturnVal.EMPTY_PAGE_TABLE ∧ found.2.2 = d ∧
    yaara.Reusable g d avoidFrame below frame ∧
    result.emptyTable = frame ∧ result.emptyTableParent = parentFrame ∧
    found.2.1.emptyTableIndex = frame) ∨
  (found.1 = yaara.FindFrameReturnVal.BREAK ∧ result.emptyTable ≠ 0 ∧
    found.2.1.emptyTableIndex = result.emptyTable ∧
    found.2.2 = unlinkFromParent g d result.emptyTableParent result.emptyTable)

/-- How the states of the loops of `findFrame` and `dfsSearch` over the first `n` entries of
the table `frame` relate: either no empty table was met, the device is untouched and the
records agree, or the second variant has unlinked the table that the first has recorded. -/
def yaara.LoopOutcome (g : Geometry) (d : Device) (avoidFrame below frame n : Nat)
    (scanned : Bool × FrameSearchResult)
    (looped : Option yaara.FindFrameReturnVal × Bool × yaara.frameSearchingVariables × Device) :
    Prop :=
  (looped.1 = none ∧ looped.2.2.2 = d ∧ looped.2.1 = scanned.1 ∧
    (scanned.1 = true ↔ ∀ j, j < n → d.ram (frame * PAGE_SIZE g + j) = 0) ∧
    yaara.Agrees g scanned.2 looped.2.2.1 ∧
    ∀ j, j < n → d.ram (frame * PAGE_SIZE g + j) ≠ 0 →
      ¬ yaara.Reusable g d avoidFrame below (d.ram (frame * PAGE_SIZE g + j)).toNat) ∨
  (looped.1 = some yaara.FindFrameReturnVal.BREAK ∧ scanned.2.emptyTable ≠ 0 ∧
    looped.2.2.1.emptyTableIndex = scanned.2.emptyTable ∧
    looped.2.2.2 = unlinkFromParent g d scanned.2.emptyTableParent scanned.2.emptyTable)

theorem PAGE_SIZE_eq (g : Geometry) : PAGE_SIZE g = 2 ^ g.OFFSET_WIDTH := by
  simp [PAGE_SIZE, Nat.one_shiftLeft]

theorem PAGE_SIZE_pos (g : Geometry) : 0 < PAGE_SIZE g := by
  rw [PAGE_SIZE_eq]; positivity

theorem NUM_PAGES_eq (g : Geometry) : NUM_PAGES g = PAGE_SIZE g ^ g.TABLES_DEPTH := by
  simp [NUM_PAGES, PAGE_SIZE, Nat.one_shiftLeft, pow_mul]

theorem NUM_PAGES_pos (g : Geometry) : 0 < NUM_PAGES g := by
  rw [NUM_PAGES_eq]; exact pow_pos (PAGE_SIZE_pos g) _

theorem VIRTUAL_MEMORY_SIZE_eq (g : Geometry) :
    VIRTUAL_MEMORY_SIZE g = PAGE_SIZE g ^ (g.TABLES_DEPTH + 1) := by
  simp [VIRTUAL_MEMORY_SIZE, NUM_PAGES_eq, pow_succ]

theorem VIRTUAL_MEMORY_SIZE_lt (g : Geometry) : VIRTUAL_MEMORY_SIZE g < 2 ^ 64 := by
  rw [VIRTUAL_MEMORY_SIZE_eq, PAGE_SIZE_eq, ← pow_mul]
  exact Nat.pow_lt_pow_right (by norm_num) g.fits

theorem parseLoop_eq (g : Geometry) (n : Nat) : ∀ (va : Nat) (acc : List Nat),
    parseLoop g n va acc =
      (List.range n).map (fun i => va / PAGE_SIZE g ^ (n - 1 - i) % PAGE_SIZE g) ++ acc := by
  induction n with
  | zero => intro va acc; simp [parseLoop]
  | succ n ih =>
    intro va acc
    rw [parseLoop, ih, List.range_succ, List.map_append, List.append_assoc]
    congr 1
    · apply List.map_congr_left
      intro i hi
      have hi' : i < n := List.mem_range.mp hi
      have e : n + 1 - 1 - i = (n - 1 - i) + 1 := by omega
      rw [e, pow_succ, Nat.shiftRight_eq_div_pow, ← PAGE_SIZE_eq, Nat.div_div_eq_div_mul,
        Nat.mul_comm]
    · simp [Nat.and_pow_two_sub_one_eq_mod, Nat.one_shiftLeft, PAGE_SIZE_eq]

theorem parseAddress_eq (g : Geometry) (va : Nat) :
    parseAddress g va =
      (List.range (g.TABLES_DEPTH + 1)).map
        (fun i => va / PAGE_SIZE g ^ (g.TABLES_DEPTH - i) % PAGE_SIZE g) := by
  simp [parseAddress, parseLoop_eq]


/-! ## The device primitives -/

@[simp] theorem PMwrite_ram (d : Device) (addr : Nat) (v : Int) (a : Nat) :
    (PMwrite d addr v).ram a = if a = addr then v else d.ram a := rfl

@[simp] theorem PMwrite_swap (d : Device) (addr : Nat) (v : Int) :
    (PMwrite d addr v).swap = d.swap := rfl

@[simp] theorem PMwrite_journal (d : Device) (addr : Nat) (v : Int) :
    (PMwrite d addr v).journal = Call.write addr v :: d.journal := rfl

@[simp] theorem PMevict_ram (g : Geometry) (d : Device) (f p : Nat) :
    (PMevict g d f p).ram = d.ram := rfl

@[simp] theorem PMevict_journal (g : Geometry) (d : Device) (f p : Nat) :
    (PMevict g d f p).journal = Call.evict f p :: d.journal := rfl

@[simp] theorem PMrestore_swap (g : Geometry) (d : Device) (f p : Nat) :
    (PMrestore g d f p).swap = d.swap := rfl

@[simp] theorem PMrestore_journal (g : Geometry) (d : Device) (f p : Nat) :
    (PMrestore g d f p).journal = Call.restore f p :: d.journal := rfl

theorem PMread_eq (d : Device) (a : Nat) : PMread d a = d.ram a := rfl

/-- Words of a frame: the address lies in frame `f`. -/
theorem in_frame_iff (g : Geometry) (f a : Nat) :
    (f * PAGE_SIZE g ≤ a ∧ a < f * PAGE_SIZE g + PAGE_SIZE g) ↔ a / PAGE_SIZE g = f := by
  have hp := PAGE_SIZE_pos g
  constructor
  · rintro ⟨h1, h2⟩
    apply Nat.div_eq_of_lt_le
    · rw [Nat.mul_comm] at h1; rwa [Nat.mul_comm]
    · rw [Nat.succ_mul]; exact h2
  · rintro rfl
    constructor
    · exact Nat.div_mul_le_self a _
    · have := Nat.lt_div_mul_add (a := a) hp
      exact this

theorem frame_addr_div (g : Geometry) (f o : Nat) (ho : o < PAGE_SIZE g) :
    (f * PAGE_SIZE g + o) / PAGE_SIZE g = f := by
  rw [← in_frame_iff]; omega

theorem frame_addr_inj (g : Geometry) {f o f' o' : Nat} (ho : o < PAGE_SIZE g)
    (ho' : o' < PAGE_SIZE g) (h : f * PAGE_SIZE g + o = f' * PAGE_SIZE g + o') :
    f = f' ∧ o = o' := by
  have h1 := frame_addr_div g f o ho
  have h2 := frame_addr_div g f' o' ho'
  rw [h] at h1
  have hf : f = f' := by rw [← h1, h2]
  subst hf
  exact ⟨rfl, by omega⟩

theorem clearLoop_ram (base : Nat) (l : List Nat) : ∀ (d : Device) (a : Nat),
    (l.foldl (fun dev offset => PMwrite dev (base + offset) 0) d).ram a =
      if ∃ o ∈ l, a = base + o then 0 else d.ram a := by
  induction l with
  | nil => intro d a; simp
  | cons x l ih =>
    intro d a
    rw [List.foldl_cons, ih]
    by_cases h : ∃ o ∈ l, a = base + o
    · have : ∃ o ∈ x :: l, a = base + o := by
        obtain ⟨o, ho, e⟩ := h; exact ⟨o, List.mem_cons_of_mem _ ho, e⟩
      simp only [h, this, if_true]
    · by_cases hx : a = base + x
      · simp [hx]
      · have : ¬ ∃ o ∈ x :: l, a = base + o := by
          rintro ⟨o, ho, e⟩
          rcases List.mem_cons.mp ho with rfl | ho
          · exact hx e
          · exact h ⟨o, ho, e⟩
        simp only [h, this, if_false, PMwrite_ram, hx]

theorem clearLoop_swap (base : Nat) (l : List Nat) : ∀ (d : Device),
    (l.foldl (fun dev offset => PMwrite dev (base + offset) 0) d).swap = d.swap := by
  induction l with
  | nil => intro d; rfl
  | cons x l ih => intro d; rw [List.foldl_cons, ih]; rfl

theorem clearFrame_ram (g : Geometry) (d : Device) (f a : Nat) :
    (clearFrame g d f).ram a = if a / PAGE_SIZE g = f then 0 else d.ram a := by
  unfold clearFrame
  rw [clearLoop_ram]
  have : (∃ o ∈ List.range (PAGE_SIZE g), a = f * PAGE_SIZE g + o) ↔ a / PAGE_SIZE g = f := by
    rw [← in_frame_iff]
    constructor
    · rintro ⟨o, ho, rfl⟩
      have := List.mem_range.mp ho
      omega
    · rintro ⟨h1, h2⟩
      exact ⟨a - f * PAGE_SIZE g, List.mem_range.mpr (by omega), by omega⟩
  simp only [this]

@[simp] theorem clearFrame_swap (g : Geometry) (d : Device) (f : Nat) :
    (clearFrame g d f).swap = d.swap := by
  unfold clearFrame; exact clearLoop_swap _ _ _

theorem PMrestore_ram (g : Geometry) (d : Device) (f p a : Nat) :
    (PMrestore g d f p).ram a =
      if a / PAGE_SIZE g = f then ((d.swap p).getD []).getD (a % PAGE_SIZE g) 0 else d.ram a := by
  show (if _ then _ else _) = _
  by_cases h : a / PAGE_SIZE g = f
  · have h' := (in_frame_iff g f a).mpr h
    have e : a - f * PAGE_SIZE g = a % PAGE_SIZE g := by
      have := Nat.div_add_mod a (PAGE_SIZE g)
      rw [h, Nat.mul_comm] at this
      omega
    simp only [h', h, e, and_self, if_true]
  · have h' : ¬ (f * PAGE_SIZE g ≤ a ∧ a < f * PAGE_SIZE g + PAGE_SIZE g) := by
      rw [in_frame_iff]; exact h
    simp only [h', h, if_false]

/-! ## `dfsSearch` as a fold over its events -/

theorem dfsLoop_eq (g : Geometry) (d : Device) (below currentFrame targetPage avoidFrame
    currentPageNumber : Nat)
    (ih : ∀ f par off pn r, dfsSearch g d below f targetPage avoidFrame par off pn r =
      (visits g d below f par off pn).foldl (applyVisit g targetPage avoidFrame) r)
    (l : List Nat) : ∀ (b : Bool) (r : FrameSearchResult),
    l.foldl
        (fun (acc : Bool × FrameSearchResult) offset =>
          if PMread d (currentFrame * PAGE_SIZE g + offset) ≠ 0 then
            (false, dfsSearch g d below (PMread d (currentFrame * PAGE_SIZE g + offset)).toNat
              targetPage avoidFrame currentFrame offset
              ((currentPageNumber <<< g.OFFSET_WIDTH) ||| offset) acc.2)
          else acc)
        (b, r) =
      (b && l.all (fun o => decide (PMread d (currentFrame * PAGE_SIZE g + o) = 0)),
        (l.flatMap fun o =>
          if PMread d (currentFrame * PAGE_SIZE g + o) ≠ 0 then
            visits g d below (PMread d (currentFrame * PAGE_SIZE g + o)).toNat currentFrame o
              ((currentPageNumber <<< g.OFFSET_WIDTH) ||| o)
          else []).foldl (applyVisit g targetPage avoidFrame) r) := by
  induction l with
  | nil => intro b r; simp
  | cons x l ihl =>
    intro b r
    rw [List.foldl_cons, List.flatMap_cons, List.foldl_append, List.all_cons]
    by_cases hx : PMread d (currentFrame * PAGE_SIZE g + x) = 0
    · simp only [hx, ne_eq, not_true_eq_false, if_false, List.foldl_nil, decide_True,
        Bool.true_and]
      exact ihl b r
    · simp only [hx, ne_eq, not_false_eq_true, if_true, decide_False, Bool.false_and,
        Bool.and_false]
      rw [ihl, ih]
      simp

theorem dfsSearch_eq_foldl (g : Geometry) (d : Device) (targetPage avoidFrame : Nat) :
    ∀ (below f par off pn : Nat) (r : FrameSearchResult),
      dfsSearch g d below f targetPage avoidFrame par off pn r =
        (visits g d below f par off pn).foldl (applyVisit g targetPage avoidFrame) r := by
  intro below
  induction below with
  | zero => intro f par off pn r; simp [dfsSearch, visits, applyVisit]
  | succ n ih =>
    intro f par off pn r
    rw [dfsSearch, visits, List.foldl_append, List.foldl_cons]
    have := dfsLoop_eq g d n f targetPage avoidFrame pn ih (List.range (PAGE_SIZE g)) true
      (noteFrame f r)
    simp only [ne_eq] at this ⊢
    rw [this]
    simp [applyVisit]

/-! ## What the fold records -/

theorem applyVisit_max (g : Geometry) (t a : Nat) (r : FrameSearchResult) (v : Visit) :
    (applyVisit g t a r v).maxUsedFrame =
      match v with
      | Visit.enter f => max r.maxUsedFrame f
      | _ => r.maxUsedFrame := by
  cases v with
  | enter f =>
    simp only [applyVisit, noteFrame]
    split
    · simp only; omega
    · omega
  | leaf f par off pn => simp only [applyVisit, noteLeaf]; split <;> rfl
  | table f par e => simp only [applyVisit, noteTable]; split <;> rfl

theorem fold_max (g : Geometry) (t a : Nat) (evs : List Visit) : ∀ (r : FrameSearchResult),
    r.maxUsedFrame ≤ (evs.foldl (applyVisit g t a) r).maxUsedFrame ∧
    (∀ f, Visit.enter f ∈ evs → f ≤ (evs.foldl (applyVisit g t a) r).maxUsedFrame) ∧
    ((evs.foldl (applyVisit g t a) r).maxUsedFrame = r.maxUsedFrame ∨
      Visit.enter (evs.foldl (applyVisit g t a) r).maxUsedFrame ∈ evs) := by
  induction evs with
  | nil => intro r; simp
  | cons v evs ih =>
    intro r
    rw [List.foldl_cons]
    obtain ⟨h1, h2, h3⟩ := ih (applyVisit g t a r v)
    have hv := applyVisit_max g t a r v
    refine ⟨?_, ?_, ?_⟩
    · cases v <;> simp only at hv <;> omega
    · intro f hf
      rcases List.mem_cons.mp hf with rfl | hf
      · simp only at hv; omega
      · exact h2 f hf
    · rcases h3 with h3 | h3
      · cases v with
        | enter f =>
          simp only at hv
          by_cases hle : f ≤ r.maxUsedFrame
          · left; omega
          · right
            have : (List.foldl (applyVisit g t a) (applyVisit g t a r (Visit.enter f)) evs).maxUsedFrame = f := by
              omega
            rw [this]; exact List.mem_cons_self _ _
        | leaf f par off pn => left; simp only at hv; omega
        | table f par e => left; simp only at hv; omega
      · right; exact List.mem_cons_of_mem _ h3



theorem applyVisit_empty (g : Geometry) (t a : Nat) (r : FrameSearchResult) (v : Visit) :
    ((applyVisit g t a r v).emptyTable, (applyVisit g t a r v).emptyTableParent) =
      match v with
      | Visit.table f par e =>
        if e = true ∧ f ≠ 0 ∧ f ≠ a ∧ r.emptyTable = 0 then (f, par)
        else (r.emptyTable, r.emptyTableParent)
      | _ => (r.emptyTable, r.emptyTableParent) := by
  cases v with
  | enter f => simp only [applyVisit, noteFrame]; split <;> rfl
  | leaf f par off pn => simp only [applyVisit, noteLeaf]; split <;> rfl
  | table f par e => simp only [applyVisit, noteTable]; split <;> rfl

theorem fold_empty_keep (g : Geometry) (t a : Nat) (evs : List Visit) :
    ∀ (r : FrameSearchResult), r.emptyTable ≠ 0 →
      (evs.foldl (applyVisit g t a) r).emptyTable = r.emptyTable ∧
      (evs.foldl (applyVisit g t a) r).emptyTableParent = r.emptyTableParent := by
  induction evs with
  | nil => intro r _; simp
  | cons v evs ih =>
    intro r hr
    rw [List.foldl_cons]
    have hv := applyVisit_empty g t a r v
    have hkeep : (applyVisit g t a r v).emptyTable = r.emptyTable ∧
        (applyVisit g t a r v).emptyTableParent = r.emptyTableParent := by
      cases v with
      | enter f => simp only [Prod.mk.injEq] at hv; exact hv
      | leaf f par off pn => simp only [Prod.mk.injEq] at hv; exact hv
      | table f par e =>
        simp only at hv
        rw [if_neg (by tauto)] at hv
        simp only [Prod.mk.injEq] at hv; exact hv
    obtain ⟨h1, h2⟩ := ih (applyVisit g t a r v) (by rw [hkeep.1]; exact hr)
    exact ⟨h1.trans hkeep.1, h2.trans hkeep.2⟩

theorem fold_empty (g : Geometry) (t a : Nat) (evs : List Visit) :
    ∀ (r : FrameSearchResult), r.emptyTable = 0 →
      ((evs.foldl (applyVisit g t a) r).emptyTable = 0 ∧
        ∀ f par, Visit.table f par true ∈ evs → f = 0 ∨ f = a) ∨
      (∃ l1 l2, evs = l1 ++ Visit.table (evs.foldl (applyVisit g t a) r).emptyTable
            (evs.foldl (applyVisit g t a) r).emptyTableParent true :: l2 ∧
        (evs.foldl (applyVisit g t a) r).emptyTable ≠ 0 ∧
        (evs.foldl (applyVisit g t a) r).emptyTable ≠ a ∧
        ∀ f par, Visit.table f par true ∈ l1 → f = 0 ∨ f = a) := by
  induction evs with
  | nil => intro r hr; left; simp [hr]
  | cons v evs ih =>
    intro r hr
    rw [List.foldl_cons]
    have hv := applyVisit_empty g t a r v
    by_cases hset : ∃ f par, v = Visit.table f par true ∧ f ≠ 0 ∧ f ≠ a
    · obtain ⟨f, par, rfl, hf0, hfa⟩ := hset
      simp only at hv
      rw [if_pos ⟨trivial, hf0, hfa, hr⟩] at hv
      simp only [Prod.mk.injEq] at hv
      obtain ⟨k1, k2⟩ := fold_empty_keep g t a evs (applyVisit g t a r (Visit.table f par true))
        (by rw [hv.1]; exact hf0)
      right
      refine ⟨[], evs, ?_, ?_, ?_, ?_⟩
      · rw [k1, k2, hv.1, hv.2]; rfl
      · rw [k1, hv.1]; exact hf0
      · rw [k1, hv.1]; exact hfa
      · intro f' par' h; cases h
    · have hkeep : (applyVisit g t a r v).emptyTable = 0 := by
        cases v with
        | enter f => simp only [Prod.mk.injEq] at hv; rw [hv.1]; exact hr
        | leaf f par off pn => simp only [Prod.mk.injEq] at hv; rw [hv.1]; exact hr
        | table f par e =>
          simp only at hv
          rw [if_neg] at hv
          · simp only [Prod.mk.injEq] at hv; rw [hv.1]; exact hr
          · rintro ⟨he, hf0, hfa, _⟩
            exact hset ⟨f, par, by rw [he], hf0, hfa⟩
      have hv' : ∀ f par, v = Visit.table f par true → f = 0 ∨ f = a := by
        intro f par e
        by_contra hcon
        push_neg at hcon
        exact hset ⟨f, par, e, hcon.1, hcon.2⟩
      rcases ih (applyVisit g t a r v) hkeep with ⟨h0, hall⟩ | ⟨l1, l2, he, hne, hna, hall⟩
      · left
        refine ⟨h0, ?_⟩
        intro f par hmem
        rcases List.mem_cons.mp hmem with e | hmem
        · exact hv' f par e.symm
        · exact hall f par hmem
      · right
        refine ⟨v :: l1, l2, ?_, hne, hna, ?_⟩
        · rw [List.cons_append, ← he]
        · intro f par hmem
          rcases List.mem_cons.mp hmem with e | hmem
          · exact hv' f par e.symm
          · exact hall f par hmem



theorem applyVisit_best_other (g : Geometry) (t a : Nat) (r : FrameSearchResult) (v : Visit)
    (hv : ∀ f par off pn, v ≠ Visit.leaf f par off pn) :
    (applyVisit g t a r v).bestDistance = r.bestDistance ∧
    (applyVisit g t a r v).bestEvictFrame = r.bestEvictFrame ∧
    (applyVisit g t a r v).bestEvictParent = r.bestEvictParent ∧
    (applyVisit g t a r v).bestEvictOffset = r.bestEvictOffset ∧
    (applyVisit g t a r v).bestEvictPageNumber = r.bestEvictPageNumber := by
  cases v with
  | enter f => simp only [applyVisit, noteFrame]; split <;> simp
  | leaf f par off pn => exact absurd rfl (hv f par off pn)
  | table f par e => simp only [applyVisit, noteTable]; split <;> simp

theorem applyVisit_best_leaf (g : Geometry) (t a : Nat) (r : FrameSearchResult)
    (f par off pn : Nat) :
    (r.bestDistance < computeCyclicDistance g t pn ∧
      (applyVisit g t a r (Visit.leaf f par off pn)).bestDistance = computeCyclicDistance g t pn ∧
      (applyVisit g t a r (Visit.leaf f par off pn)).bestEvictFrame = f ∧
      (applyVisit g t a r (Visit.leaf f par off pn)).bestEvictParent = par ∧
      (applyVisit g t a r (Visit.leaf f par off pn)).bestEvictOffset = off ∧
      (applyVisit g t a r (Visit.leaf f par off pn)).bestEvictPageNumber = pn) ∨
    (computeCyclicDistance g t pn ≤ r.bestDistance ∧
      (applyVisit g t a r (Visit.leaf f par off pn)).bestDistance = r.bestDistance ∧
      (applyVisit g t a r (Visit.leaf f par off pn)).bestEvictFrame = r.bestEvictFrame ∧
      (applyVisit g t a r (Visit.leaf f par off pn)).bestEvictParent = r.bestEvictParent ∧
      (applyVisit g t a r (Visit.leaf f par off pn)).bestEvictOffset = r.bestEvictOffset ∧
      (applyVisit g t a r (Visit.leaf f par off pn)).bestEvictPageNumber
        = r.bestEvictPageNumber) := by
  simp only [applyVisit, noteLeaf]
  by_cases h : r.bestDistance < computeCyclicDistance g t pn
  · left; simp [h]
  · right
    have h' : ¬ computeCyclicDistance g t pn > r.bestDistance := h
    rw [if_neg h']
    exact ⟨by omega, rfl, rfl, rfl, rfl, rfl⟩

theorem fold_best (g : Geometry) (t a : Nat) (evs : List Visit) :
    ∀ (r : FrameSearchResult),
      ((evs.foldl (applyVisit g t a) r).bestDistance = r.bestDistance ∧
        (evs.foldl (applyVisit g t a) r).bestEvictFrame = r.bestEvictFrame ∧
        (evs.foldl (applyVisit g t a) r).bestEvictParent = r.bestEvictParent ∧
        (evs.foldl (applyVisit g t a) r).bestEvictOffset = r.bestEvictOffset ∧
        (evs.foldl (applyVisit g t a) r).bestEvictPageNumber = r.bestEvictPageNumber ∧
        ∀ f par off pn, Visit.leaf f par off pn ∈ evs →
          computeCyclicDistance g t pn ≤ r.bestDistance) ∨
      (∃ l1 f par off pn l2, evs = l1 ++ Visit.leaf f par off pn :: l2 ∧
        (evs.foldl (applyVisit g t a) r).bestDistance = computeCyclicDistance g t pn ∧
        (evs.foldl (applyVisit g t a) r).bestEvictFrame = f ∧
        (evs.foldl (applyVisit g t a) r).bestEvictParent = par ∧
        (evs.foldl (applyVisit g t a) r).bestEvictOffset = off ∧
        (evs.foldl (applyVisit g t a) r).bestEvictPageNumber = pn ∧
        r.bestDistance < computeCyclicDistance g t pn ∧
        (∀ f' par' off' pn', Visit.leaf f' par' off' pn' ∈ l1 →
          computeCyclicDistance g t pn' < computeCyclicDistance g t pn) ∧
        (∀ f' par' off' pn', Visit.leaf f' par' off' pn' ∈ l2 →
          computeCyclicDistance g t pn' ≤ computeCyclicDistance g t pn)) := by
  induction evs with
  | nil => intro r; left; simp
  | cons v evs ih =>
    intro r
    rw [List.foldl_cons]
    by_cases hleaf : ∃ f par off pn, v = Visit.leaf f par off pn
    · obtain ⟨f, par, off, pn, rfl⟩ := hleaf
      rcases applyVisit_best_leaf g t a r f par off pn with
        ⟨hlt, e1, e2, e3, e4, e5⟩ | ⟨hle, e1, e2, e3, e4, e5⟩
      · rcases ih (applyVisit g t a r (Visit.leaf f par off pn)) with
          ⟨k1, k2, k3, k4, k5, hall⟩ | ⟨l1, f2, par2, off2, pn2, l2, he, k1, k2, k3, k4, k5, hlt2, hb, ha⟩
        · right
          refine ⟨[], f, par, off, pn, evs, rfl, by rw [k1, e1], by rw [k2, e2], by rw [k3, e3],
            by rw [k4, e4], by rw [k5, e5], hlt, ?_, ?_⟩
          · intro f' par' off' pn' h; cases h
          · intro f' par' off' pn' h; have := hall f' par' off' pn' h; omega
        · right
          refine ⟨Visit.leaf f par off pn :: l1, f2, par2, off2, pn2, l2, by rw [he]; rfl,
            k1, k2, k3, k4, k5, by omega, ?_, ha⟩
          intro f' par' off' pn' h
          rcases List.mem_cons.mp h with e | h
          · cases e; omega
          · exact hb f' par' off' pn' h
      · rcases ih (applyVisit g t a r (Visit.leaf f par off pn)) with
          ⟨k1, k2, k3, k4, k5, hall⟩ | ⟨l1, f2, par2, off2, pn2, l2, he, k1, k2, k3, k4, k5, hlt2, hb, ha⟩
        · left
          refine ⟨by rw [k1, e1], by rw [k2, e2], by rw [k3, e3], by rw [k4, e4], by rw [k5, e5], ?_⟩
          intro f' par' off' pn' h
          rcases List.mem_cons.mp h with e | h
          · cases e; exact hle
          · have := hall f' par' off' pn' h; omega
        · right
          refine ⟨Visit.leaf f par off pn :: l1, f2, par2, off2, pn2, l2, by rw [he]; rfl,
            k1, k2, k3, k4, k5, by omega, ?_, ha⟩
          intro f' par' off' pn' h
          rcases List.mem_cons.mp h with e | h
          · cases e; omega
          · exact hb f' par' off' pn' h
    · have hv : ∀ f par off pn, v ≠ Visit.leaf f par off pn := by
        intro f par off pn e; exact hleaf ⟨f, par, off, pn, e⟩
      obtain ⟨e1, e2, e3, e4, e5⟩ := applyVisit_best_other g t a r v hv
      rcases ih (applyVisit g t a r v) with
        ⟨k1, k2, k3, k4, k5, hall⟩ | ⟨l1, f2, par2, off2, pn2, l2, he, k1, k2, k3, k4, k5, hlt2, hb, ha⟩
      · left
        refine ⟨by rw [k1, e1], by rw [k2, e2], by rw [k3, e3], by rw [k4, e4], by rw [k5, e5], ?_⟩
        intro f' par' off' pn' h
        rcases List.mem_cons.mp h with e | h
        · exact absurd e.symm (hv f' par' off' pn')
        · have := hall f' par' off' pn' h; omega
      · right
        refine ⟨v :: l1, f2, par2, off2, pn2, l2, by rw [he]; rfl,
          k1, k2, k3, k4, k5, by omega, ?_, ha⟩
        intro f' par' off' pn' h
        rcases List.mem_cons.mp h with e | h
        · exact absurd e.symm (hv f' par' off' pn')
        · exact hb f' par' off' pn' h

/-! ## The events of the scan and the paths of the tree -/

theorem mem_children (g : Geometry) (d : Device) (n f pn : Nat) (v : Visit) :
    (v ∈ (List.range (PAGE_SIZE g)).flatMap fun o =>
        if PMread d (f * PAGE_SIZE g + o) ≠ 0 then
          visits g d n (PMread d (f * PAGE_SIZE g + o)).toNat f o ((pn <<< g.OFFSET_WIDTH) ||| o)
        else []) ↔
      ∃ o, o < PAGE_SIZE g ∧ PMread d (f * PAGE_SIZE g + o) ≠ 0 ∧
        v ∈ visits g d n (PMread d (f * PAGE_SIZE g + o)).toNat f o
          ((pn <<< g.OFFSET_WIDTH) ||| o) := by
  rw [List.mem_flatMap]
  constructor
  · rintro ⟨o, ho, hv⟩
    by_cases h : PMread d (f * PAGE_SIZE g + o) = 0
    · simp [h] at hv
    · rw [if_pos h] at hv
      exact ⟨o, List.mem_range.mp ho, h, hv⟩
  · rintro ⟨o, ho, h, hv⟩
    exact ⟨o, List.mem_range.mpr ho, by rw [if_pos h]; exact hv⟩

theorem enter_mem_visits (g : Geometry) (d : Device) (x : Nat) :
    ∀ (n f par off pn : Nat),
      Visit.enter x ∈ visits g d n f par off pn ↔
        ∃ path : List Nat, path.length ≤ n ∧ (∀ o ∈ path, o < PAGE_SIZE g) ∧
          walkFrom g d f path = some x := by
  intro n
  induction n with
  | zero =>
    intro f par off pn
    constructor
    · intro h
      have e : x = f := by simpa [visits] using h
      subst e
      exact ⟨[], by simp, by simp, rfl⟩
    · rintro ⟨path, hl, _, h⟩
      have e : path = [] := List.length_eq_zero.mp (by omega)
      subst e
      simp only [walkFrom, Option.some.injEq] at h
      simp [visits, h]
  | succ n ih =>
    intro f par off pn
    rw [visits, List.mem_append, List.mem_cons, mem_children]
    simp only [Visit.enter.injEq, List.mem_singleton, reduceCtorEq, or_false]
    constructor
    · rintro (rfl | ⟨o, ho, hne, hv⟩)
      · exact ⟨[], by simp, by simp, rfl⟩
      · obtain ⟨path, hl, hval, hw⟩ := (ih _ _ _ _).mp hv
        refine ⟨o :: path, by simp; omega, ?_, ?_⟩
        · intro o' ho'
          rcases List.mem_cons.mp ho' with rfl | ho'
          · exact ho
          · exact hval o' ho'
        · rw [walkFrom, if_neg hne]; exact hw
    · rintro ⟨path, hl, hval, hw⟩
      cases path with
      | nil => left; simp [walkFrom] at hw; exact hw.symm
      | cons o path =>
        right
        rw [walkFrom] at hw
        by_cases hne : PMread d (f * PAGE_SIZE g + o) = 0
        · rw [if_pos hne] at hw; cases hw
        · rw [if_neg hne] at hw
          refine ⟨o, hval o (List.mem_cons_self _ _), hne, (ih _ _ _ _).mpr ⟨path, ?_, ?_, hw⟩⟩
          · simp at hl; omega
          · intro o' ho'; exact hval o' (List.mem_cons_of_mem _ ho')

theorem leaf_mem_visits (g : Geometry) (d : Device) (x px ox pgx : Nat) :
    ∀ (n f par off pn : Nat),
      Visit.leaf x px ox pgx ∈ visits g d n f par off pn ↔
        ∃ path : List Nat, path.length = n ∧ (∀ o ∈ path, o < PAGE_SIZE g) ∧
          trail g d f par off pn path = some (x, px, ox, pgx) := by
  intro n
  induction n with
  | zero =>
    intro f par off pn
    constructor
    · intro h
      have e : x = f ∧ px = par ∧ ox = off ∧ pgx = pn := by simpa [visits] using h
      obtain ⟨rfl, rfl, rfl, rfl⟩ := e
      exact ⟨[], rfl, by simp, rfl⟩
    · rintro ⟨path, hl, _, h⟩
      have e : path = [] := List.length_eq_zero.mp hl
      subst e
      simp only [trail, Option.some.injEq, Prod.mk.injEq] at h
      obtain ⟨rfl, rfl, rfl, rfl⟩ := h
      simp [visits]
  | succ n ih =>
    intro f par off pn
    rw [visits, List.mem_append, List.mem_cons, mem_children]
    simp only [List.mem_singleton, reduceCtorEq, false_or, or_false]
    constructor
    · rintro ⟨o, ho, hne, hv⟩
      obtain ⟨path, hl, hval, hw⟩ := (ih _ _ _ _).mp hv
      refine ⟨o :: path, by simp; omega, ?_, ?_⟩
      · intro o' ho'
        rcases List.mem_cons.mp ho' with rfl | ho'
        · exact ho
        · exact hval o' ho'
      · rw [trail, if_neg hne]; exact hw
    · rintro ⟨path, hl, hval, hw⟩
      cases path with
      | nil => simp at hl
      | cons o path =>
        rw [trail] at hw
        by_cases hne : PMread d (f * PAGE_SIZE g + o) = 0
        · rw [if_pos hne] at hw; cases hw
        · rw [if_neg hne] at hw
          refine ⟨o, hval o (List.mem_cons_self _ _), hne, (ih _ _ _ _).mpr ⟨path, ?_, ?_, hw⟩⟩
          · simp at hl; omega
          · intro o' ho'; exact hval o' (List.mem_cons_of_mem _ ho')

theorem table_mem_visits (g : Geometry) (d : Device) (x px : Nat) (e : Bool) :
    ∀ (n f par off pn : Nat),
      Visit.table x px e ∈ visits g d n f par off pn ↔
        ∃ path : List Nat, path.length < n ∧ (∀ o ∈ path, o < PAGE_SIZE g) ∧
          (∃ ox pgx, trail g d f par off pn path = some (x, px, ox, pgx)) ∧
          e = (List.range (PAGE_SIZE g)).all
            (fun o => decide (PMread d (x * PAGE_SIZE g + o) = 0)) := by
  intro n
  induction n with
  | zero =>
    intro f par off pn
    simp [visits]
  | succ n ih =>
    intro f par off pn
    rw [visits, List.mem_append, List.mem_cons, mem_children]
    simp only [List.mem_singleton, reduceCtorEq, false_or, Visit.table.injEq]
    constructor
    · rintro (⟨o, ho, hne, hv⟩ | ⟨rfl, rfl, rfl⟩)
      · obtain ⟨path, hl, hval, ⟨ox, pgx, hw⟩, he⟩ := (ih _ _ _ _).mp hv
        refine ⟨o :: path, by simp; omega, ?_, ⟨ox, pgx, ?_⟩, he⟩
        · intro o' ho'
          rcases List.mem_cons.mp ho' with rfl | ho'
          · exact ho
          · exact hval o' ho'
        · rw [trail, if_neg hne]; exact hw
      · exact ⟨[], by simp, by simp, ⟨off, pn, rfl⟩, rfl⟩
    · rintro ⟨path, hl, hval, ⟨ox, pgx, hw⟩, he⟩
      cases path with
      | nil =>
        right
        simp only [trail, Option.some.injEq, Prod.mk.injEq] at hw
        obtain ⟨rfl, rfl, rfl, rfl⟩ := hw
        exact ⟨rfl, rfl, he⟩
      | cons o path =>
        left
        rw [trail] at hw
        by_cases hne : PMread d (f * PAGE_SIZE g + o) = 0
        · rw [if_pos hne] at hw; cases hw
        · rw [if_neg hne] at hw
          refine ⟨o, hval o (List.mem_cons_self _ _), hne,
            (ih _ _ _ _).mpr ⟨path, ?_, ?_, ⟨ox, pgx, hw⟩, he⟩⟩
          · simp at hl; omega
          · intro o' ho'; exact hval o' (List.mem_cons_of_mem _ ho')

/-! ## Walking the tree -/

theorem walkFrom_append (g : Geometry) (d : Device) (p q : List Nat) : ∀ (f : Nat),
    walkFrom g d f (p ++ q) = (walkFrom g d f p).bind (fun y => walkFrom g d y q) := by
  induction p with
  | nil => intro f; simp [walkFrom]
  | cons o p ih =>
    intro f
    simp only [List.cons_append, walkFrom]
    split
    · rfl
    · exact ih _

theorem walkFrom_snoc (g : Geometry) (d : Device) (p : List Nat) (o f x : Nat)
    (h : walkFrom g d f p = some x) :
    walkFrom g d f (p ++ [o]) =
      if d.ram (x * PAGE_SIZE g + o) = 0 then none
      else some (d.ram (x * PAGE_SIZE g + o)).toNat := by
  rw [walkFrom_append, h]
  simp only [Option.some_bind, walkFrom, PMread_eq]

theorem walkFrom_prefix_some (g : Geometry) (d : Device) (p q : List Nat) (f x : Nat)
    (h : walkFrom g d f (p ++ q) = some x) : ∃ y, walkFrom g d f p = some y := by
  rw [walkFrom_append] at h
  cases hp : walkFrom g d f p with
  | none => rw [hp] at h; cases h
  | some y => exact ⟨y, rfl⟩

theorem pageFrom_append (g : Geometry) (pn : Nat) (p q : List Nat) :
    pageFrom g pn (p ++ q) = pageFrom g (pageFrom g pn p) q := by
  simp [pageFrom, List.foldl_append]

theorem trail_walk (g : Geometry) (d : Device) (path : List Nat) :
    ∀ (f par off pn x px ox pgx : Nat),
      trail g d f par off pn path = some (x, px, ox, pgx) →
        walkFrom g d f path = some x ∧ pgx = pageFrom g pn path ∧
        ((path = [] ∧ x = f ∧ px = par ∧ ox = off) ∨
          ∃ q, path = q ++ [ox] ∧ walkFrom g d f q = some px) := by
  induction path with
  | nil =>
    intro f par off pn x px ox pgx h
    simp only [trail, Option.some.injEq, Prod.mk.injEq] at h
    obtain ⟨rfl, rfl, rfl, rfl⟩ := h
    exact ⟨rfl, rfl, Or.inl ⟨rfl, rfl, rfl, rfl⟩⟩
  | cons o path ih =>
    intro f par off pn x px ox pgx h
    rw [trail] at h
    by_cases hne : PMread d (f * PAGE_SIZE g + o) = 0
    · rw [if_pos hne] at h; cases h
    · rw [if_neg hne] at h
      obtain ⟨h1, h2, h3⟩ := ih _ _ _ _ _ _ _ _ h
      refine ⟨by rw [walkFrom, if_neg hne]; exact h1, by rw [h2]; rfl, Or.inr ?_⟩
      rcases h3 with ⟨rfl, _, rfl, rfl⟩ | ⟨q, rfl, hq⟩
      · exact ⟨[], rfl, rfl⟩
      · exact ⟨o :: q, rfl, by rw [walkFrom, if_neg hne]; exact hq⟩

theorem walk_trail (g : Geometry) (d : Device) (path : List Nat) :
    ∀ (f par off pn x : Nat), walkFrom g d f path = some x →
      ∃ px ox, trail g d f par off pn path = some (x, px, ox, pageFrom g pn path) := by
  induction path with
  | nil =>
    intro f par off pn x h
    simp only [walkFrom, Option.some.injEq] at h
    subst h
    exact ⟨par, off, rfl⟩
  | cons o path ih =>
    intro f par off pn x h
    rw [walkFrom] at h
    by_cases hne : PMread d (f * PAGE_SIZE g + o) = 0
    · rw [if_pos hne] at h; cases h
    · rw [if_neg hne] at h
      obtain ⟨px, ox, ht⟩ := ih _ f o ((pn <<< g.OFFSET_WIDTH) ||| o) _ h
      exact ⟨px, ox, by rw [trail, if_neg hne]; exact ht⟩

/-- Two devices that agree on the table entries read along a path walk it alike. -/
theorem walkFrom_congr (g : Geometry) (d d' : Device) (path : List Nat) : ∀ (f : Nat),
    (∀ q o rest x, path = q ++ o :: rest → walkFrom g d f q = some x →
      d'.ram (x * PAGE_SIZE g + o) = d.ram (x * PAGE_SIZE g + o)) →
    walkFrom g d' f path = walkFrom g d f path := by
  induction path with
  | nil => intro f _; rfl
  | cons o path ih =>
    intro f h
    have h0 := h [] o path f rfl rfl
    simp only [walkFrom, PMread_eq, h0]
    split
    · rfl
    · rename_i hne
      apply ih
      intro q o' rest x hp hw
      apply h (o :: q) o' rest x (by rw [hp]; rfl)
      rw [walkFrom, PMread_eq, if_neg hne]; exact hw

/-! ## Residency -/

theorem ValidPath.nil (g : Geometry) : ValidPath g [] := ⟨Nat.zero_le _, by simp⟩

theorem ValidPath.left_part {g : Geometry} {p q : List Nat} (h : ValidPath g (p ++ q)) :
    ValidPath g p :=
  ⟨by have := h.1; simp at this; omega, fun o ho => h.2 o (List.mem_append_left _ ho)⟩

theorem ValidPath.push {g : Geometry} {p : List Nat} {o : Nat} (h : ValidPath g p)
    (hl : p.length < g.TABLES_DEPTH) (ho : o < PAGE_SIZE g) : ValidPath g (p ++ [o]) :=
  ⟨by simp; omega, fun o' ho' => by
    rcases List.mem_append.mp ho' with h' | h'
    · exact h.2 o' h'
    · rw [List.mem_singleton.mp h']; exact ho⟩

theorem Resident.root (g : Geometry) (d : Device) : Resident g d [] 0 :=
  ⟨ValidPath.nil g, rfl⟩

theorem Resident.prefix_left {g : Geometry} {d : Device} {p q : List Nat} {x : Nat}
    (h : Resident g d (p ++ q) x) : ∃ y, Resident g d p y := by
  obtain ⟨y, hy⟩ := walkFrom_prefix_some g d p q 0 x h.2
  exact ⟨y, h.1.left_part, hy⟩

theorem Resident.unique {g : Geometry} {d : Device} {p : List Nat} {x y : Nat}
    (h1 : Resident g d p x) (h2 : Resident g d p y) : x = y := by
  have := h1.2.symm.trans h2.2
  simpa using this

theorem Resident.snoc {g : Geometry} {d : Device} {p : List Nat} {x o : Nat}
    (h : Resident g d p x) (hl : p.length < g.TABLES_DEPTH) (ho : o < PAGE_SIZE g)
    (hne : d.ram (x * PAGE_SIZE g + o) ≠ 0) :
    Resident g d (p ++ [o]) (d.ram (x * PAGE_SIZE g + o)).toNat :=
  ⟨h.1.push hl ho, by rw [walkFrom_snoc g d p o 0 x h.2, if_neg hne]⟩

theorem Resident.snoc_inv {g : Geometry} {d : Device} {p : List Nat} {y o : Nat}
    (h : Resident g d (p ++ [o]) y) :
    ∃ x, Resident g d p x ∧ d.ram (x * PAGE_SIZE g + o) ≠ 0 ∧
      (d.ram (x * PAGE_SIZE g + o)).toNat = y ∧ o < PAGE_SIZE g ∧ p.length < g.TABLES_DEPTH := by
  obtain ⟨x, hx⟩ := h.prefix_left
  have hw := h.2
  rw [walkFrom_snoc g d p o 0 x hx.2] at hw
  by_cases hne : d.ram (x * PAGE_SIZE g + o) = 0
  · rw [if_pos hne] at hw; cases hw
  · rw [if_neg hne] at hw
    refine ⟨x, hx, hne, by simpa using hw, h.1.2 o (by simp), ?_⟩
    have := h.1.1; simp at this; omega

/-- A change confined to a frame that is no table of the tree leaves every walk as it was. -/
theorem walk_frame_change (g : Geometry) (d d' : Device) (nf : Nat)
    (hnot : ∀ q, Resident g d q nf → q.length < g.TABLES_DEPTH → False)
    (hsame : ∀ a, a / PAGE_SIZE g ≠ nf → d'.ram a = d.ram a)
    (p : List Nat) (hp : ValidPath g p) : walkFrom g d' 0 p = walkFrom g d 0 p := by
  apply walkFrom_congr
  intro q o rest x e hw
  apply hsame
  have hv : ValidPath g (q ++ (o :: rest)) := e ▸ hp
  have ho : o < PAGE_SIZE g := hv.2 o (by simp)
  rw [frame_addr_div g x o ho]
  rintro rfl
  apply hnot q ⟨hv.left_part, hw⟩
  have := hv.1; simp at this; omega

/-- A change of one entry of a table of the tree leaves the walks that do not use the entry
as they were. -/
theorem walk_entry_change (g : Geometry) (d d' : Device)
    (hinj : ∀ p q f, Resident g d p f → Resident g d q f → p = q)
    (pc : List Nat) (c i : Nat) (hc : Resident g d pc c) (hi : i < PAGE_SIZE g)
    (hsame : ∀ a, a ≠ c * PAGE_SIZE g + i → d'.ram a = d.ram a)
    (p : List Nat) (hp : ValidPath g p) (hnp : ¬ (pc ++ [i]) <+: p) :
    walkFrom g d' 0 p = walkFrom g d 0 p := by
  apply walkFrom_congr
  intro q o rest x e hw
  apply hsame
  have hv : ValidPath g (q ++ (o :: rest)) := e ▸ hp
  have ho : o < PAGE_SIZE g := hv.2 o (by simp)
  intro ha
  obtain ⟨rfl, rfl⟩ := frame_addr_inj g ho hi ha
  have hq : q = pc := hinj q pc x ⟨hv.left_part, hw⟩ hc
  apply hnp
  rw [e, hq]
  exact ⟨rest, by simp⟩

theorem walk_through_entry (g : Geometry) (d d' : Device)
    (hinj : ∀ p q f, Resident g d p f → Resident g d q f → p = q)
    (pc : List Nat) (c i : Nat) (hc : Resident g d pc c) (hi : i < PAGE_SIZE g)
    (hsame : ∀ a, a ≠ c * PAGE_SIZE g + i → d'.ram a = d.ram a) (rest : List Nat) :
    walkFrom g d' 0 (pc ++ i :: rest) =
      if d'.ram (c * PAGE_SIZE g + i) = 0 then none
      else walkFrom g d' (d'.ram (c * PAGE_SIZE g + i)).toNat rest := by
  have h1 : walkFrom g d' 0 pc = some c := by
    rw [walk_entry_change g d d' hinj pc c i hc hi hsame pc hc.1]
    · exact hc.2
    · intro h
      have := h.length_le
      simp at this
  rw [walkFrom_append, h1]
  simp only [Option.some_bind, walkFrom, PMread_eq]

/-! ## Page numbers -/

theorem shift_or_eq (g : Geometry) (pn o : Nat) (ho : o < PAGE_SIZE g) :
    (pn <<< g.OFFSET_WIDTH) ||| o = pn * PAGE_SIZE g + o := by
  rw [PAGE_SIZE_eq] at ho ⊢
  rw [Nat.shiftLeft_eq, Nat.mul_comm, ← Nat.mul_add_lt_is_or ho]

theorem pageFrom_snoc (g : Geometry) (pn : Nat) (p : List Nat) (o : Nat) (ho : o < PAGE_SIZE g) :
    pageFrom g pn (p ++ [o]) = pageFrom g pn p * PAGE_SIZE g + o := by
  rw [pageFrom_append]
  simp only [pageFrom, List.foldl_cons, List.foldl_nil]
  exact shift_or_eq g _ o ho

theorem pageFrom_lt (g : Geometry) (p : List Nat) :
    (∀ o ∈ p, o < PAGE_SIZE g) → pageFrom g 0 p < PAGE_SIZE g ^ p.length := by
  induction p using List.reverseRecOn with
  | nil => intro _; simp [pageFrom]
  | append_singleton p o ih =>
    intro h
    have ho : o < PAGE_SIZE g := h o (by simp)
    have hp := ih (fun o' ho' => h o' (List.mem_append_left _ ho'))
    rw [pageFrom_snoc g 0 p o ho, List.length_append, List.length_singleton, pow_succ]
    calc pageFrom g 0 p * PAGE_SIZE g + o < pageFrom g 0 p * PAGE_SIZE g + PAGE_SIZE g := by omega
      _ = (pageFrom g 0 p + 1) * PAGE_SIZE g := by ring
      _ ≤ PAGE_SIZE g ^ p.length * PAGE_SIZE g := Nat.mul_le_mul_right _ hp

theorem pageFrom_lt_NUM_PAGES (g : Geometry) (p : List Nat) (hp : ValidPath g p)
    (hl : p.length = g.TABLES_DEPTH) : pageFrom g 0 p < NUM_PAGES g := by
  rw [NUM_PAGES_eq, ← hl]; exact pageFrom_lt g p hp.2

theorem pageFrom_inj (g : Geometry) (p : List Nat) : ∀ (q : List Nat),
    p.length = q.length → (∀ o ∈ p, o < PAGE_SIZE g) → (∀ o ∈ q, o < PAGE_SIZE g) →
    pageFrom g 0 p = pageFrom g 0 q → p = q := by
  induction p using List.reverseRecOn with
  | nil =>
    intro q hl _ _ _
    exact (List.length_eq_zero.mp hl.symm).symm
  | append_singleton p o ih =>
    intro q hl hp hq he
    rcases List.eq_nil_or_concat q with rfl | ⟨q', o', rfl⟩
    · simp at hl
    · rw [List.concat_eq_append] at hl hq he ⊢
      have ho : o < PAGE_SIZE g := hp o (by simp)
      have ho' : o' < PAGE_SIZE g := hq o' (by simp)
      rw [pageFrom_snoc g 0 p o ho, pageFrom_snoc g 0 q' o' ho'] at he
      obtain ⟨h1, h2⟩ := frame_addr_inj g ho ho' he
      have hl' : p.length = q'.length := by simp at hl; exact hl
      rw [ih q' hl' (fun x hx => hp x (List.mem_append_left _ hx))
        (fun x hx => hq x (List.mem_append_left _ hx)) h1, h2]

/-! ## Cyclic distance between page numbers -/

theorem computeCyclicDistance_eq (g : Geometry) (a b : Nat) (ha : a < NUM_PAGES g)
    (hb : b < NUM_PAGES g) :
    computeCyclicDistance g a b =
      min (if a > b then a - b else b - a) (NUM_PAGES g - (if a > b then a - b else b - a)) := by
  have hN : NUM_PAGES g < 2 ^ 64 := by
    have h1 := VIRTUAL_MEMORY_SIZE_lt g
    have h2 : NUM_PAGES g ≤ VIRTUAL_MEMORY_SIZE g :=
      Nat.le_mul_of_pos_right _ (PAGE_SIZE_pos g)
    omega
  unfold computeCyclicDistance
  simp only
  generalize hd : (if a > b then a - b else b - a) = diff
  have hdl : diff < NUM_PAGES g := by
    rw [← hd]; split <;> omega
  have e1 : diff % 2 ^ 64 = diff := Nat.mod_eq_of_lt (by omega)
  have e2 : (NUM_PAGES g + 2 ^ 64 - diff) % 2 ^ 64 = NUM_PAGES g - diff := by
    have : NUM_PAGES g + 2 ^ 64 - diff = (NUM_PAGES g - diff) + 2 ^ 64 := by omega
    rw [this, Nat.add_mod_right, Nat.mod_eq_of_lt (by omega)]
  rw [e1, e2]
  split <;> omega

theorem computeCyclicDistance_pos (g : Geometry) (a b : Nat) (ha : a < NUM_PAGES g)
    (hb : b < NUM_PAGES g) (hne : a ≠ b) : 0 < computeCyclicDistance g a b := by
  rw [computeCyclicDistance_eq g a b ha hb]
  split <;> omega

/-! ## What the scan from the root finds -/

theorem scanTree_eq (g : Geometry) (d : Device) (t a : Nat) :
    scanTree g d t a =
      (visits g d g.TABLES_DEPTH 0 0 0 0).foldl (applyVisit g t a) FrameSearchResult.zero :=
  dfsSearch_eq_foldl g d t a _ _ _ _ _ _

theorem enter_mem_root (g : Geometry) (d : Device) (x : Nat) :
    Visit.enter x ∈ visits g d g.TABLES_DEPTH 0 0 0 0 ↔ ∃ p, Resident g d p x := by
  rw [enter_mem_visits]
  constructor
  · rintro ⟨p, h1, h2, h3⟩; exact ⟨p, ⟨h1, h2⟩, h3⟩
  · rintro ⟨p, ⟨h1, h2⟩, h3⟩; exact ⟨p, h1, h2, h3⟩

theorem scan_max (g : Geometry) (d : Device) (t a : Nat) :
    (∀ p x, Resident g d p x → x ≤ (scanTree g d t a).maxUsedFrame) ∧
    ∃ p, Resident g d p (scanTree g d t a).maxUsedFrame := by
  rw [scanTree_eq]
  obtain ⟨_, h2, h3⟩ := fold_max g t a (visits g d g.TABLES_DEPTH 0 0 0 0) FrameSearchResult.zero
  refine ⟨fun p x hp => h2 x ((enter_mem_root g d x).mpr ⟨p, hp⟩), ?_⟩
  rcases h3 with h3 | h3
  · rw [h3]; exact ⟨[], Resident.root g d⟩
  · exact (enter_mem_root g d _).mp h3

theorem all_zero_iff (g : Geometry) (d : Device) (x : Nat) :
    (List.range (PAGE_SIZE g)).all (fun o => decide (PMread d (x * PAGE_SIZE g + o) = 0)) = true ↔
      ∀ o, o < PAGE_SIZE g → d.ram (x * PAGE_SIZE g + o) = 0 := by
  rw [List.all_eq_true]
  constructor
  · intro h o ho
    have := h o (List.mem_range.mpr ho)
    simpa [PMread_eq] using this
  · intro h o ho
    simpa [PMread_eq] using h o (List.mem_range.mp ho)

theorem table_mem_root (g : Geometry) (d : Device) (x px : Nat) :
    Visit.table x px true ∈ visits g d g.TABLES_DEPTH 0 0 0 0 ↔
      (∀ o, o < PAGE_SIZE g → d.ram (x * PAGE_SIZE g + o) = 0) ∧
      ∃ p, p.length < g.TABLES_DEPTH ∧ Resident g d p x ∧
        ((p = [] ∧ px = 0) ∨ ∃ q i, p = q ++ [i] ∧ Resident g d q px) := by
  rw [table_mem_visits]
  constructor
  · rintro ⟨p, hl, hv, ⟨ox, pgx, ht⟩, he⟩
    obtain ⟨h1, _, h3⟩ := trail_walk g d p _ _ _ _ _ _ _ _ ht
    have hvp : ValidPath g p := ⟨by omega, hv⟩
    refine ⟨(all_zero_iff g d x).mp he.symm, p, hl, ⟨hvp, h1⟩, ?_⟩
    rcases h3 with ⟨rfl, _, rfl, _⟩ | ⟨q, rfl, hq⟩
    · exact Or.inl ⟨rfl, rfl⟩
    · exact Or.inr ⟨q, ox, rfl, ⟨hvp.left_part, hq⟩⟩
  · rintro ⟨hz, p, hl, hp, hpar⟩
    obtain ⟨px', ox, ht⟩ := walk_trail g d p 0 0 0 0 x hp.2
    obtain ⟨_, _, h3⟩ := trail_walk g d p _ _ _ _ _ _ _ _ ht
    have hpx : px' = px := by
      rcases h3 with ⟨rfl, _, rfl, _⟩ | ⟨q, rfl, hq⟩
      · rcases hpar with ⟨_, rfl⟩ | ⟨q', i, e, _⟩
        · rfl
        · simp at e
      · rcases hpar with ⟨e, _⟩ | ⟨q', i, e, hq'⟩
        · simp at e
        · obtain ⟨rfl, _⟩ := List.append_inj' e rfl
          have := hq.symm.trans hq'.2
          simpa using this
    subst hpx
    exact ⟨p, hl, hp.1.2, ⟨ox, _, ht⟩, ((all_zero_iff g d x).mpr hz).symm⟩

theorem scan_empty_none (g : Geometry) (d : Device) (t a : Nat)
    (h : (scanTree g d t a).emptyTable = 0) (p : List Nat) (x : Nat) (hp : Resident g d p x)
    (hl : p.length < g.TABLES_DEPTH) (hz : ∀ o, o < PAGE_SIZE g → d.ram (x * PAGE_SIZE g + o) = 0) :
    x = 0 ∨ x = a := by
  rw [scanTree_eq] at h
  rcases fold_empty g t a (visits g d g.TABLES_DEPTH 0 0 0 0) FrameSearchResult.zero rfl with
    ⟨_, hall⟩ | ⟨_, _, _, hne, _⟩
  · obtain ⟨px, ox, ht⟩ := walk_trail g d p 0 0 0 0 x hp.2
    apply hall x px
    rw [table_mem_visits]
    exact ⟨p, hl, hp.1.2, ⟨ox, _, ht⟩, ((all_zero_iff g d x).mpr hz).symm⟩
  · exact absurd h hne

theorem scan_empty_some (g : Geometry) (d : Device) (t a : Nat)
    (h : (scanTree g d t a).emptyTable ≠ 0) :
    ∃ q i, Resident g d (q ++ [i]) (scanTree g d t a).emptyTable ∧
      (q ++ [i]).length < g.TABLES_DEPTH ∧
      Resident g d q (scanTree g d t a).emptyTableParent ∧
      (∀ o, o < PAGE_SIZE g → d.ram ((scanTree g d t a).emptyTable * PAGE_SIZE g + o) = 0) ∧
      (scanTree g d t a).emptyTable ≠ a := by
  rw [scanTree_eq] at h ⊢
  rcases fold_empty g t a (visits g d g.TABLES_DEPTH 0 0 0 0) FrameSearchResult.zero rfl with
    ⟨h0, _⟩ | ⟨l1, l2, he, _, hna, _⟩
  · exact absurd h0 h
  · have hmem : Visit.table
        ((visits g d g.TABLES_DEPTH 0 0 0 0).foldl (applyVisit g t a) FrameSearchResult.zero).emptyTable
        ((visits g d g.TABLES_DEPTH 0 0 0 0).foldl (applyVisit g t a) FrameSearchResult.zero).emptyTableParent
        true ∈ visits g d g.TABLES_DEPTH 0 0 0 0 :=
      List.mem_iff_append.mpr ⟨l1, l2, he⟩
    obtain ⟨hz, p, hl, hp, hpar⟩ := (table_mem_root g d _ _).mp hmem
    rcases hpar with ⟨rfl, _⟩ | ⟨q, i, rfl, hq⟩
    · have := hp.unique (Resident.root g d)
      exact absurd this h
    · exact ⟨q, i, hp, hl, hq, hz, hna⟩

theorem leaf_mem_root (g : Geometry) (d : Device) (hD : 0 < g.TABLES_DEPTH) (x px ox pgx : Nat) :
    Visit.leaf x px ox pgx ∈ visits g d g.TABLES_DEPTH 0 0 0 0 ↔
      ∃ q, Resident g d (q ++ [ox]) x ∧ (q ++ [ox]).length = g.TABLES_DEPTH ∧
        Resident g d q px ∧ pgx = pageFrom g 0 (q ++ [ox]) := by
  rw [leaf_mem_visits]
  constructor
  · rintro ⟨p, hl, hv, ht⟩
    obtain ⟨h1, h2, h3⟩ := trail_walk g d p _ _ _ _ _ _ _ _ ht
    have hvp : ValidPath g p := ⟨by omega, hv⟩
    rcases h3 with ⟨rfl, _⟩ | ⟨q, rfl, hq⟩
    · simp at hl; omega
    · exact ⟨q, ⟨hvp, h1⟩, hl, ⟨hvp.left_part, hq⟩, h2⟩
  · rintro ⟨q, hp, hl, hq, hpg⟩
    obtain ⟨px', ox', ht⟩ := walk_trail g d (q ++ [ox]) 0 0 0 0 x hp.2
    obtain ⟨_, _, h3⟩ := trail_walk g d _ _ _ _ _ _ _ _ _ ht
    rcases h3 with ⟨e, _⟩ | ⟨q', e, hq'⟩
    · simp at e
    · obtain ⟨e1, e2⟩ := List.append_inj' e rfl
      have e3 : ox = ox' := by simpa using e2
      subst e1 e3
      have e4 : px' = px := by simpa using hq'.symm.trans hq.2
      subst e4
      exact ⟨q ++ [ox], hl, hp.1.2, by rw [hpg]; exact ht⟩

theorem leafPages_mem (g : Geometry) (d : Device) (pg : Nat) :
    pg ∈ leafPages g d ↔
      ∃ p x, Resident g d p x ∧ p.length = g.TABLES_DEPTH ∧ pg = pageFrom g 0 p := by
  unfold leafPages
  rw [List.mem_filterMap]
  constructor
  · rintro ⟨v, hv, he⟩
    cases v with
    | enter f => simp at he
    | table f par e => simp at he
    | leaf x px ox pgx =>
      simp only [Option.some.injEq] at he
      subst he
      obtain ⟨p, hl, hval, ht⟩ := (leaf_mem_visits g d x px ox pgx _ _ _ _ _).mp hv
      obtain ⟨h1, h2, _⟩ := trail_walk g d p _ _ _ _ _ _ _ _ ht
      exact ⟨p, x, ⟨⟨by omega, hval⟩, h1⟩, hl, h2⟩
  · rintro ⟨p, x, hp, hl, rfl⟩
    obtain ⟨px, ox, ht⟩ := walk_trail g d p 0 0 0 0 x hp.2
    exact ⟨Visit.leaf x px ox (pageFrom g 0 p),
      (leaf_mem_visits g d _ _ _ _ _ _ _ _ _).mpr ⟨p, hl, hp.1.2, ht⟩, rfl⟩

theorem leafPages_split (l1 l2 : List Visit) (f par off pn : Nat) :
    (l1 ++ Visit.leaf f par off pn :: l2).filterMap (fun v =>
        match v with
        | Visit.leaf _ _ _ page => some page
        | _ => none) =
      l1.filterMap (fun v =>
        match v with
        | Visit.leaf _ _ _ page => some page
        | _ => none) ++ pn :: l2.filterMap (fun v =>
        match v with
        | Visit.leaf _ _ _ page => some page
        | _ => none) := by
  rw [List.filterMap_append, List.filterMap_cons]

theorem mem_leaf_filter (l : List Visit) (pg : Nat)
    (h : pg ∈ l.filterMap (fun v =>
        match v with
        | Visit.leaf _ _ _ page => some page
        | _ => none)) : ∃ f par off, Visit.leaf f par off pg ∈ l := by
  obtain ⟨v, hv, he⟩ := List.mem_filterMap.mp h
  cases v with
  | enter f => simp at he
  | table f par e => simp at he
  | leaf x px ox pgx =>
    simp only [Option.some.injEq] at he
    subst he
    exact ⟨x, px, ox, hv⟩

/-- What the scan records about eviction candidates: nothing when no resident leaf is at a
positive distance of the target, and otherwise the first leaf, in the order of the scan,
among those at the largest distance. -/
theorem scan_best (g : Geometry) (d : Device) (hD : 0 < g.TABLES_DEPTH) (t a : Nat) :
    ((scanTree g d t a).bestDistance = 0 ∧ (scanTree g d t a).bestEvictFrame = 0 ∧
      (scanTree g d t a).bestEvictParent = 0 ∧ (scanTree g d t a).bestEvictOffset = 0 ∧
      (scanTree g d t a).bestEvictPageNumber = 0 ∧
      ∀ p x, Resident g d p x → p.length = g.TABLES_DEPTH →
        computeCyclicDistance g t (pageFrom g 0 p) = 0) ∨
    (∃ q, Resident g d (q ++ [(scanTree g d t a).bestEvictOffset]) (scanTree g d t a).bestEvictFrame ∧
      (q ++ [(scanTree g d t a).bestEvictOffset]).length = g.TABLES_DEPTH ∧
      Resident g d q (scanTree g d t a).bestEvictParent ∧
      (scanTree g d t a).bestEvictPageNumber =
        pageFrom g 0 (q ++ [(scanTree g d t a).bestEvictOffset]) ∧
      (scanTree g d t a).bestDistance =
        computeCyclicDistance g t (scanTree g d t a).bestEvictPageNumber ∧
      0 < (scanTree g d t a).bestDistance ∧
      (∀ p x, Resident g d p x → p.length = g.TABLES_DEPTH →
        computeCyclicDistance g t (pageFrom g 0 p) ≤ (scanTree g d t a).bestDistance) ∧
      ∃ l1 l2, leafPages g d = l1 ++ (scanTree g d t a).bestEvictPageNumber :: l2 ∧
        ∀ pg ∈ l1, computeCyclicDistance g t pg < (scanTree g d t a).bestDistance) := by
  have hleafmem : ∀ p x, Resident g d p x → p.length = g.TABLES_DEPTH →
      ∃ f par off, Visit.leaf f par off (pageFrom g 0 p) ∈ visits g d g.TABLES_DEPTH 0 0 0 0 := by
    intro p x hp hl
    obtain ⟨px, ox, ht⟩ := walk_trail g d p 0 0 0 0 x hp.2
    exact ⟨x, px, ox, (leaf_mem_visits g d _ _ _ _ _ _ _ _ _).mpr ⟨p, hl, hp.1.2, ht⟩⟩
  rw [scanTree_eq]
  rcases fold_best g t a (visits g d g.TABLES_DEPTH 0 0 0 0) FrameSearchResult.zero with
    ⟨k1, k2, k3, k4, k5, hall⟩ | ⟨l1, f, par, off, pn, l2, he, k1, k2, k3, k4, k5, hlt, hb, ha⟩
  · left
    refine ⟨k1, k2, k3, k4, k5, ?_⟩
    intro p x hp hl
    obtain ⟨f, par, off, hm⟩ := hleafmem p x hp hl
    have := hall f par off _ hm
    simpa [FrameSearchResult.zero] using this
  · right
    have hmem : Visit.leaf f par off pn ∈ visits g d g.TABLES_DEPTH 0 0 0 0 :=
      List.mem_iff_append.mpr ⟨l1, l2, he⟩
    obtain ⟨q, hp, hl, hq, hpg⟩ := (leaf_mem_root g d hD f par off pn).mp hmem
    rw [k1, k2, k3, k4, k5]
    refine ⟨q, hp, hl, hq, hpg, rfl, by omega, ?_, ?_⟩
    · intro p x hp' hl'
      obtain ⟨f', par', off', hm⟩ := hleafmem p x hp' hl'
      rw [he] at hm
      rcases List.mem_append.mp hm with h | h
      · exact Nat.le_of_lt (hb _ _ _ _ h)
      · rcases List.mem_cons.mp h with e | h
        · cases e; exact le_rfl
        · exact ha _ _ _ _ h
    · refine ⟨_, _, by unfold leafPages; rw [he]; exact leafPages_split l1 l2 f par off pn, ?_⟩
      intro pg hpg'
      obtain ⟨f', par', off', hm⟩ := mem_leaf_filter l1 pg hpg'
      exact hb _ _ _ _ hm

/-! ## Unlinking and linking a frame -/

/-- Clearing the entry that leads to a frame without children removes exactly that frame
from the tree. -/
theorem unlink_resident (g : Geometry) (d d1 : Device)
    (hinj : ∀ p q f, Resident g d p f → Resident g d q f → p = q)
    (q : List Nat) (par i e : Nat) (hq : Resident g d q par) (hi : i < PAGE_SIZE g)
    (he : Resident g d (q ++ [i]) e)
    (hchild : ∀ rest y, Resident g d (q ++ i :: rest) y → rest = [])
    (hz : d1.ram (par * PAGE_SIZE g + i) = 0)
    (hsame : ∀ a, a ≠ par * PAGE_SIZE g + i → d1.ram a = d.ram a)
    (p : List Nat) (x : Nat) :
    Resident g d1 p x ↔ Resident g d p x ∧ x ≠ e := by
  constructor
  · rintro ⟨hv, hw⟩
    by_cases hpre : (q ++ [i]) <+: p
    · obtain ⟨rest, rfl⟩ := hpre
      rw [List.append_assoc, List.singleton_append,
        walk_through_entry g d d1 hinj q par i hq hi hsame rest, if_pos hz] at hw
      cases hw
    · rw [walk_entry_change g d d1 hinj q par i hq hi hsame p hv hpre] at hw
      refine ⟨⟨hv, hw⟩, ?_⟩
      rintro rfl
      apply hpre
      rw [hinj p (q ++ [i]) x ⟨hv, hw⟩ he]
  · rintro ⟨⟨hv, hw⟩, hne⟩
    have hpre : ¬ (q ++ [i]) <+: p := by
      rintro ⟨rest, rfl⟩
      rw [List.append_assoc, List.singleton_append] at hv hw
      have := hchild rest x ⟨hv, hw⟩
      subst this
      exact hne (Resident.unique ⟨hv, hw⟩ he)
    exact ⟨hv, by rw [walk_entry_change g d d1 hinj q par i hq hi hsame p hv hpre]; exact hw⟩

/-- Writing a frame that is no part of the tree, and has no children, into a null entry adds
exactly that frame to the tree. -/
theorem link_resident (g : Geometry) (d d1 : Device)
    (hinj : ∀ p q f, Resident g d p f → Resident g d q f → p = q)
    (pc : List Nat) (c i nf : Nat) (hc : Resident g d pc c) (hlc : pc.length < g.TABLES_DEPTH)
    (hi : i < PAGE_SIZE g) (hnf0 : nf ≠ 0)
    (hzero : d.ram (c * PAGE_SIZE g + i) = 0)
    (hnew : d1.ram (c * PAGE_SIZE g + i) = (nf : Int))
    (hsame : ∀ a, a ≠ c * PAGE_SIZE g + i → d1.ram a = d.ram a)
    (hchild : pc.length + 1 = g.TABLES_DEPTH ∨
      ∀ o, o < PAGE_SIZE g → d1.ram (nf * PAGE_SIZE g + o) = 0)
    (p : List Nat) (x : Nat) :
    Resident g d1 p x ↔ Resident g d p x ∨ (p = pc ++ [i] ∧ x = nf) := by
  have hnfI : (nf : Int) ≠ 0 := by exact_mod_cast hnf0
  constructor
  · rintro ⟨hv, hw⟩
    by_cases hpre : (pc ++ [i]) <+: p
    · obtain ⟨rest, rfl⟩ := hpre
      rw [List.append_assoc, List.singleton_append] at hw hv
      rw [walk_through_entry g d d1 hinj pc c i hc hi hsame rest, hnew, if_neg hnfI,
        Int.toNat_ofNat] at hw
      cases rest with
      | nil =>
        right
        simp only [walkFrom, Option.some.injEq] at hw
        exact ⟨by simp, hw.symm⟩
      | cons o rest =>
        exfalso
        rcases hchild with hl | hz0
        · have := hv.1; simp at this; omega
        · have ho : o < PAGE_SIZE g := hv.2 o (by simp)
          rw [walkFrom, PMread_eq, if_pos (hz0 o ho)] at hw
          cases hw
    · left
      rw [walk_entry_change g d d1 hinj pc c i hc hi hsame p hv hpre] at hw
      exact ⟨hv, hw⟩
  · rintro (⟨hv, hw⟩ | ⟨rfl, rfl⟩)
    · have hpre : ¬ (pc ++ [i]) <+: p := by
        rintro ⟨rest, rfl⟩
        rw [List.append_assoc, List.singleton_append, walkFrom_append, hc.2] at hw
        simp only [Option.some_bind, walkFrom, PMread_eq, hzero, if_true] at hw
        cases hw
      exact ⟨hv, by rw [walk_entry_change g d d1 hinj pc c i hc hi hsame p hv hpre]; exact hw⟩
    · refine ⟨hc.1.push hlc hi, ?_⟩
      have := walk_through_entry g d d1 hinj pc c i hc hi hsame []
      rw [this, hnew, if_neg hnfI, Int.toNat_ofNat]
      rfl

/-! ## A tree that fills the memory has a leaf -/

theorem no_leaf_on_path (g : Geometry) (d : Device)
    (hinj : ∀ p q f, Resident g d p f → Resident g d q f → p = q)
    (pc : List Nat) (c : Nat) (hc : Resident g d pc c)
    (hempty : ∀ p x, Resident g d p x → p.length < g.TABLES_DEPTH →
      (∀ o, o < PAGE_SIZE g → d.ram (x * PAGE_SIZE g + o) = 0) → x = 0 ∨ x = c)
    (hno : ∀ p x, Resident g d p x → p.length ≠ g.TABLES_DEPTH) :
    ∀ (m : Nat) (p : List Nat) (x : Nat), Resident g d p x → p.length + m = g.TABLES_DEPTH →
      p <+: pc := by
  intro m
  induction m with
  | zero => intro p x hp hl; exact absurd (by omega) (hno p x hp)
  | succ m ih =>
    intro p x hp hl
    by_cases hz : ∀ o, o < PAGE_SIZE g → d.ram (x * PAGE_SIZE g + o) = 0
    · rcases hempty p x hp (by omega) hz with rfl | rfl
      · rw [hinj p [] 0 hp (Resident.root g d)]; exact List.nil_prefix
      · rw [hinj p pc x hp hc]
    · push_neg at hz
      obtain ⟨o, ho, hne⟩ := hz
      have := ih (p ++ [o]) _ (hp.snoc (by omega) ho hne) (by simp; omega)
      exact (List.prefix_append p [o]).trans this

theorem exists_leaf (g : Geometry) (d : Device) (hinv : TreeInv g d)
    (pc : List Nat) (c : Nat) (hc : Resident g d pc c) (hlc : pc.length < g.TABLES_DEPTH)
    (hempty : ∀ p x, Resident g d p x → p.length < g.TABLES_DEPTH →
      (∀ o, o < PAGE_SIZE g → d.ram (x * PAGE_SIZE g + o) = 0) → x = 0 ∨ x = c)
    (k : Nat) (hk : ∀ x, x ≤ k → ∃ p, Resident g d p x) (hfull : g.TABLES_DEPTH ≤ k) :
    ∃ p x, Resident g d p x ∧ p.length = g.TABLES_DEPTH := by
  by_contra hcon
  push_neg at hcon
  have hpre : ∀ (p : List Nat) (x : Nat), Resident g d p x → p <+: pc := by
    intro p x hp
    exact no_leaf_on_path g d hinv.inj pc c hc hempty hcon (g.TABLES_DEPTH - p.length) p x hp
      (by have := hp.1.1; omega)
  classical
  let f : Nat → Nat := fun x => if h : ∃ p, Resident g d p x then (Classical.choose h).length else 0
  have hcard : (Finset.range (k + 1)).card ≤ (Finset.range (pc.length + 1)).card := by
    apply Finset.card_le_card_of_injOn f
    · intro x hx
      have hx' : x ≤ k := by
        have := Finset.mem_range.mp hx; omega
      have h := hk x hx'
      have hl := (hpre _ x (Classical.choose_spec h)).length_le
      have hf : f x = (Classical.choose h).length := by simp only [f, dif_pos h]
      rw [Finset.mem_range, hf]
      omega
    · intro x hx y hy hxy
      have hx' : x ≤ k := by
        have := Finset.mem_range.mp hx; omega
      have hy' : y ≤ k := by
        have := Finset.mem_range.mp hy; omega
      have h1 := hk x hx'
      have h2 := hk y hy'
      simp only [f, dif_pos h1, dif_pos h2] at hxy
      have e : Classical.choose h1 = Classical.choose h2 :=
        List.prefix_of_prefix_length_le (hpre _ x (Classical.choose_spec h1))
          (hpre _ y (Classical.choose_spec h2)) (le_of_eq hxy)
          |>.eq_of_length hxy
      have r1 := Classical.choose_spec h1
      rw [e] at r1
      exact r1.unique (Classical.choose_spec h2)
  simp only [Finset.card_range] at hcard
  omega

/-! ## The three priorities of `findFreeOrEvictFrame` -/

theorem scan_max_iff (g : Geometry) (d : Device) (hinv : TreeInv g d) (t a : Nat) (x : Nat) :
    (∃ p, Resident g d p x) ↔ x ≤ (scanTree g d t a).maxUsedFrame := by
  obtain ⟨k, _, hk⟩ := hinv.range
  obtain ⟨h1, h2⟩ := scan_max g d t a
  have e : (scanTree g d t a).maxUsedFrame = k := by
    have a1 := (hk _).mp h2
    obtain ⟨p, hp⟩ := (hk k).mpr le_rfl
    have a2 := h1 p k hp
    omega
  rw [e]; exact hk x

theorem scan_max_lt (g : Geometry) (d : Device) (hinv : TreeInv g d) (t a : Nat) :
    (scanTree g d t a).maxUsedFrame < g.NUM_FRAMES := by
  obtain ⟨k, hk1, hk⟩ := hinv.range
  have := (hk _).mp (scan_max g d t a).2
  omega

theorem findFree_fresh (g : Geometry) (d : Device) (t c : Nat)
    (h1 : (scanTree g d t c).emptyTable = 0)
    (h2 : (scanTree g d t c).maxUsedFrame + 1 < g.NUM_FRAMES) :
    findFreeOrEvictFrame g d t c = ((scanTree g d t c).maxUsedFrame + 1, d) := by
  unfold findFreeOrEvictFrame
  simp only [h1, ne_eq, not_true_eq_false, if_false, h2, if_true]

theorem find_range (p : Nat → Bool) (i : Nat) (hp : p i = true) (hfirst : ∀ j, j < i → p j = false) :
    ∀ n, i < n → (List.range n).find? p = some i := by
  intro n
  induction n with
  | zero => intro h; omega
  | succ n ih =>
    intro h
    rw [List.range_succ, List.find?_append]
    by_cases hin : i < n
    · rw [ih hin]; rfl
    · have e : i = n := by omega
      subst e
      have : (List.range i).find? p = none := by
        rw [List.find?_eq_none]
        intro x hx
        rw [hfirst x (List.mem_range.mp hx)]
        simp
      rw [this]
      simp [hp]

theorem unlinkFromParent_eq (g : Geometry) (d : Device) (par e i : Nat) (hi : i < PAGE_SIZE g)
    (hent : d.ram (par * PAGE_SIZE g + i) = (e : Int))
    (hfirst : ∀ j, j < i → d.ram (par * PAGE_SIZE g + j) ≠ (e : Int)) :
    unlinkFromParent g d par e = PMwrite d (par * PAGE_SIZE g + i) 0 := by
  unfold unlinkFromParent
  rw [find_range _ i (by simpa [PMread_eq] using hent)
    (fun j hj => by simpa [PMread_eq] using hfirst j hj) _ hi]

theorem findFree_reuse (g : Geometry) (d : Device) (hinv : TreeInv g d) (t c : Nat)
    (h1 : (scanTree g d t c).emptyTable ≠ 0) :
    ∃ q i, Resident g d (q ++ [i]) (scanTree g d t c).emptyTable ∧
      (q ++ [i]).length < g.TABLES_DEPTH ∧
      Resident g d q (scanTree g d t c).emptyTableParent ∧
      (∀ o, o < PAGE_SIZE g → d.ram ((scanTree g d t c).emptyTable * PAGE_SIZE g + o) = 0) ∧
      (scanTree g d t c).emptyTable ≠ c ∧ i < PAGE_SIZE g ∧
      d.ram ((scanTree g d t c).emptyTableParent * PAGE_SIZE g + i) =
        ((scanTree g d t c).emptyTable : Int) ∧
      findFreeOrEvictFrame g d t c =
        ((scanTree g d t c).emptyTable,
          PMwrite d ((scanTree g d t c).emptyTableParent * PAGE_SIZE g + i) 0) := by
  obtain ⟨q, i, he, hl, hq, hz, hne⟩ := scan_empty_some g d t c h1
  obtain ⟨x, hx, hx0, hxe, hi, hlq⟩ := he.snoc_inv
  have hxp : x = (scanTree g d t c).emptyTableParent := hx.unique hq
  have hent : d.ram ((scanTree g d t c).emptyTableParent * PAGE_SIZE g + i) =
      ((scanTree g d t c).emptyTable : Int) := by
    rw [← hxp]
    have := hinv.nonneg q x i hx hlq hi
    omega
  refine ⟨q, i, he, hl, hq, hz, hne, hi, hent, ?_⟩
  unfold findFreeOrEvictFrame
  simp only [h1, ne_eq, not_false_eq_true, if_true]
  rw [unlinkFromParent_eq g d _ _ i hi hent]
  intro j hj hcon
  have hj' : j < PAGE_SIZE g := by omega
  have hne0 : d.ram ((scanTree g d t c).emptyTableParent * PAGE_SIZE g + j) ≠ 0 := by
    rw [hcon]; exact_mod_cast h1
  have hres := hq.snoc hlq hj' hne0
  rw [hcon, Int.toNat_ofNat] at hres
  have := hinv.inj _ _ _ hres he
  have : j = i := by simpa using this
  omega

theorem findFree_evict (g : Geometry) (d : Device) (hinv : TreeInv g d)
    (hNF : g.TABLES_DEPTH < g.NUM_FRAMES)
    (pc : List Nat) (c : Nat) (hc : Resident g d pc c) (hlc : pc.length < g.TABLES_DEPTH)
    (P : List Nat) (hP : ValidPath g P) (hPl : P.length = g.TABLES_DEPTH)
    (hPn : walkFrom g d 0 P = none)
    (r : FrameSearchResult) (hr : r = scanTree g d (pageFrom g 0 P) c)
    (h1 : r.emptyTable = 0) (h2 : ¬ r.maxUsedFrame + 1 < g.NUM_FRAMES) :
    ∃ q, Resident g d (q ++ [r.bestEvictOffset]) r.bestEvictFrame ∧
      (q ++ [r.bestEvictOffset]).length = g.TABLES_DEPTH ∧
      Resident g d q r.bestEvictParent ∧
      r.bestEvictPageNumber = pageFrom g 0 (q ++ [r.bestEvictOffset]) ∧
      r.bestDistance = computeCyclicDistance g (pageFrom g 0 P) r.bestEvictPageNumber ∧
      0 < r.bestDistance ∧
      (∀ p x, Resident g d p x → p.length = g.TABLES_DEPTH →
        computeCyclicDistance g (pageFrom g 0 P) (pageFrom g 0 p) ≤ r.bestDistance) ∧
      (∃ l1 l2, leafPages g d = l1 ++ r.bestEvictPageNumber :: l2 ∧
        ∀ pg ∈ l1, computeCyclicDistance g (pageFrom g 0 P) pg < r.bestDistance) ∧
      findFreeOrEvictFrame g d (pageFrom g 0 P) c =
        (r.bestEvictFrame,
          PMwrite (PMevict g d r.bestEvictFrame r.bestEvictPageNumber)
            (r.bestEvictParent * PAGE_SIZE g + r.bestEvictOffset) 0) := by
  have hD : 0 < g.TABLES_DEPTH := by omega
  have hempty : ∀ p x, Resident g d p x → p.length < g.TABLES_DEPTH →
      (∀ o, o < PAGE_SIZE g → d.ram (x * PAGE_SIZE g + o) = 0) → x = 0 ∨ x = c :=
    fun p x hp hl hz => scan_empty_none g d (pageFrom g 0 P) c (hr ▸ h1) p x hp hl hz
  obtain ⟨pl, xl, hleaf, hll⟩ := exists_leaf g d hinv pc c hc hlc hempty r.maxUsedFrame
    (fun x hx => (scan_max_iff g d hinv (pageFrom g 0 P) c x).mpr (hr ▸ hx)) (by omega)
  have hpos : 0 < computeCyclicDistance g (pageFrom g 0 P) (pageFrom g 0 pl) := by
    apply computeCyclicDistance_pos g _ _ (pageFrom_lt_NUM_PAGES g P hP hPl)
      (pageFrom_lt_NUM_PAGES g pl hleaf.1 hll)
    intro e
    have := pageFrom_inj g P pl (by omega) hP.2 hleaf.1.2 e
    subst this
    rw [hleaf.2] at hPn
    cases hPn
  rcases scan_best g d hD (pageFrom g 0 P) c with
    ⟨_, _, _, _, _, hall⟩ | ⟨q, hv, hl, hq, hpg, hdist, hp0, hmax, hfirst⟩
  · have := hall pl xl hleaf hll
    omega
  · rw [← hr] at hv hl hq hpg hdist hp0 hmax hfirst
    refine ⟨q, hv, hl, hq, hpg, hdist, hp0, hmax, hfirst, ?_⟩
    unfold findFreeOrEvictFrame
    rw [← hr]
    simp only [h1, ne_eq, not_true_eq_false, if_false, h2]
    obtain ⟨x, hx, _, hxe, _, _⟩ := hv.snoc_inv
    have hxp : x = r.bestEvictParent := hx.unique hq
    rw [hxp] at hxe
    simp only [PMread_eq, hxe]

/-! ## Virtual memory contents across the allocator -/

theorem walk_none_of_not_resident (g : Geometry) (d : Device) (p : List Nat) (hp : ValidPath g p)
    (h : ∀ x, ¬ Resident g d p x) : walkFrom g d 0 p = none := by
  cases hw : walkFrom g d 0 p with
  | none => rfl
  | some x => exact absurd ⟨hp, hw⟩ (h x)

theorem swapped_word (g : Geometry) (d : Device) (v pg off : Nat) (hoff : off < PAGE_SIZE g) :
    (((PMevict g d v pg).swap pg).getD []).getD off 0 = d.ram (v * PAGE_SIZE g + off) := by
  simp only [PMevict, if_true, Option.getD_some]
  rw [List.getD_eq_getElem?_getD, List.getElem?_map, List.getElem?_range hoff]
  rfl

theorem PMevict_swap_ne (g : Geometry) (d : Device) (v pg pg' : Nat) (h : pg' ≠ pg) :
    (PMevict g d v pg).swap pg' = d.swap pg' := by
  simp only [PMevict, if_neg h]

/-- Unlinking a childless frame keeps the contents of virtual memory, provided the backing
store holds the words of the frame when it was a leaf and is otherwise as before. -/
theorem content_unlink (g : Geometry) (d d1 : Device)
    (hinj : ∀ p q f, Resident g d p f → Resident g d q f → p = q)
    (q : List Nat) (par i e : Nat) (hq : Resident g d q par) (hi : i < PAGE_SIZE g)
    (he : Resident g d (q ++ [i]) e)
    (hres : ∀ p x, Resident g d1 p x ↔ Resident g d p x ∧ x ≠ e)
    (hsame : ∀ a, a ≠ par * PAGE_SIZE g + i → d1.ram a = d.ram a)
    (hswap : ∀ p, ValidPath g p → p.length = g.TABLES_DEPTH → p ≠ q ++ [i] →
      d1.swap (pageFrom g 0 p) = d.swap (pageFrom g 0 p))
    (hkept : (q ++ [i]).length = g.TABLES_DEPTH → ∀ off, off < PAGE_SIZE g →
      ((d1.swap (pageFrom g 0 (q ++ [i]))).getD []).getD off 0 = d.ram (e * PAGE_SIZE g + off))
    (p : List Nat) (off : Nat) (hp : ValidPath g p) (hl : p.length = g.TABLES_DEPTH)
    (hoff : off < PAGE_SIZE g) :
    content g d1 p off = content g d p off := by
  have hlq : q.length < g.TABLES_DEPTH := by
    have := he.1.1; simp at this; omega
  unfold content
  cases hw : walkFrom g d 0 p with
  | some x =>
    by_cases hxe : x = e
    · subst hxe
      have hpe : p = q ++ [i] := hinj _ _ _ ⟨hp, hw⟩ he
      have hn : walkFrom g d1 0 p = none :=
        walk_none_of_not_resident g d1 p hp (fun y hy => by
          have := (hres p y).mp hy
          exact this.2 (Resident.unique this.1 ⟨hp, hw⟩))
      rw [hn]
      simp only
      rw [hpe]
      exact hkept (hpe ▸ hl) off hoff
    · have h1 : walkFrom g d1 0 p = some x := ((hres p x).mpr ⟨⟨hp, hw⟩, hxe⟩).2
      rw [h1]
      simp only
      apply hsame
      intro ha
      obtain ⟨rfl, _⟩ := frame_addr_inj g hoff hi ha
      have := hinj _ _ _ ⟨hp, hw⟩ hq
      rw [this] at hl
      omega
  | none =>
    have hn : walkFrom g d1 0 p = none :=
      walk_none_of_not_resident g d1 p hp (fun y hy => by
        have := ((hres p y).mp hy).1.2
        rw [hw] at this
        cases this)
    rw [hn]
    simp only
    rw [hswap p hp hl]
    rintro rfl
    rw [he.2] at hw
    cases hw

/-- What `findFreeOrEvictFrame` does on a fault below the table `c` of the tree, for a page
that is not resident: the frame it supplies is neither the root nor `c`, it is no longer
part of the tree, the rest of the tree and the contents of virtual memory are as before. -/
theorem findFree_spec (g : Geometry) (d : Device) (hinv : TreeInv g d)
    (hNF : g.TABLES_DEPTH < g.NUM_FRAMES)
    (pc : List Nat) (c : Nat) (hc : Resident g d pc c) (hlc : pc.length < g.TABLES_DEPTH)
    (P : List Nat) (hP : ValidPath g P) (hPl : P.length = g.TABLES_DEPTH)
    (hPn : walkFrom g d 0 P = none) :
    ∃ nf d1, findFreeOrEvictFrame g d (pageFrom g 0 P) c = (nf, d1) ∧
      nf ≠ 0 ∧ nf < g.NUM_FRAMES ∧ nf ≠ c ∧
      (∀ p x, Resident g d1 p x ↔ Resident g d p x ∧ x ≠ nf) ∧
      (∃ k, k < g.NUM_FRAMES ∧ ∀ x, ((∃ p, Resident g d p x) ∨ x = nf) ↔ x ≤ k) ∧
      (∀ a, d1.ram a = d.ram a ∨
        (d1.ram a = 0 ∧ ∃ q x o, Resident g d q x ∧ q.length < g.TABLES_DEPTH ∧
          o < PAGE_SIZE g ∧ a = x * PAGE_SIZE g + o)) ∧
      (∀ p off, ValidPath g p → p.length = g.TABLES_DEPTH → off < PAGE_SIZE g →
        content g d1 p off = content g d p off) ∧
      (d1.journal = d.journal ∨ (∃ a, d1.journal = Call.write a 0 :: d.journal) ∨
        ∃ a pg, d1.journal = Call.write a 0 :: Call.evict nf pg :: d.journal) := by
  have hmaxiff := scan_max_iff g d hinv (pageFrom g 0 P) c
  have hmaxlt := scan_max_lt g d hinv (pageFrom g 0 P) c
  by_cases h1 : (scanTree g d (pageFrom g 0 P) c).emptyTable = 0
  · by_cases h2 : (scanTree g d (pageFrom g 0 P) c).maxUsedFrame + 1 < g.NUM_FRAMES
    · -- a frame that was never used
      refine ⟨_, _, findFree_fresh g d _ c h1 h2, by omega, h2, ?_, ?_, ?_, ?_, ?_, Or.inl rfl⟩
      · intro e
        have := (hmaxiff _).mp ⟨pc, hc⟩
        omega
      · intro p x
        constructor
        · intro h
          refine ⟨h, ?_⟩
          intro e
          have := (hmaxiff _).mp ⟨p, h⟩
          omega
        · exact fun h => h.1
      · refine ⟨_, h2, ?_⟩
        intro x
        rw [hmaxiff]
        omega
      · exact fun a => Or.inl rfl
      · intro p off _ _ _; rfl
    · -- eviction
      obtain ⟨q, hv, hl, hq, hpg, _, _, _, _, hff⟩ :=
        findFree_evict g d hinv hNF pc c hc hlc P hP hPl hPn _ rfl h1 h2
      generalize (scanTree g d (pageFrom g 0 P) c).bestEvictFrame = v at *
      generalize (scanTree g d (pageFrom g 0 P) c).bestEvictParent = par at *
      generalize (scanTree g d (pageFrom g 0 P) c).bestEvictOffset = i at *
      generalize (scanTree g d (pageFrom g 0 P) c).bestEvictPageNumber = pg at *
      have hi : i < PAGE_SIZE g := hv.1.2 i (by simp)
      have hlq : q.length < g.TABLES_DEPTH := by simp at hl; omega
      have hsame : ∀ a, a ≠ par * PAGE_SIZE g + i →
          (PMwrite (PMevict g d v pg) (par * PAGE_SIZE g + i) 0).ram a = d.ram a := by
        intro a ha; simp [ha]
      have hres := unlink_resident g d (PMwrite (PMevict g d v pg) (par * PAGE_SIZE g + i) 0)
        hinv.inj q par i v hq hi hv
        (fun rest y hy => by
          have := hy.1.1
          simp at this hl
          exact List.length_eq_zero.mp (by omega))
        (by simp) hsame
      have hv0 : v ≠ 0 := by
        rintro rfl
        have := hinv.inj _ _ _ hv (Resident.root g d)
        simp at this
      have hvc : v ≠ c := by
        rintro rfl
        have := hinv.inj _ _ _ hv hc
        rw [this] at hl
        omega
      refine ⟨_, _, hff, hv0, ?_, hvc, hres, ?_, ?_, ?_, Or.inr (Or.inr ⟨_, _, rfl⟩)⟩
      · have := (hmaxiff v).mp ⟨_, hv⟩
        omega
      · refine ⟨_, hmaxlt, ?_⟩
        intro x
        rw [hmaxiff]
        have := (hmaxiff v).mp ⟨_, hv⟩
        constructor
        · rintro (h | rfl)
          · exact h
          · exact this
        · exact fun h => Or.inl h
      · intro a
        by_cases ha : a = par * PAGE_SIZE g + i
        · right
          exact ⟨by simp [ha], q, par, i, hq, hlq, hi, ha⟩
        · left; exact hsame a ha
      · intro p off hp hpl hoff
        apply content_unlink g d _ hinv.inj q par i v hq hi hv hres hsame _ _ p off hp hpl hoff
        · intro p' hp' hl' hne
          simp only [PMwrite_swap]
          apply PMevict_swap_ne
          rw [hpg]
          intro e
          exact hne (pageFrom_inj g p' _ (by omega) hp'.2 hv.1.2 e)
        · intro _ off' hoff'
          simp only [PMwrite_swap]
          rw [← hpg]
          exact swapped_word g d v pg off' hoff'
  · -- an empty table
    obtain ⟨q, i, he, hl, hq, hz, hne, hi, hent, hff⟩ := findFree_reuse g d hinv (pageFrom g 0 P) c h1
    generalize (scanTree g d (pageFrom g 0 P) c).emptyTable = e at *
    generalize (scanTree g d (pageFrom g 0 P) c).emptyTableParent = par at *
    have hlq : q.length < g.TABLES_DEPTH := by simp at hl; omega
    have hsame : ∀ a, a ≠ par * PAGE_SIZE g + i →
        (PMwrite d (par * PAGE_SIZE g + i) 0).ram a = d.ram a := by
      intro a ha; simp [ha]
    have hres := unlink_resident g d (PMwrite d (par * PAGE_SIZE g + i) 0)
      hinv.inj q par i e hq hi he
      (fun rest y hy => by
        cases rest with
        | nil => rfl
        | cons o rest =>
          exfalso
          have hy' : Resident g d ((q ++ [i]) ++ [o] ++ rest) y := by simpa using hy
          obtain ⟨y', hy''⟩ := hy'.prefix_left
          obtain ⟨x, hx, hx0, _, ho, _⟩ := hy''.snoc_inv
          have := hx.unique he
          subst this
          exact hx0 (hz o ho))
      (by simp) hsame
    refine ⟨_, _, hff, h1, ?_, hne, hres, ?_, ?_, ?_, Or.inr (Or.inl ⟨_, rfl⟩)⟩
    · have := (hmaxiff e).mp ⟨_, he⟩
      omega
    · refine ⟨_, hmaxlt, ?_⟩
      intro x
      rw [hmaxiff]
      have := (hmaxiff e).mp ⟨_, he⟩
      constructor
      · rintro (h | rfl)
        · exact h
        · exact this
      · exact fun h => Or.inl h
    · intro a
      by_cases ha : a = par * PAGE_SIZE g + i
      · right
        exact ⟨by simp [ha], q, par, i, hq, hlq, hi, ha⟩
      · left; exact hsame a ha
    · intro p off hp hpl hoff
      apply content_unlink g d _ hinv.inj q par i e hq hi he hres hsame _ _ p off hp hpl hoff
      · intro p' _ _ _; rfl
      · intro hcon; omega

/-! ## One page fault -/

theorem walk_none_of_null_entry (g : Geometry) (d : Device) (pc : List Nat) (c i : Nat)
    (hc : Resident g d pc c) (hz : d.ram (c * PAGE_SIZE g + i) = 0) (rest : List Nat) :
    walkFrom g d 0 (pc ++ i :: rest) = none := by
  rw [walkFrom_append, hc.2]
  simp only [Option.some_bind, walkFrom, PMread_eq, hz, if_true]

/-- The device after a page fault below the table `c` at offset `i`: the frame supplied by
the allocator, initialised for its role and linked. -/
theorem fault_step (g : Geometry) (d : Device) (hinv : TreeInv g d)
    (hNF : g.TABLES_DEPTH < g.NUM_FRAMES)
    (pc : List Nat) (c i : Nat) (hc : Resident g d pc c) (hlc : pc.length < g.TABLES_DEPTH)
    (hi : i < PAGE_SIZE g) (hz : d.ram (c * PAGE_SIZE g + i) = 0)
    (P : List Nat) (hP : ValidPath g P) (hPl : P.length = g.TABLES_DEPTH)
    (hpre : (pc ++ [i]) <+: P) (d3 : Device)
    (hd3 : d3 = PMwrite
      (if pc.length < g.TABLES_DEPTH - 1 then
        clearFrame g (findFreeOrEvictFrame g d (pageFrom g 0 P) c).2
          (findFreeOrEvictFrame g d (pageFrom g 0 P) c).1
      else PMrestore g (findFreeOrEvictFrame g d (pageFrom g 0 P) c).2
          (findFreeOrEvictFrame g d (pageFrom g 0 P) c).1 (pageFrom g 0 P))
      (c * PAGE_SIZE g + i) ((findFreeOrEvictFrame g d (pageFrom g 0 P) c).1 : Int)) :
    TreeInv g d3 ∧
    Resident g d3 (pc ++ [i]) (findFreeOrEvictFrame g d (pageFrom g 0 P) c).1 ∧
    (∀ p x, Resident g d3 p x ↔
      (Resident g d p x ∧ x ≠ (findFreeOrEvictFrame g d (pageFrom g 0 P) c).1) ∨
      (p = pc ++ [i] ∧ x = (findFreeOrEvictFrame g d (pageFrom g 0 P) c).1)) ∧
    (∀ p off, ValidPath g p → p.length = g.TABLES_DEPTH → off < PAGE_SIZE g →
      content g d3 p off = content g d p off) := by
  obtain ⟨rest, hrest⟩ := hpre
  have hPn : walkFrom g d 0 P = none := by
    rw [← hrest, List.append_assoc, List.singleton_append]
    exact walk_none_of_null_entry g d pc c i hc hz rest
  obtain ⟨nf, d1, hff, hnf0, hnfl, hnfc, hres1, ⟨k, hk, hkiff⟩, hram1, hcont1, _⟩ :=
    findFree_spec g d hinv hNF pc c hc hlc P hP hPl hPn
  rw [hff] at hd3 ⊢
  simp only at hd3 ⊢
  -- the device after the initialisation of the new frame
  generalize hd2 : (if pc.length < g.TABLES_DEPTH - 1 then clearFrame g d1 nf
      else PMrestore g d1 nf (pageFrom g 0 P)) = d2 at hd3
  have hram2 : ∀ a, a / PAGE_SIZE g ≠ nf → d2.ram a = d1.ram a := by
    intro a ha
    rw [← hd2]
    split
    · rw [clearFrame_ram, if_neg ha]
    · rw [PMrestore_ram, if_neg ha]
  have hswap2 : d2.swap = d1.swap := by
    rw [← hd2]; split
    · exact clearFrame_swap g d1 nf
    · rfl
  have hnot1 : ∀ q, ¬ Resident g d1 q nf := fun q h => ((hres1 q nf).mp h).2 rfl
  have hres2 : ∀ p x, Resident g d2 p x ↔ Resident g d1 p x := by
    intro p x
    constructor
    · rintro ⟨hv, hw⟩
      exact ⟨hv, by rw [← walk_frame_change g d1 d2 nf (fun q h _ => hnot1 q h) hram2 p hv]; exact hw⟩
    · rintro ⟨hv, hw⟩
      exact ⟨hv, by rw [walk_frame_change g d1 d2 nf (fun q h _ => hnot1 q h) hram2 p hv]; exact hw⟩
  have hinj1 : ∀ p q f, Resident g d1 p f → Resident g d1 q f → p = q :=
    fun p q f h1 h2 => hinv.inj p q f ((hres1 p f).mp h1).1 ((hres1 q f).mp h2).1
  have hinj2 : ∀ p q f, Resident g d2 p f → Resident g d2 q f → p = q :=
    fun p q f h1 h2 => hinj1 p q f ((hres2 p f).mp h1) ((hres2 q f).mp h2)
  have hc2 : Resident g d2 pc c := (hres2 pc c).mpr ((hres1 pc c).mpr ⟨hc, hnfc.symm⟩)
  have hcaddr : ∀ o, o < PAGE_SIZE g → (c * PAGE_SIZE g + o) / PAGE_SIZE g ≠ nf := by
    intro o ho; rw [frame_addr_div g c o ho]; exact hnfc.symm
  have hz2 : d2.ram (c * PAGE_SIZE g + i) = 0 := by
    rw [hram2 _ (hcaddr i hi)]
    rcases hram1 (c * PAGE_SIZE g + i) with h | ⟨h, _⟩
    · rw [h]; exact hz
    · exact h
  have hsame3 : ∀ a, a ≠ c * PAGE_SIZE g + i → d3.ram a = d2.ram a := by
    intro a ha; rw [hd3]; simp [ha]
  have hnew3 : d3.ram (c * PAGE_SIZE g + i) = (nf : Int) := by rw [hd3]; simp
  have hchild : pc.length + 1 = g.TABLES_DEPTH ∨
      ∀ o, o < PAGE_SIZE g → d3.ram (nf * PAGE_SIZE g + o) = 0 := by
    by_cases hlt : pc.length < g.TABLES_DEPTH - 1
    · right
      intro o ho
      rw [hsame3]
      · rw [← hd2, if_pos hlt, clearFrame_ram, if_pos (frame_addr_div g nf o ho)]
      · intro e
        exact hnfc (frame_addr_inj g ho hi e).1
    · left; omega
  have hres3 := link_resident g d2 d3 hinj2 pc c i nf hc2 hlc hi hnf0 hz2 hnew3 hsame3 hchild
  have hres : ∀ p x, Resident g d3 p x ↔
      (Resident g d p x ∧ x ≠ nf) ∨ (p = pc ++ [i] ∧ x = nf) := by
    intro p x
    rw [hres3, hres2, hres1]
  refine ⟨⟨?_, ?_, ?_⟩, (hres _ _).mpr (Or.inr ⟨rfl, rfl⟩), hres, ?_⟩
  · -- one path per frame
    intro p q f hp hq
    rcases (hres p f).mp hp with ⟨h1, n1⟩ | ⟨rfl, rfl⟩
    · rcases (hres q f).mp hq with ⟨h2, _⟩ | ⟨_, e⟩
      · exact hinv.inj p q f h1 h2
      · exact absurd e n1
    · rcases (hres q f).mp hq with ⟨_, n2⟩ | ⟨e, _⟩
      · exact absurd rfl n2
      · exact e.symm
  · -- the frames of the tree
    refine ⟨k, hk, ?_⟩
    intro x
    rw [← hkiff]
    constructor
    · rintro ⟨p, hp⟩
      rcases (hres p x).mp hp with ⟨h1, _⟩ | ⟨_, e⟩
      · exact Or.inl ⟨p, h1⟩
      · exact Or.inr e
    · rintro (⟨p, hp⟩ | rfl)
      · by_cases hx : x = nf
        · subst hx; exact ⟨_, (hres _ _).mpr (Or.inr ⟨rfl, rfl⟩)⟩
        · exact ⟨p, (hres p x).mpr (Or.inl ⟨hp, hx⟩)⟩
      · exact ⟨_, (hres _ _).mpr (Or.inr ⟨rfl, rfl⟩)⟩
  · -- the entries of the tables
    intro p x o hp hl ho
    by_cases ha : x * PAGE_SIZE g + o = c * PAGE_SIZE g + i
    · rw [ha, hnew3]; exact Int.natCast_nonneg nf
    · rw [hsame3 _ ha]
      rcases (hres p x).mp hp with ⟨h1, n1⟩ | ⟨rfl, rfl⟩
      · rw [hram2 _ (by rw [frame_addr_div g x o ho]; exact n1)]
        rcases hram1 (x * PAGE_SIZE g + o) with h | ⟨h, _⟩
        · rw [h]; exact hinv.nonneg p x o h1 hl ho
        · rw [h]
      · rcases hchild with hcl | hcz
        · simp at hl; omega
        · have := hcz o ho
          rw [hsame3 _ ha] at this
          rw [this]
  · -- the contents of virtual memory
    intro p off hp hl hoff
    rw [← hcont1 p off hp hl hoff]
    unfold content
    cases hw1 : walkFrom g d1 0 p with
    | some x =>
      have hx1 : Resident g d1 p x := ⟨hp, hw1⟩
      have hxn : x ≠ nf := ((hres1 p x).mp hx1).2
      have hx3 : Resident g d3 p x := (hres3 p x).mpr (Or.inl ((hres2 p x).mpr hx1))
      rw [hx3.2]
      simp only
      rw [hsame3, hram2 _ (by rw [frame_addr_div g x off hoff]; exact hxn)]
      intro e
      obtain ⟨rfl, _⟩ := frame_addr_inj g hoff hi e
      have := hinj1 _ _ _ hx1 ((hres2 pc x).mp hc2)
      rw [this] at hl
      omega
    | none =>
      by_cases hpn : p = pc ++ [i]
      · have hx3 : Resident g d3 p nf := (hres p nf).mpr (Or.inr ⟨hpn, rfl⟩)
        rw [hx3.2]
        simp only
        have hlast : ¬ pc.length < g.TABLES_DEPTH - 1 := by
          rw [hpn] at hl; simp at hl; omega
        have hPp : P = p := by
          rw [← hrest, hpn]
          have : rest = [] := by
            apply List.length_eq_zero.mp
            have := congrArg List.length hrest
            rw [hpn] at hl
            simp at this hl
            omega
          rw [this]; simp
        rw [hsame3 _ (by
          intro e
          exact hnfc (frame_addr_inj g hoff hi e).1)]
        rw [← hd2, if_neg hlast, PMrestore_ram, if_pos (frame_addr_div g nf off hoff), hPp]
        have : (nf * PAGE_SIZE g + off) % PAGE_SIZE g = off := by
          rw [Nat.mul_comm, Nat.mul_add_mod]; exact Nat.mod_eq_of_lt hoff
        rw [this]
      · have hn3 : walkFrom g d3 0 p = none :=
          walk_none_of_not_resident g d3 p hp (fun y hy => by
            rcases (hres3 p y).mp hy with h | ⟨h, _⟩
            · have := ((hres2 p y).mp h).2
              rw [hw1] at this; cases this
            · exact hpn h)
        rw [hn3]
        simp only
        rw [hd3, PMwrite_swap, hswap2]

/-! ## The resolver -/

theorem parseAddress_length (g : Geometry) (a : Nat) :
    (parseAddress g a).length = g.TABLES_DEPTH + 1 := by
  simp [parseAddress_eq]

theorem parseAddress_lt (g : Geometry) (a : Nat) : ∀ o ∈ parseAddress g a, o < PAGE_SIZE g := by
  intro o ho
  rw [parseAddress_eq, List.mem_map] at ho
  obtain ⟨i, _, rfl⟩ := ho
  exact Nat.mod_lt _ (PAGE_SIZE_pos g)

theorem parseAddress_getD_lt (g : Geometry) (a i : Nat) :
    (parseAddress g a).getD i 0 < PAGE_SIZE g := by
  rw [List.getD_eq_getElem?_getD]
  cases h : (parseAddress g a)[i]? with
  | none => exact PAGE_SIZE_pos g
  | some o => exact parseAddress_lt g a o (List.getElem?_mem h)

theorem pagePath_valid (g : Geometry) (a : Nat) :
    ValidPath g ((parseAddress g a).take g.TABLES_DEPTH) :=
  ⟨by simp [parseAddress_length], fun o ho => parseAddress_lt g a o (List.mem_of_mem_take ho)⟩

theorem pagePath_length (g : Geometry) (a : Nat) :
    ((parseAddress g a).take g.TABLES_DEPTH).length = g.TABLES_DEPTH := by
  simp [parseAddress_length]

theorem take_succ_getD (l : List Nat) (n : Nat) (h : n < l.length) :
    l.take (n + 1) = l.take n ++ [l.getD n 0] := by
  rw [List.take_succ, List.getD_eq_getElem?_getD, List.getElem?_eq_getElem h]
  rfl

theorem pagePath_take (g : Geometry) (a level : Nat) (h : level < g.TABLES_DEPTH) :
    ((parseAddress g a).take g.TABLES_DEPTH).take (level + 1) =
      ((parseAddress g a).take g.TABLES_DEPTH).take level ++ [(parseAddress g a).getD level 0] := by
  rw [List.take_take, List.take_take, Nat.min_eq_left (by omega), Nat.min_eq_left (by omega)]
  exact take_succ_getD _ _ (by rw [parseAddress_length]; omega)

theorem pageNumberOf_loop (g : Geometry) (indices : List Nat) (n : Nat) (h : n ≤ indices.length) :
    (List.range n).foldl
        (fun pageNumber level => (pageNumber <<< g.OFFSET_WIDTH) ||| indices.getD level 0) 0 =
      pageFrom g 0 (indices.take n) := by
  induction n with
  | zero => simp [pageFrom]
  | succ n ih =>
    rw [List.range_succ, List.foldl_append, ih (by omega), take_succ_getD indices n (by omega),
      pageFrom_append]
    rfl

theorem pageNumberOf_eq (g : Geometry) (a : Nat) :
    pageNumberOf g (parseAddress g a) = pageFrom g 0 ((parseAddress g a).take g.TABLES_DEPTH) :=
  pageNumberOf_loop g _ _ (by rw [parseAddress_length]; omega)

theorem traverseUpTo_succ (g : Geometry) (d : Device) (a n : Nat) :
    traverseUpTo g d a (n + 1) =
      traverseStep g (parseAddress g a) (pageNumberOf g (parseAddress g a))
        (traverseUpTo g d a n) n := by
  unfold traverseUpTo
  rw [List.range_succ, List.foldl_append]
  rfl

theorem traverseTree_eq (g : Geometry) (d : Device) (a : Nat) :
    traverseTree g d a =
      ((traverseUpTo g d a g.TABLES_DEPTH).1 * PAGE_SIZE g + (parseAddress g a).getD g.TABLES_DEPTH 0,
        (traverseUpTo g d a g.TABLES_DEPTH).2) := rfl

/-- One iteration of the resolver's loop keeps the tree invariant and the contents of
virtual memory and advances along the path of the address. -/
theorem traverseStep_spec (g : Geometry) (d : Device) (hinv : TreeInv g d)
    (hNF : g.TABLES_DEPTH < g.NUM_FRAMES) (a level c : Nat) (hlevel : level < g.TABLES_DEPTH)
    (hc : Resident g d (((parseAddress g a).take g.TABLES_DEPTH).take level) c) :
    TreeInv g (traverseStep g (parseAddress g a) (pageNumberOf g (parseAddress g a)) (c, d) level).2 ∧
    Resident g (traverseStep g (parseAddress g a) (pageNumberOf g (parseAddress g a)) (c, d) level).2
      (((parseAddress g a).take g.TABLES_DEPTH).take (level + 1))
      (traverseStep g (parseAddress g a) (pageNumberOf g (parseAddress g a)) (c, d) level).1 ∧
    (∀ p off, ValidPath g p → p.length = g.TABLES_DEPTH → off < PAGE_SIZE g →
      content g (traverseStep g (parseAddress g a) (pageNumberOf g (parseAddress g a))
        (c, d) level).2 p off = content g d p off) := by
  have hi := parseAddress_getD_lt g a level
  have hlen : (((parseAddress g a).take g.TABLES_DEPTH).take level).length = level := by
    simp [parseAddress_length]; omega
  rw [pagePath_take g a level hlevel]
  unfold traverseStep
  simp only [PMread_eq]
  by_cases hz : d.ram (c * PAGE_SIZE g + (parseAddress g a).getD level 0) = 0
  · rw [if_pos hz]
    simp only
    rw [pageNumberOf_eq]
    have hpre : (((parseAddress g a).take g.TABLES_DEPTH).take level ++
        [(parseAddress g a).getD level 0]) <+: (parseAddress g a).take g.TABLES_DEPTH := by
      rw [← pagePath_take g a level hlevel]; exact List.take_prefix _ _
    obtain ⟨h1, h2, _, h4⟩ := fault_step g d hinv hNF _ c _ hc (by rw [hlen]; exact hlevel) hi hz
      _ (pagePath_valid g a) (pagePath_length g a) hpre _ rfl
    rw [hlen] at h1 h2 h4
    exact ⟨h1, h2, h4⟩
  · rw [if_neg hz]
    exact ⟨hinv, hc.snoc (by rw [hlen]; exact hlevel) hi hz, fun _ _ _ _ _ => rfl⟩

theorem traverseUpTo_spec (g : Geometry) (d : Device) (hinv : TreeInv g d)
    (hNF : g.TABLES_DEPTH < g.NUM_FRAMES) (a : Nat) :
    ∀ n, n ≤ g.TABLES_DEPTH →
      TreeInv g (traverseUpTo g d a n).2 ∧
      Resident g (traverseUpTo g d a n).2 (((parseAddress g a).take g.TABLES_DEPTH).take n)
        (traverseUpTo g d a n).1 ∧
      (∀ p off, ValidPath g p → p.length = g.TABLES_DEPTH → off < PAGE_SIZE g →
        content g (traverseUpTo g d a n).2 p off = content g d p off) := by
  intro n
  induction n with
  | zero =>
    intro _
    exact ⟨hinv, Resident.root g d, fun _ _ _ _ _ => rfl⟩
  | succ n ih =>
    intro hn
    obtain ⟨h1, h2, h3⟩ := ih (by omega)
    rw [traverseUpTo_succ]
    obtain ⟨k1, k2, k3⟩ := traverseStep_spec g (traverseUpTo g d a n).2 h1 hNF a n
      (traverseUpTo g d a n).1 (by omega) h2
    refine ⟨k1, k2, ?_⟩
    intro p off hp hl hoff
    rw [k3 p off hp hl hoff, h3 p off hp hl hoff]

/-! ## The API on a well-formed tree -/

theorem digit_sum (b a : Nat) (n : Nat) :
    ∑ i in Finset.range n, a / b ^ i % b * b ^ i = a % b ^ n := by
  induction n with
  | zero => simp [Nat.mod_one]
  | succ n ih => rw [Finset.sum_range_succ, ih, Nat.mod_pow_succ, Nat.mul_comm]

theorem parseAddress_getD (g : Geometry) (va i : Nat) (hi : i ≤ g.TABLES_DEPTH) :
    (parseAddress g va).getD i 0 = va / PAGE_SIZE g ^ (g.TABLES_DEPTH - i) % PAGE_SIZE g := by
  rw [parseAddress_eq, List.getD_eq_getElem?_getD, List.getElem?_map,
    List.getElem?_range (by omega)]
  rfl

theorem parseAddress_sum (g : Geometry) (a : Nat) (ha : a < VIRTUAL_MEMORY_SIZE g) :
    (∑ i in Finset.range (g.TABLES_DEPTH + 1),
        (parseAddress g a).getD i 0 * PAGE_SIZE g ^ (g.TABLES_DEPTH - i)) = a := by
  rw [← Finset.sum_range_reflect]
  have : ∀ j ∈ Finset.range (g.TABLES_DEPTH + 1),
      (parseAddress g a).getD (g.TABLES_DEPTH + 1 - 1 - j) 0 *
          PAGE_SIZE g ^ (g.TABLES_DEPTH - (g.TABLES_DEPTH + 1 - 1 - j)) =
        a / PAGE_SIZE g ^ j % PAGE_SIZE g * PAGE_SIZE g ^ j := by
    intro j hj
    have hj' : j < g.TABLES_DEPTH + 1 := Finset.mem_range.mp hj
    rw [parseAddress_getD g a _ (by omega)]
    have e : g.TABLES_DEPTH - (g.TABLES_DEPTH + 1 - 1 - j) = j := by omega
    rw [e]
  rw [Finset.sum_congr rfl this, digit_sum, ← VIRTUAL_MEMORY_SIZE_eq]
  exact Nat.mod_eq_of_lt ha

theorem parseAddress_split (g : Geometry) (a : Nat) :
    parseAddress g a =
      (parseAddress g a).take g.TABLES_DEPTH ++ [(parseAddress g a).getD g.TABLES_DEPTH 0] := by
  rw [← take_succ_getD _ _ (by rw [parseAddress_length]; omega),
    List.take_of_length_le (by rw [parseAddress_length])]

theorem parseAddress_inj (g : Geometry) (a b : Nat) (ha : a < VIRTUAL_MEMORY_SIZE g)
    (hb : b < VIRTUAL_MEMORY_SIZE g)
    (h1 : (parseAddress g a).take g.TABLES_DEPTH = (parseAddress g b).take g.TABLES_DEPTH)
    (h2 : (parseAddress g a).getD g.TABLES_DEPTH 0 = (parseAddress g b).getD g.TABLES_DEPTH 0) :
    a = b := by
  have e : parseAddress g a = parseAddress g b := by
    rw [parseAddress_split g a, parseAddress_split g b, h1, h2]
  rw [← parseAddress_sum g a ha, ← parseAddress_sum g b hb, e]

/-- Writing a word of a leaf frame changes that word of virtual memory and nothing else. -/
theorem data_write (g : Geometry) (d : Device) (hinv : TreeInv g d) (P : List Nat) (f off : Nat)
    (hf : Resident g d P f) (hPl : P.length = g.TABLES_DEPTH) (hoff : off < PAGE_SIZE g)
    (w : Int) :
    TreeInv g (PMwrite d (f * PAGE_SIZE g + off) w) ∧
    (∀ p x, Resident g (PMwrite d (f * PAGE_SIZE g + off) w) p x ↔ Resident g d p x) ∧
    content g (PMwrite d (f * PAGE_SIZE g + off) w) P off = w ∧
    (∀ p off', ValidPath g p → p.length = g.TABLES_DEPTH → off' < PAGE_SIZE g →
      ¬ (p = P ∧ off' = off) →
      content g (PMwrite d (f * PAGE_SIZE g + off) w) p off' = content g d p off') := by
  have hnot : ∀ q, Resident g d q f → q.length < g.TABLES_DEPTH → False := by
    intro q hq hl
    have := hinv.inj _ _ _ hq hf
    rw [this] at hl; omega
  have hsame : ∀ a, a / PAGE_SIZE g ≠ f → (PMwrite d (f * PAGE_SIZE g + off) w).ram a = d.ram a := by
    intro a ha
    rw [PMwrite_ram, if_neg]
    rintro rfl
    exact ha (frame_addr_div g f off hoff)
  have hwalk : ∀ p, ValidPath g p →
      walkFrom g (PMwrite d (f * PAGE_SIZE g + off) w) 0 p = walkFrom g d 0 p :=
    fun p hp => walk_frame_change g d _ f hnot hsame p hp
  have hres : ∀ p x, Resident g (PMwrite d (f * PAGE_SIZE g + off) w) p x ↔ Resident g d p x := by
    intro p x
    constructor
    · rintro ⟨hv, hw⟩; exact ⟨hv, by rw [← hwalk p hv]; exact hw⟩
    · rintro ⟨hv, hw⟩; exact ⟨hv, by rw [hwalk p hv]; exact hw⟩
  refine ⟨⟨?_, ?_, ?_⟩, hres, ?_, ?_⟩
  · intro p q x hp hq
    exact hinv.inj p q x ((hres p x).mp hp) ((hres q x).mp hq)
  · obtain ⟨k, hk, hkiff⟩ := hinv.range
    refine ⟨k, hk, fun x => ?_⟩
    rw [← hkiff]
    constructor
    · rintro ⟨p, hp⟩; exact ⟨p, (hres p x).mp hp⟩
    · rintro ⟨p, hp⟩; exact ⟨p, (hres p x).mpr hp⟩
  · intro p x o hp hl ho
    have hp' := (hres p x).mp hp
    rw [hsame _ (by
      rw [frame_addr_div g x o ho]
      rintro rfl
      exact hnot p hp' hl)]
    exact hinv.nonneg p x o hp' hl ho
  · unfold content
    rw [hwalk P hf.1, hf.2]
    simp
  · intro p off' hp hl hoff' hne
    unfold content
    rw [hwalk p hp]
    cases hw : walkFrom g d 0 p with
    | none => rfl
    | some x =>
      simp only [PMwrite_ram]
      rw [if_neg]
      intro e
      obtain ⟨rfl, rfl⟩ := frame_addr_inj g hoff' hoff e
      exact hne ⟨hinv.inj _ _ _ ⟨hp, hw⟩ hf, rfl⟩

theorem traverseTree_spec (g : Geometry) (d : Device) (hinv : TreeInv g d)
    (hNF : g.TABLES_DEPTH < g.NUM_FRAMES) (a : Nat) :
    ∃ f, (traverseTree g d a).1 = f * PAGE_SIZE g + (parseAddress g a).getD g.TABLES_DEPTH 0 ∧
      TreeInv g (traverseTree g d a).2 ∧
      Resident g (traverseTree g d a).2 ((parseAddress g a).take g.TABLES_DEPTH) f ∧
      (∀ p off, ValidPath g p → p.length = g.TABLES_DEPTH → off < PAGE_SIZE g →
        content g (traverseTree g d a).2 p off = content g d p off) := by
  obtain ⟨h1, h2, h3⟩ := traverseUpTo_spec g d hinv hNF a g.TABLES_DEPTH le_rfl
  rw [List.take_of_length_le (by rw [pagePath_length])] at h2
  exact ⟨_, rfl, h1, h2, h3⟩

theorem vmem_eq (g : Geometry) (d : Device) (a : Nat) :
    vmem g d a = content g d ((parseAddress g a).take g.TABLES_DEPTH)
      ((parseAddress g a).getD g.TABLES_DEPTH 0) := rfl

theorem VMwrite_spec (g : Geometry) (d : Device) (hinv : TreeInv g d)
    (hNF : g.TABLES_DEPTH < g.NUM_FRAMES) (a : Nat) (ha : a < VIRTUAL_MEMORY_SIZE g) (w : Int) :
    (VMwrite g d a w).1 = 1 ∧ TreeInv g (VMwrite g d a w).2 ∧
    vmem g (VMwrite g d a w).2 a = w ∧
    (∀ b, b < VIRTUAL_MEMORY_SIZE g → b ≠ a → vmem g (VMwrite g d a w).2 b = vmem g d b) := by
  obtain ⟨f, h0, h1, h2, h3⟩ := traverseTree_spec g d hinv hNF a
  have hv : VMwrite g d a w = (1, PMwrite (traverseTree g d a).2 (traverseTree g d a).1 w) := by
    unfold VMwrite
    rw [if_neg (by omega)]
  rw [hv, h0]
  obtain ⟨k1, _, k3, k4⟩ := data_write g _ h1 _ f _ h2 (pagePath_length g a)
    (parseAddress_getD_lt g a _) w
  refine ⟨rfl, k1, k3, ?_⟩
  intro b hb hne
  rw [vmem_eq, vmem_eq]
  simp only
  rw [k4 _ _ (pagePath_valid g b) (pagePath_length g b) (parseAddress_getD_lt g b _)]
  · exact h3 _ _ (pagePath_valid g b) (pagePath_length g b) (parseAddress_getD_lt g b _)
  · rintro ⟨e1, e2⟩
    exact hne (parseAddress_inj g b a hb ha e1 e2)

theorem VMread_spec (g : Geometry) (d : Device) (hinv : TreeInv g d)
    (hNF : g.TABLES_DEPTH < g.NUM_FRAMES) (a : Nat) (ha : a < VIRTUAL_MEMORY_SIZE g) :
    (VMread g d a true).ret = 1 ∧ (VMread g d a true).stored = some (vmem g d a) ∧
    TreeInv g (VMread g d a true).device ∧
    (∀ b, vmem g (VMread g d a true).device b = vmem g d b) := by
  obtain ⟨f, h0, h1, h2, h3⟩ := traverseTree_spec g d hinv hNF a
  have hv : VMread g d a true =
      ⟨1, some (PMread (traverseTree g d a).2 (traverseTree g d a).1), (traverseTree g d a).2⟩ := by
    unfold VMread
    rw [if_neg (by simp; omega)]
  rw [hv]
  refine ⟨rfl, ?_, h1, ?_⟩
  · simp only [Option.some.injEq]
    rw [vmem_eq, ← h3 _ _ (pagePath_valid g a) (pagePath_length g a) (parseAddress_getD_lt g a _),
      h0, PMread_eq]
    unfold content
    rw [h2.2]
  · intro b
    exact h3 _ _ (pagePath_valid g b) (pagePath_length g b) (parseAddress_getD_lt g b _)

/-! ## Reachable states -/

theorem VMinitialize_root (g : Geometry) (d : Device) (o : Nat) (ho : o < PAGE_SIZE g) :
    ( VMinitialize g d).ram (0 * PAGE_SIZE g + o) = 0 := by
  simp only [ VMinitialize, clearFrame_ram, Nat.zero_mul, Nat.zero_add]
  rw [if_pos (Nat.div_eq_of_lt ho)]

theorem VMinitialize_resident (g : Geometry) (d : Device) (p : List Nat) (x : Nat) :
    Resident g ( VMinitialize g d) p x ↔ p = [] ∧ x = 0 := by
  constructor
  · rintro ⟨hv, hw⟩
    cases p with
    | nil => simp only [walkFrom, Option.some.injEq] at hw; exact ⟨rfl, hw.symm⟩
    | cons o rest =>
      rw [walkFrom, PMread_eq, if_pos (VMinitialize_root g d o (hv.2 o (by simp)))] at hw
      cases hw
  · rintro ⟨rfl, rfl⟩; exact Resident.root g _

theorem VMinitialize_inv (g : Geometry) (d : Device) (hNF : 0 < g.NUM_FRAMES) :
    TreeInv g ( VMinitialize g d) := by
  refine ⟨?_, ⟨0, hNF, ?_⟩, ?_⟩
  · intro p q f hp hq
    rw [((VMinitialize_resident g d p f).mp hp).1, ((VMinitialize_resident g d q f).mp hq).1]
  · intro f
    constructor
    · rintro ⟨p, hp⟩; rw [((VMinitialize_resident g d p f).mp hp).2]
    · intro h
      have : f = 0 := by omega
      subst this
      exact ⟨[], Resident.root g _⟩
  · intro p f o hp _ ho
    rw [((VMinitialize_resident g d p f).mp hp).2, VMinitialize_root g d o ho]

theorem applyOp_inv (g : Geometry) (d : Device) (hinv : TreeInv g d)
    (hNF : g.TABLES_DEPTH < g.NUM_FRAMES) (op : Op) : TreeInv g (applyOp g d op) := by
  cases op with
  | read a p =>
    simp only [applyOp]
    by_cases h : a < VIRTUAL_MEMORY_SIZE g ∧ p = true
    · obtain ⟨ha, rfl⟩ := h
      exact (VMread_spec g d hinv hNF a ha).2.2.1
    · have : VMread g d a p = ⟨0, none, d⟩ := by
        unfold VMread
        rw [if_pos]
        by_contra hcon
        push_neg at hcon
        exact h ⟨by omega, by simpa using hcon.2⟩
      rw [this]; exact hinv
  | write a w =>
    simp only [applyOp]
    by_cases h : a < VIRTUAL_MEMORY_SIZE g
    · exact (VMwrite_spec g d hinv hNF a h w).2.1
    · have : VMwrite g d a w = (0, d) := by
        unfold VMwrite
        rw [if_pos (by omega)]
      rw [this]; exact hinv

theorem applyOp_vmem (g : Geometry) (d : Device) (hinv : TreeInv g d)
    (hNF : g.TABLES_DEPTH < g.NUM_FRAMES) (op : Op) (b : Nat) (hb : b < VIRTUAL_MEMORY_SIZE g) :
    vmem g (applyOp g d op) b =
      match op with
      | Op.write a w => if a = b then w else vmem g d b
      | Op.read _ _ => vmem g d b := by
  cases op with
  | read a p =>
    simp only [applyOp]
    by_cases h : a < VIRTUAL_MEMORY_SIZE g ∧ p = true
    · obtain ⟨ha, rfl⟩ := h
      exact (VMread_spec g d hinv hNF a ha).2.2.2 b
    · have : VMread g d a p = ⟨0, none, d⟩ := by
        unfold VMread
        rw [if_pos]
        by_contra hcon
        push_neg at hcon
        exact h ⟨by omega, by simpa using hcon.2⟩
      rw [this]
  | write a w =>
    simp only [applyOp]
    by_cases h : a < VIRTUAL_MEMORY_SIZE g
    · obtain ⟨_, _, h3, h4⟩ := VMwrite_spec g d hinv hNF a h w
      by_cases hab : a = b
      · subst hab; rw [if_pos rfl]; exact h3
      · rw [if_neg hab]; exact h4 b hb (fun e => hab e.symm)
    · have : VMwrite g d a w = (0, d) := by
        unfold VMwrite
        rw [if_pos (by omega)]
      rw [this, if_neg (by omega)]

theorem run_snoc (g : Geometry) (d : Device) (ops : List Op) (op : Op) :
    run g d (ops ++ [op]) = applyOp g (run g d ops) op := by
  simp [run, List.foldl_append]

theorem lastWrite_snoc (a : Nat) (ops : List Op) (op : Op) :
    lastWrite a (ops ++ [op]) =
      match op with
      | Op.write a' w => if a' = a then some w else lastWrite a ops
      | Op.read _ _ => lastWrite a ops := by
  cases op with
  | read a' p => simp [lastWrite, List.foldl_append]
  | write a' w => simp [lastWrite, List.foldl_append]

theorem run_inv (g : Geometry) (d : Device) (hinv : TreeInv g d)
    (hNF : g.TABLES_DEPTH < g.NUM_FRAMES) (ops : List Op) : TreeInv g (run g d ops) := by
  induction ops using List.reverseRecOn with
  | nil => exact hinv
  | append_singleton ops op ih => rw [run_snoc]; exact applyOp_inv g _ ih hNF op

theorem run_vmem (g : Geometry) (d : Device) (hinv : TreeInv g d)
    (hNF : g.TABLES_DEPTH < g.NUM_FRAMES) (b : Nat) (hb : b < VIRTUAL_MEMORY_SIZE g)
    (ops : List Op) :
    vmem g (run g d ops) b = (lastWrite b ops).getD (vmem g d b) := by
  induction ops using List.reverseRecOn with
  | nil => rfl
  | append_singleton ops op ih =>
    rw [run_snoc, applyOp_vmem g _ (run_inv g d hinv hNF ops) hNF op b hb, lastWrite_snoc]
    cases op with
    | read a p => exact ih
    | write a w =>
      simp only
      split
      · rfl
      · exact ih

theorem Reachable.inv {g : Geometry} {d : Device} (h : Reachable g d)
    (hNF : g.TABLES_DEPTH < g.NUM_FRAMES) : TreeInv g d := by
  obtain ⟨d0, ops, rfl⟩ := h
  exact run_inv g _ (VMinitialize_inv g d0 (by omega)) hNF ops

theorem fault_not_resident (g : Geometry) (d : Device) (a level c : Nat)
    (hlevel : level < g.TABLES_DEPTH)
    (hc : Resident g d (((parseAddress g a).take g.TABLES_DEPTH).take level) c)
    (hz : d.ram (c * PAGE_SIZE g + (parseAddress g a).getD level 0) = 0) :
    walkFrom g d 0 ((parseAddress g a).take g.TABLES_DEPTH) = none := by
  have hpre : (((parseAddress g a).take g.TABLES_DEPTH).take level ++
      [(parseAddress g a).getD level 0]) <+: (parseAddress g a).take g.TABLES_DEPTH := by
    rw [← pagePath_take g a level hlevel]; exact List.take_prefix _ _
  obtain ⟨rest, hrest⟩ := hpre
  rw [← hrest, List.append_assoc, List.singleton_append]
  exact walk_none_of_null_entry g d _ c _ hc hz rest

/-! ## The first write after `VMinitialize` -/

/-- The state of the resolver during the first write: after `n` iterations the current
frame is `n`, the tree is the chain of the frames `0, ..., n` along the path of the address
and the frame `n` is filled with zeros. -/
theorem cold_chain (g : Geometry) (hNF : g.TABLES_DEPTH < g.NUM_FRAMES) (d0 : Device)
    (hswap : ∀ p, d0.swap p = none) (a : Nat) :
    ∀ n, n ≤ g.TABLES_DEPTH →
      (traverseUpTo g ( VMinitialize g d0) a n).1 = n ∧
      TreeInv g (traverseUpTo g ( VMinitialize g d0) a n).2 ∧
      (∀ p x, Resident g (traverseUpTo g ( VMinitialize g d0) a n).2 p x ↔
        ∃ j, j ≤ n ∧ p = (parseAddress g a).take j ∧ x = j) ∧
      (traverseUpTo g ( VMinitialize g d0) a n).2.swap = d0.swap ∧
      (∀ j, j < n → (traverseUpTo g ( VMinitialize g d0) a n).2.ram
        (j * PAGE_SIZE g + (parseAddress g a).getD j 0) = ((j + 1 : Nat) : Int)) ∧
      (∀ j o, j ≤ n → o < PAGE_SIZE g → (j = n ∨ o ≠ (parseAddress g a).getD j 0) →
        (traverseUpTo g ( VMinitialize g d0) a n).2.ram (j * PAGE_SIZE g + o) = 0) := by
  intro n
  induction n with
  | zero =>
    intro _
    refine ⟨rfl, VMinitialize_inv g d0 (by omega), ?_, ?_, ?_, ?_⟩
    · intro p x
      show Resident g ( VMinitialize g d0) p x ↔ _
      rw [VMinitialize_resident]
      constructor
      · rintro ⟨rfl, rfl⟩; exact ⟨0, le_rfl, rfl, rfl⟩
      · rintro ⟨j, hj, hp, hx⟩
        have : j = 0 := by omega
        subst this; exact ⟨by simpa using hp, hx⟩
    · show ( VMinitialize g d0).swap = _
      simp [ VMinitialize]
    · intro j hj; omega
    · intro j o hj ho _
      have : j = 0 := by omega
      subst this
      exact VMinitialize_root g d0 o ho
  | succ n ih =>
    intro hn
    obtain ⟨h1, hinv, hres, hsw, hent, hzero⟩ := ih (by omega)
    have hlevel : n < g.TABLES_DEPTH := by omega
    rw [traverseUpTo_succ]
    generalize hd : (traverseUpTo g ( VMinitialize g d0) a n).2 = d at *
    have hst : traverseUpTo g ( VMinitialize g d0) a n = (n, d) := Prod.ext h1 hd
    rw [hst]
    have hi := parseAddress_getD_lt g a n
    have htake : ∀ j, j ≤ g.TABLES_DEPTH →
        ((parseAddress g a).take g.TABLES_DEPTH).take j = (parseAddress g a).take j := by
      intro j hj'
      rw [List.take_take, Nat.min_eq_left hj']
    have hc : Resident g d (((parseAddress g a).take g.TABLES_DEPTH).take n) n := by
      rw [htake n (by omega)]
      exact (hres _ _).mpr ⟨n, le_rfl, rfl, rfl⟩
    have hlen : (((parseAddress g a).take g.TABLES_DEPTH).take n).length = n := by
      simp [parseAddress_length]; omega
    have hz : d.ram (n * PAGE_SIZE g + (parseAddress g a).getD n 0) = 0 :=
      hzero n _ le_rfl hi (Or.inl rfl)
    have hPn := fault_not_resident g d a n n hlevel hc hz
    -- the scan finds the frames `0, ..., n` and no empty table to reuse
    have hmaxiff := scan_max_iff g d hinv (pageFrom g 0 ((parseAddress g a).take g.TABLES_DEPTH)) n
    have hmax : (scanTree g d (pageFrom g 0 ((parseAddress g a).take g.TABLES_DEPTH)) n).maxUsedFrame
        = n := by
      have a1 : n ≤ _ := (hmaxiff n).mp ⟨_, (hres _ _).mpr ⟨n, le_rfl, rfl, rfl⟩⟩
      obtain ⟨p, hp⟩ := (hmaxiff _).mpr (le_refl
        (scanTree g d (pageFrom g 0 ((parseAddress g a).take g.TABLES_DEPTH)) n).maxUsedFrame)
      obtain ⟨j, hj, _, e⟩ := (hres _ _).mp hp
      omega
    have hnone : (scanTree g d (pageFrom g 0 ((parseAddress g a).take g.TABLES_DEPTH)) n).emptyTable
        = 0 := by
      by_contra hne
      obtain ⟨q, i, he, hl, _, hz', hna⟩ := scan_empty_some g d _ n hne
      obtain ⟨j, hj, hp, e⟩ := (hres _ _).mp he
      rw [e] at hz' hna
      have hjn : j < n := by omega
      have := hz' _ (parseAddress_getD_lt g a j)
      rw [hent j hjn] at this
      omega
    have hff := findFree_fresh g d _ n hnone (by rw [hmax]; omega)
    rw [hmax] at hff
    obtain ⟨k1, _, k3, _⟩ := fault_step g d hinv hNF _ n _ hc (by rw [hlen]; exact hlevel) hi hz
      _ (pagePath_valid g a) (pagePath_length g a)
      (by rw [← pagePath_take g a n hlevel]; exact List.take_prefix _ _) _ rfl
    rw [hff, hlen] at k1 k3
    simp only at k1 k3
    have hstep : traverseStep g (parseAddress g a) (pageNumberOf g (parseAddress g a)) (n, d) n =
        (n + 1, PMwrite (if n < g.TABLES_DEPTH - 1 then clearFrame g d (n + 1)
          else PMrestore g d (n + 1) (pageFrom g 0 ((parseAddress g a).take g.TABLES_DEPTH)))
          (n * PAGE_SIZE g + (parseAddress g a).getD n 0) ((n + 1 : Nat) : Int)) := by
      unfold traverseStep
      simp only [PMread_eq, hz, if_true]
      rw [pageNumberOf_eq, hff]
    rw [hstep]
    simp only
    have hram2 : ∀ x, (if n < g.TABLES_DEPTH - 1 then clearFrame g d (n + 1)
          else PMrestore g d (n + 1) (pageFrom g 0 ((parseAddress g a).take g.TABLES_DEPTH))).ram x
        = if x / PAGE_SIZE g = n + 1 then 0 else d.ram x := by
      intro x
      split
      · exact clearFrame_ram g d (n + 1) x
      · rw [PMrestore_ram, hsw, hswap]
        simp
    have hsucc : (parseAddress g a).take (n + 1) =
        ((parseAddress g a).take g.TABLES_DEPTH).take n ++ [(parseAddress g a).getD n 0] := by
      rw [htake n (by omega)]
      exact take_succ_getD _ _ (by rw [parseAddress_length]; omega)
    refine ⟨trivial, k1, ?_, ?_, ?_, ?_⟩
    · intro p x
      rw [k3, hres]
      constructor
      · rintro (⟨⟨j, hj, hp, hx⟩, _⟩ | ⟨hp, hx⟩)
        · exact ⟨j, by omega, hp, hx⟩
        · exact ⟨n + 1, le_rfl, by rw [hp, hsucc], hx⟩
      · rintro ⟨j, hj, hp, hx⟩
        by_cases hjn : j ≤ n
        · exact Or.inl ⟨⟨j, hjn, hp, hx⟩, by omega⟩
        · have : j = n + 1 := by omega
          subst this
          exact Or.inr ⟨by rw [hp, hsucc], hx⟩
    · rw [PMwrite_swap]
      split
      · rw [clearFrame_swap, hsw]
      · rw [PMrestore_swap, hsw]
    · intro j hj
      rw [PMwrite_ram]
      by_cases hjn : j = n
      · subst hjn; rw [if_pos rfl]
      · rw [if_neg (fun e => hjn (frame_addr_inj g (parseAddress_getD_lt g a j) hi e).1), hram2,
          if_neg (by rw [frame_addr_div g j _ (parseAddress_getD_lt g a j)]; omega)]
        exact hent j (by omega)
    · intro j o hj ho hcase
      rw [PMwrite_ram, if_neg, hram2]
      · by_cases hjn : j = n + 1
        · rw [if_pos (by rw [frame_addr_div g j o ho]; exact hjn)]
        · rw [if_neg (by rw [frame_addr_div g j o ho]; exact hjn)]
          apply hzero j o (by omega) ho
          rcases hcase with h | h
          · exact absurd h hjn
          · exact Or.inr h
      · intro e
        obtain ⟨e1, e2⟩ := frame_addr_inj g ho hi e
        subst e1
        rcases hcase with h | h
        · omega
        · exact h e2

/-! ## The page number of an address -/

theorem pageFrom_take (g : Geometry) (a : Nat) : ∀ n, n ≤ g.TABLES_DEPTH →
    pageFrom g 0 ((parseAddress g a).take n) =
      a / PAGE_SIZE g ^ (g.TABLES_DEPTH + 1 - n) % PAGE_SIZE g ^ n := by
  intro n
  induction n with
  | zero => intro _; simp [pageFrom, Nat.mod_one]
  | succ n ih =>
    intro hn
    rw [take_succ_getD _ _ (by rw [parseAddress_length]; omega),
      pageFrom_snoc g 0 _ _ (parseAddress_getD_lt g a n), ih (by omega),
      parseAddress_getD g a n (by omega)]
    have e1 : g.TABLES_DEPTH + 1 - n = (g.TABLES_DEPTH - n) + 1 := by omega
    have e2 : g.TABLES_DEPTH + 1 - (n + 1) = g.TABLES_DEPTH - n := by omega
    rw [e1, e2, pow_succ, ← Nat.div_div_eq_div_mul]
    generalize a / PAGE_SIZE g ^ (g.TABLES_DEPTH - n) = b
    rw [pow_succ, Nat.mul_comm (PAGE_SIZE g ^ n) (PAGE_SIZE g), Nat.mod_mul]
    ring

theorem pageNumberOf_shift (g : Geometry) (a : Nat) (ha : a < VIRTUAL_MEMORY_SIZE g) :
    pageNumberOf g (parseAddress g a) = a >>> g.OFFSET_WIDTH := by
  rw [pageNumberOf_eq, pageFrom_take g a _ le_rfl, Nat.shiftRight_eq_div_pow, ← PAGE_SIZE_eq]
  have e : g.TABLES_DEPTH + 1 - g.TABLES_DEPTH = 1 := by omega
  rw [e, pow_one]
  apply Nat.mod_eq_of_lt
  rw [Nat.div_lt_iff_lt_mul (PAGE_SIZE_pos g), ← pow_succ, ← VIRTUAL_MEMORY_SIZE_eq]
  exact ha

theorem pageNumberOf_lt (g : Geometry) (a : Nat) :
    pageNumberOf g (parseAddress g a) < NUM_PAGES g := by
  rw [pageNumberOf_eq]
  exact pageFrom_lt_NUM_PAGES g _ (pagePath_valid g a) (pagePath_length g a)

/-! ## Resolving a resident page -/

theorem traverseUpTo_hit (g : Geometry) (d : Device) (a : Nat) : ∀ n, n ≤ g.TABLES_DEPTH →
    ∀ f, walkFrom g d 0 ((parseAddress g a).take n) = some f → traverseUpTo g d a n = (f, d) := by
  intro n
  induction n with
  | zero =>
    intro _ f h
    simp only [List.take_zero, walkFrom, Option.some.injEq] at h
    subst h
    rfl
  | succ n ih =>
    intro hn f h
    rw [take_succ_getD _ _ (by rw [parseAddress_length]; omega)] at h
    obtain ⟨y, hy⟩ := walkFrom_prefix_some g d _ _ 0 f h
    rw [walkFrom_snoc g d _ _ 0 y hy] at h
    rw [traverseUpTo_succ, ih (by omega) y hy]
    unfold traverseStep
    simp only [PMread_eq]
    by_cases hz : d.ram (y * PAGE_SIZE g + (parseAddress g a).getD n 0) = 0
    · rw [if_pos hz] at h; cases h
    · rw [if_neg hz] at h
      rw [if_neg hz]
      simp only [Option.some.injEq] at h
      rw [h]

theorem traverseTree_hit (g : Geometry) (d : Device) (a f : Nat)
    (h : walkFrom g d 0 ((parseAddress g a).take g.TABLES_DEPTH) = some f) :
    traverseTree g d a = (f * PAGE_SIZE g + (parseAddress g a).getD g.TABLES_DEPTH 0, d) := by
  rw [traverseTree_eq, traverseUpTo_hit g d a _ le_rfl f h]

/-! ## Reuse of an empty table in an arbitrary state -/

theorem find_range_first (p : Nat → Bool) (i n : Nat) (hp : p i = true) (hi : i < n) :
    ∃ j, j ≤ i ∧ p j = true ∧ (List.range n).find? p = some j := by
  classical
  have hex : ∃ j, p j = true := ⟨i, hp⟩
  refine ⟨Nat.find hex, Nat.find_min' hex hp, Nat.find_spec hex, ?_⟩
  apply find_range p _ (Nat.find_spec hex)
  · intro j hj
    have := Nat.find_min hex hj
    simpa using this
  · exact lt_of_le_of_lt (Nat.find_min' hex hp) hi

/-- Priority 1 in any device state: when the scan recorded an empty table, the allocator
returns it and clears one entry of its recorded parent that pointed to it. -/
theorem findFree_reuse_any (g : Geometry) (d : Device) (t c : Nat)
    (h1 : (scanTree g d t c).emptyTable ≠ 0) :
    ∃ q i j, Resident g d (q ++ [i]) (scanTree g d t c).emptyTable ∧
      (q ++ [i]).length < g.TABLES_DEPTH ∧
      Resident g d q (scanTree g d t c).emptyTableParent ∧
      (∀ o, o < PAGE_SIZE g → d.ram ((scanTree g d t c).emptyTable * PAGE_SIZE g + o) = 0) ∧
      (scanTree g d t c).emptyTable ≠ c ∧ j < PAGE_SIZE g ∧
      d.ram ((scanTree g d t c).emptyTableParent * PAGE_SIZE g + j) =
        ((scanTree g d t c).emptyTable : Int) ∧
      findFreeOrEvictFrame g d t c =
        ((scanTree g d t c).emptyTable,
          PMwrite d ((scanTree g d t c).emptyTableParent * PAGE_SIZE g + j) 0) := by
  obtain ⟨q, i, he, hl, hq, hz, hne⟩ := scan_empty_some g d t c h1
  obtain ⟨x, hx, hx0, hxe, hi, hlq⟩ := he.snoc_inv
  have hxp : x = (scanTree g d t c).emptyTableParent := hx.unique hq
  have hent : d.ram ((scanTree g d t c).emptyTableParent * PAGE_SIZE g + i) =
      ((scanTree g d t c).emptyTable : Int) := by
    rw [← hxp]
    omega
  obtain ⟨j, hji, hpj, hfind⟩ := find_range_first
    (fun offset => decide (PMread d ((scanTree g d t c).emptyTableParent * PAGE_SIZE g + offset)
      = ((scanTree g d t c).emptyTable : Int))) i (PAGE_SIZE g)
    (by simpa [PMread_eq] using hent) hi
  refine ⟨q, i, j, he, hl, hq, hz, hne, by omega, by simpa [PMread_eq] using hpj, ?_⟩
  unfold findFreeOrEvictFrame
  simp only [h1, ne_eq, not_false_eq_true, if_true]
  unfold unlinkFromParent
  rw [hfind]

theorem scan_empty_first (g : Geometry) (d : Device) (t c : Nat)
    (h1 : (scanTree g d t c).emptyTable ≠ 0) :
    ∃ l1 l2, visits g d g.TABLES_DEPTH 0 0 0 0 =
        l1 ++ Visit.table (scanTree g d t c).emptyTable (scanTree g d t c).emptyTableParent true
          :: l2 ∧
      ∀ f par, Visit.table f par true ∈ l1 → f = 0 ∨ f = c := by
  rw [scanTree_eq] at h1 ⊢
  rcases fold_empty g t c (visits g d g.TABLES_DEPTH 0 0 0 0) FrameSearchResult.zero rfl with
    ⟨h0, _⟩ | ⟨l1, l2, he, _, _, hall⟩
  · exact absurd h0 h1
  · exact ⟨l1, l2, he, hall⟩

/-- The state of the resolver of a reachable device satisfies the tree invariant and the
current frame is the frame of the path walked so far. -/
theorem resolver_state (g : Geometry) (hNF : g.TABLES_DEPTH < g.NUM_FRAMES)
    (d : Device) (hd : Reachable g d) (a level : Nat) (hlevel : level ≤ g.TABLES_DEPTH) :
    TreeInv g (traverseUpTo g d a level).2 ∧
    Resident g (traverseUpTo g d a level).2 (((parseAddress g a).take g.TABLES_DEPTH).take level)
      (traverseUpTo g d a level).1 ∧
    (((parseAddress g a).take g.TABLES_DEPTH).take level).length = level := by
  obtain ⟨hinv, hc, _⟩ := traverseUpTo_spec g d (hd.inv hNF) hNF a level hlevel
  refine ⟨hinv, hc, ?_⟩
  simp [parseAddress_length]; omega

/-- An entry of a table of the tree that holds a non-zero frame makes that frame resident. -/
theorem Resident.of_entry {g : Geometry} {d : Device} {q : List Nat} {x o e : Nat}
    (hq : Resident g d q x) (hl : q.length < g.TABLES_DEPTH) (ho : o < PAGE_SIZE g)
    (hent : d.ram (x * PAGE_SIZE g + o) = (e : Int)) (he : e ≠ 0) :
    Resident g d (q ++ [o]) e := by
  have hne : d.ram (x * PAGE_SIZE g + o) ≠ 0 := by
    rw [hent]; exact_mod_cast he
  have h := hq.snoc hl ho hne
  rwa [hent, Int.toNat_ofNat] at h

/-- Under the tree invariant a frame other than the root is the value of one entry only. -/
theorem entry_unique (g : Geometry) (d : Device) (hinv : TreeInv g d)
    (q : List Nat) (par j e : Nat) (he : e ≠ 0)
    (hq : Resident g d q par) (hlq : q.length < g.TABLES_DEPTH) (hj : j < PAGE_SIZE g)
    (hent : d.ram (par * PAGE_SIZE g + j) = (e : Int))
    (q1 : List Nat) (x1 o1 : Nat) (hq1 : Resident g d q1 x1) (hl1 : q1.length < g.TABLES_DEPTH)
    (ho1 : o1 < PAGE_SIZE g) (hent1 : d.ram (x1 * PAGE_SIZE g + o1) = (e : Int)) :
    x1 = par ∧ o1 = j := by
  have hr1 := Resident.of_entry hq1 hl1 ho1 hent1 he
  have hr2 := Resident.of_entry hq hlq hj hent he
  have e0 := hinv.inj _ _ _ hr1 hr2
  obtain ⟨e1, e2⟩ := List.append_inj' e0 rfl
  have e3 : o1 = j := by simpa using e2
  subst e1
  exact ⟨hq1.unique hq, e3⟩

/-- Under the tree invariant the root is nobody's child. -/
theorem root_not_child (g : Geometry) (d : Device) (hinv : TreeInv g d) (q : List Nat) (o : Nat)
    (h : Resident g d (q ++ [o]) 0) : False := by
  have := hinv.inj _ _ _ h (Resident.root g d)
  simp at this

theorem lastWrite_none (a : Nat) (ops : List Op) (h : ∀ w, Op.write a w ∉ ops) :
    lastWrite a ops = none := by
  induction ops using List.reverseRecOn with
  | nil => rfl
  | append_singleton ops op ih =>
    rw [lastWrite_snoc]
    have ih' := ih (fun w hw => h w (List.mem_append_left _ hw))
    cases op with
    | read b p => exact ih'
    | write b w =>
      have hb : b ≠ a := by
        intro e
        exact h w (by rw [e]; simp)
      simp only [if_neg hb]
      exact ih'

/-- Right after `VMinitialize` with an empty backing store every word of virtual memory
is 0. -/
theorem vmem_init (g : Geometry) (d0 : Device) (hswap : ∀ p, d0.swap p = none) (a : Nat) :
    vmem g ( VMinitialize g d0) a = 0 := by
  rw [vmem_eq]
  unfold content
  cases hw : walkFrom g ( VMinitialize g d0) 0 ((parseAddress g a).take g.TABLES_DEPTH) with
  | none =>
    have : ( VMinitialize g d0).swap = d0.swap := by simp [ VMinitialize]
    simp [this, hswap]
  | some f =>
    have hres : Resident g ( VMinitialize g d0) ((parseAddress g a).take g.TABLES_DEPTH) f :=
      ⟨pagePath_valid g a, hw⟩
    obtain ⟨_, hf⟩ := (VMinitialize_resident g d0 _ f).mp hres
    simp only [hf]
    exact VMinitialize_root g d0 _ (parseAddress_getD_lt g a _)

/-- The word a read delivers after a sequence of calls from `VMinitialize` with an empty
backing store is the last value written to the address, and 0 when there is none. -/
theorem read_after_run (g : Geometry) (hNF : g.TABLES_DEPTH < g.NUM_FRAMES) (d0 : Device)
    (hswap : ∀ p, d0.swap p = none) (ops : List Op) (b : Nat) (hb : b < VIRTUAL_MEMORY_SIZE g) :
    (VMread g (run g ( VMinitialize g d0) ops) b true).ret = 1 ∧
    (VMread g (run g ( VMinitialize g d0) ops) b true).stored =
      some ((lastWrite b ops).getD 0) := by
  have hinit := VMinitialize_inv g d0 (by omega : 0 < g.NUM_FRAMES)
  have hrun := run_inv g _ hinit hNF ops
  obtain ⟨k1, k2, _, _⟩ := VMread_spec g _ hrun hNF b hb
  refine ⟨k1, ?_⟩
  rw [k2, run_vmem g _ hinit hNF b hb ops, vmem_init g d0 hswap]

theorem VMread_rejected (g : Geometry) (d : Device) (b : Nat) (ptr : Bool)
    (h : ¬ (b < VIRTUAL_MEMORY_SIZE g ∧ ptr = true)) :
    VMread g d b ptr = ⟨0, none, d⟩ := by
  unfold VMread
  rw [if_pos]
  by_cases hb : b < VIRTUAL_MEMORY_SIZE g
  · right
    cases ptr with
    | false => rfl
    | true => exact absurd ⟨hb, rfl⟩ h
  · left; omega

/-! ## The second variant computes what the first computes -/

theorem shift_add_eq_or (g : Geometry) (x i : Nat) (hi : i < PAGE_SIZE g) :
    (x <<< g.OFFSET_WIDTH) + i = (x <<< g.OFFSET_WIDTH) ||| i := by
  rw [PAGE_SIZE_eq] at hi
  rw [Nat.shiftLeft_eq, Nat.mul_comm]
  exact Nat.mul_add_lt_is_or hi x

theorem dfsSearch_keep (g : Geometry) (d : Device) (below f t a par off pn : Nat)
    (r : FrameSearchResult) (h : r.emptyTable ≠ 0) :
    (dfsSearch g d below f t a par off pn r).emptyTable = r.emptyTable ∧
    (dfsSearch g d below f t a par off pn r).emptyTableParent = r.emptyTableParent := by
  rw [dfsSearch_eq_foldl]
  exact fold_empty_keep g t a _ r h

theorem yaara.Agrees.note {g : Geometry} {r : FrameSearchResult} {v : yaara.frameSearchingVariables}
    (h : yaara.Agrees g r v) (f : Nat) :
    yaara.Agrees g (noteFrame f r)
      (if f > v.maxUsedFrame then { v with maxUsedFrame := f } else v) := by
  obtain ⟨h1, h2, h3, h4, h5, h6⟩ := h
  unfold noteFrame
  rw [h3]
  by_cases hf : f > r.maxUsedFrame
  · simp only [hf, if_true]
    exact ⟨h1, h2, rfl, h4, h5, h6⟩
  · simp only [hf, if_false]
    exact ⟨h1, h2, h3, h4, h5, h6⟩

/-- The leaf case: both variants update their records alike, up to the reference address,
which the second variant leaves to the caller. -/
theorem findFrame_leaf (g : Geometry) (d : Device) (page avoid frame pf po ipv : Nat)
    (res : FrameSearchResult) (vars : yaara.frameSearchingVariables)
    (h : yaara.Agrees g res vars) :
    (yaara.findFrame g 0 frame avoid page ipv (vars, d)).2.2 = d ∧
    (((yaara.findFrame g 0 frame avoid page ipv (vars, d)).1 =
        yaara.FindFrameReturnVal.CONTINUE ∧
      yaara.Agrees g (dfsSearch g d 0 frame page avoid pf po ipv res)
        (yaara.findFrame g 0 frame avoid page ipv (vars, d)).2.1) ∨
    ((yaara.findFrame g 0 frame avoid page ipv (vars, d)).1 =
        yaara.FindFrameReturnVal.BIGGER_DISTANCE ∧
      yaara.Agrees g (dfsSearch g d 0 frame page avoid pf po ipv res)
        { (yaara.findFrame g 0 frame avoid page ipv (vars, d)).2.1 with
          furthestAwayReferenceAddress := pf * PAGE_SIZE g + po })) := by
  have hn := h.note frame
  obtain ⟨h1, h2, h3, h4, h5, h6⟩ := hn
  refine ⟨rfl, ?_⟩
  simp only [yaara.findFrame, dfsSearch, yaara.checkLeaf, noteLeaf]
  have hdist : (if (if page > ipv then page - ipv else ipv - page) <
        (NUM_PAGES g + 2 ^ 64 - (if page > ipv then page - ipv else ipv - page) % 2 ^ 64) % 2 ^ 64
      then (if page > ipv then page - ipv else ipv - page)
      else (NUM_PAGES g + 2 ^ 64 - (if page > ipv then page - ipv else ipv - page) % 2 ^ 64) % 2 ^ 64)
      = computeCyclicDistance g page ipv := rfl
  rw [hdist, h4]
  by_cases hd : computeCyclicDistance g page ipv > (noteFrame frame res).bestDistance
  · right
    simp only [hd, if_true]
    exact ⟨trivial, h1, h2, h3, rfl, rfl, rfl⟩
  · left
    simp only [hd, if_false]
    exact ⟨trivial, h1, h2, h3, h4, h5, h6⟩

theorem findFrame_loop (g : Geometry) (d : Device) (page avoid below frame ipv : Nat)
    (ih : ∀ (c pf po cpn : Nat) (res : FrameSearchResult) (vars : yaara.frameSearchingVariables),
      yaara.Agrees g res vars →
      yaara.ScanOutcome g d avoid below c pf po (dfsSearch g d below c page avoid pf po cpn res)
        (yaara.findFrame g below c avoid page cpn (vars, d)))
    (res0 : FrameSearchResult) (vars0 : yaara.frameSearchingVariables) (h : yaara.Agrees g res0 vars0) :
    ∀ n, n ≤ PAGE_SIZE g →
      yaara.LoopOutcome g d avoid below frame n
        ((List.range n).foldl
          (fun (acc : Bool × FrameSearchResult) offset =>
            if PMread d (frame * PAGE_SIZE g + offset) ≠ 0 then
              (false, dfsSearch g d below (PMread d (frame * PAGE_SIZE g + offset)).toNat
                page avoid frame offset ((ipv <<< g.OFFSET_WIDTH) ||| offset) acc.2)
            else acc)
          (true, res0))
        ((List.range n).foldl
          (fun (acc : Option yaara.FindFrameReturnVal × Bool × yaara.frameSearchingVariables × Device) i =>
            match acc.1 with
            | some _ => acc
            | none =>
              if PMread acc.2.2.2 (frame * PAGE_SIZE g + i) ≠ 0 then
                match (yaara.findFrame g below (PMread acc.2.2.2 (frame * PAGE_SIZE g + i)).toNat
                    avoid page ((ipv <<< g.OFFSET_WIDTH) + i) (acc.2.2.1, acc.2.2.2)).1 with
                | yaara.FindFrameReturnVal.BREAK =>
                  (some yaara.FindFrameReturnVal.BREAK, false,
                    (yaara.findFrame g below (PMread acc.2.2.2 (frame * PAGE_SIZE g + i)).toNat
                      avoid page ((ipv <<< g.OFFSET_WIDTH) + i) (acc.2.2.1, acc.2.2.2)).2.1,
                    (yaara.findFrame g below (PMread acc.2.2.2 (frame * PAGE_SIZE g + i)).toNat
                      avoid page ((ipv <<< g.OFFSET_WIDTH) + i) (acc.2.2.1, acc.2.2.2)).2.2)
                | yaara.FindFrameReturnVal.EMPTY_PAGE_TABLE =>
                  (some yaara.FindFrameReturnVal.BREAK, false,
                    (yaara.findFrame g below (PMread acc.2.2.2 (frame * PAGE_SIZE g + i)).toNat
                      avoid page ((ipv <<< g.OFFSET_WIDTH) + i) (acc.2.2.1, acc.2.2.2)).2.1,
                    PMwrite (yaara.findFrame g below (PMread acc.2.2.2 (frame * PAGE_SIZE g + i)).toNat
                      avoid page ((ipv <<< g.OFFSET_WIDTH) + i) (acc.2.2.1, acc.2.2.2)).2.2
                      (frame * PAGE_SIZE g + i) 0)
                | yaara.FindFrameReturnVal.BIGGER_DISTANCE =>
                  (none, false,
                    { (yaara.findFrame g below (PMread acc.2.2.2 (frame * PAGE_SIZE g + i)).toNat
                        avoid page ((ipv <<< g.OFFSET_WIDTH) + i) (acc.2.2.1, acc.2.2.2)).2.1 with
                      furthestAwayReferenceAddress := frame * PAGE_SIZE g + i },
                    (yaara.findFrame g below (PMread acc.2.2.2 (frame * PAGE_SIZE g + i)).toNat
                      avoid page ((ipv <<< g.OFFSET_WIDTH) + i) (acc.2.2.1, acc.2.2.2)).2.2)
                | yaara.FindFrameReturnVal.CONTINUE =>
                  (none, false,
                    (yaara.findFrame g below (PMread acc.2.2.2 (frame * PAGE_SIZE g + i)).toNat
                      avoid page ((ipv <<< g.OFFSET_WIDTH) + i) (acc.2.2.1, acc.2.2.2)).2.1,
                    (yaara.findFrame g below (PMread acc.2.2.2 (frame * PAGE_SIZE g + i)).toNat
                      avoid page ((ipv <<< g.OFFSET_WIDTH) + i) (acc.2.2.1, acc.2.2.2)).2.2)
              else acc)
          (none, true, vars0, d)) := by
  intro n
  induction n with
  | zero =>
    intro _
    left
    refine ⟨rfl, rfl, rfl, ?_, h, ?_⟩
    · simp
    · intro j hj; omega
  | succ n ihn =>
    intro hn
    have hprev := ihn (by omega)
    rw [List.range_succ, List.foldl_append, List.foldl_append, List.foldl_cons, List.foldl_nil,
      List.foldl_cons, List.foldl_nil]
    generalize (List.range n).foldl
      (fun (acc : Bool × FrameSearchResult) offset =>
        if PMread d (frame * PAGE_SIZE g + offset) ≠ 0 then
          (false, dfsSearch g d below (PMread d (frame * PAGE_SIZE g + offset)).toNat
            page avoid frame offset ((ipv <<< g.OFFSET_WIDTH) ||| offset) acc.2)
        else acc)
      (true, res0) = M at hprev ⊢
    generalize (List.range n).foldl
          (fun (acc : Option yaara.FindFrameReturnVal × Bool × yaara.frameSearchingVariables × Device) i =>
            match acc.1 with
            | some _ => acc
            | none =>
              if PMread acc.2.2.2 (frame * PAGE_SIZE g + i) ≠ 0 then
                match (yaara.findFrame g below (PMread acc.2.2.2 (frame * PAGE_SIZE g + i)).toNat
                    avoid page ((ipv <<< g.OFFSET_WIDTH) + i) (acc.2.2.1, acc.2.2.2)).1 with
                | yaara.FindFrameReturnVal.BREAK =>
                  (some yaara.FindFrameReturnVal.BREAK, false,
                    (yaara.findFrame g below (PMread acc.2.2.2 (frame * PAGE_SIZE g + i)).toNat
                      avoid page ((ipv <<< g.OFFSET_WIDTH) + i) (acc.2.2.1, acc.2.2.2)).2.1,
                    (yaara.findFrame g below (PMread acc.2.2.2 (frame * PAGE_SIZE g + i)).toNat
                      avoid page ((ipv <<< g.OFFSET_WIDTH) + i) (acc.2.2.1, acc.2.2.2)).2.2)
                | yaara.FindFrameReturnVal.EMPTY_PAGE_TABLE =>
                  (some yaara.FindFrameReturnVal.BREAK, false,
                    (yaara.findFrame g below (PMread acc.2.2.2 (frame * PAGE_SIZE g + i)).toNat
                      avoid page ((ipv <<< g.OFFSET_WIDTH) + i) (acc.2.2.1, acc.2.2.2)).2.1,
                    PMwrite (yaara.findFrame g below (PMread acc.2.2.2 (frame * PAGE_SIZE g + i)).toNat
                      avoid page ((ipv <<< g.OFFSET_WIDTH) + i) (acc.2.2.1, acc.2.2.2)).2.2
                      (frame * PAGE_SIZE g + i) 0)
                | yaara.FindFrameReturnVal.BIGGER_DISTANCE =>
                  (none, false,
                    { (yaara.findFrame g below (PMread acc.2.2.2 (frame * PAGE_SIZE g + i)).toNat
                        avoid page ((ipv <<< g.OFFSET_WIDTH) + i) (acc.2.2.1, acc.2.2.2)).2.1 with
                      furthestAwayReferenceAddress := frame * PAGE_SIZE g + i },
                    (yaara.findFrame g below (PMread acc.2.2.2 (frame * PAGE_SIZE g + i)).toNat
                      avoid page ((ipv <<< g.OFFSET_WIDTH) + i) (acc.2.2.1, acc.2.2.2)).2.2)
                | yaara.FindFrameReturnVal.CONTINUE =>
                  (none, false,
                    (yaara.findFrame g below (PMread acc.2.2.2 (frame * PAGE_SIZE g + i)).toNat
                      avoid page ((ipv <<< g.OFFSET_WIDTH) + i) (acc.2.2.1, acc.2.2.2)).2.1,
                    (yaara.findFrame g below (PMread acc.2.2.2 (frame * PAGE_SIZE g + i)).toNat
                      avoid page ((ipv <<< g.OFFSET_WIDTH) + i) (acc.2.2.1, acc.2.2.2)).2.2)
              else acc)
          (none, true, vars0, d) = Y at hprev ⊢
    obtain ⟨yr, ye, yv, yd⟩ := Y
    obtain ⟨mb, mr⟩ := M
    rcases hprev with ⟨hy1, hyd, hye, hall, hag, hacc⟩ | ⟨hy1, hne, hidx, hdev⟩
    · simp only at hy1 hyd hye hall hag hacc
      have hyd' := hyd.symm
      subst hy1 hyd' hye
      simp only [PMread_eq]
      by_cases hz : d.ram (frame * PAGE_SIZE g + n) = 0
      · simp only [hz, ne_eq, not_true_eq_false, if_false]
        left
        refine ⟨rfl, rfl, rfl, ?_, hag, ?_⟩
        · rw [hall]
          constructor
          · intro hj j hjn
            by_cases e : j = n
            · rw [e]; exact hz
            · exact hj j (by omega)
          · intro hj j hjn
            exact hj j (by omega)
        · intro j hjn hjne
          by_cases e : j = n
          · rw [e] at hjne; exact absurd hz hjne
          · exact hacc j (by omega) hjne
      · simp only [hz, ne_eq, not_false_eq_true, if_true]
        have hsh := shift_add_eq_or g ipv n (by omega)
        rw [hsh]
        have hih := ih (d.ram (frame * PAGE_SIZE g + n)).toNat frame n
          ((ipv <<< g.OFFSET_WIDTH) ||| n) mr yv hag
        generalize yaara.findFrame g below (d.ram (frame * PAGE_SIZE g + n)).toNat avoid page
          ((ipv <<< g.OFFSET_WIDTH) ||| n) (yv, d) = F at hih ⊢
        generalize dfsSearch g d below (d.ram (frame * PAGE_SIZE g + n)).toNat page avoid frame n
          ((ipv <<< g.OFFSET_WIDTH) ||| n) mr = R at hih ⊢
        obtain ⟨f1, f2, f3⟩ := F
        have hfalse : ¬ ((false = true) ↔ ∀ j, j < n + 1 → d.ram (frame * PAGE_SIZE g + j) = 0) → False := by
          intro hh
          apply hh
          constructor
          · intro e; cases e
          · intro hj; exact absurd (hj n (by omega)) hz
        have hiff : (false = true) ↔ ∀ j, j < n + 1 → d.ram (frame * PAGE_SIZE g + j) = 0 := by
          constructor
          · intro e; cases e
          · intro hj; exact absurd (hj n (by omega)) hz
        rcases hih with ⟨e1, e2, e3, e4⟩ | ⟨e1, e2, e3, e4⟩ | ⟨e1, e2, e3, e4, e5, e6⟩ |
            ⟨e1, e2, e3, e4⟩
        · simp only at e1 e2 e3 e4
          have e2' := e2.symm
          subst e1 e2'
          left
          refine ⟨rfl, rfl, rfl, hiff, e3, ?_⟩
          intro j hjn hjne
          by_cases e : j = n
          · rw [e]; exact e4
          · exact hacc j (by omega) hjne
        · simp only at e1 e2 e3 e4
          have e2' := e2.symm
          subst e1 e2'
          left
          refine ⟨rfl, rfl, rfl, hiff, e3, ?_⟩
          intro j hjn hjne
          by_cases e : j = n
          · rw [e, e4]; intro hr; exact absurd hr.1 (by omega)
          · exact hacc j (by omega) hjne
        · simp only at e1 e2 e3 e4 e5 e6
          have e2' := e2.symm
          subst e1 e2'
          right
          have hcne : (d.ram (frame * PAGE_SIZE g + n)).toNat ≠ 0 := e3.2.2.2
          have hent : d.ram (frame * PAGE_SIZE g + n) =
              (((d.ram (frame * PAGE_SIZE g + n)).toNat : Nat) : Int) := by
            have : 0 ≤ d.ram (frame * PAGE_SIZE g + n) := by
              by_contra hneg
              exact hcne (Int.toNat_eq_zero.mpr (by omega))
            exact (Int.toNat_of_nonneg this).symm
          refine ⟨rfl, ?_, ?_, ?_⟩
          · show R.emptyTable ≠ 0
            rw [e4]; exact hcne
          · show f2.emptyTableIndex = R.emptyTable
            rw [e4, e6]
          · show PMwrite d (frame * PAGE_SIZE g + n) 0 =
              unlinkFromParent g d R.emptyTableParent R.emptyTable
            rw [e4, e5]
            symm
            apply unlinkFromParent_eq g d frame _ n (by omega) hent
            intro j hj hje
            have hjne : d.ram (frame * PAGE_SIZE g + j) ≠ 0 := by
              rw [hje]; exact_mod_cast hcne
            have := hacc j hj hjne
            rw [hje, Int.toNat_ofNat] at this
            exact this e3
        · simp only at e1 e2 e3 e4
          subst e1
          right
          exact ⟨rfl, e2, e3, e4⟩
    · simp only at hy1 hne hidx hdev
      subst hy1
      right
      simp only
      by_cases hz : PMread d (frame * PAGE_SIZE g + n) = 0
      · simp only [hz, ne_eq, not_true_eq_false, if_false]
        exact ⟨trivial, hne, hidx, hdev⟩
      · simp only [hz, ne_eq, not_false_eq_true, if_true]
        obtain ⟨k1, k2⟩ := dfsSearch_keep g d below (PMread d (frame * PAGE_SIZE g + n)).toNat
          page avoid frame n ((ipv <<< g.OFFSET_WIDTH) ||| n) mr hne
        refine ⟨trivial, ?_, ?_, ?_⟩
        · rw [k1]; exact hne
        · rw [k1]; exact hidx
        · rw [k1, k2]; exact hdev

theorem findFrame_succ (g : Geometry) (d : Device) (page avoid below frame ipv : Nat)
    (vars0 : yaara.frameSearchingVariables) (vars : yaara.frameSearchingVariables)
    (hv : vars0 = if frame > vars.maxUsedFrame then { vars with maxUsedFrame := frame } else vars) :
    yaara.findFrame g (below + 1) frame avoid page ipv (vars, d) =
      match ((List.range (PAGE_SIZE g)).foldl
          (fun (acc : Option yaara.FindFrameReturnVal × Bool × yaara.frameSearchingVariables × Device) i =>
            match acc.1 with
            | some _ => acc
            | none =>
              if PMread acc.2.2.2 (frame * PAGE_SIZE g + i) ≠ 0 then
                match (yaara.findFrame g below (PMread acc.2.2.2 (frame * PAGE_SIZE g + i)).toNat
                    avoid page ((ipv <<< g.OFFSET_WIDTH) + i) (acc.2.2.1, acc.2.2.2)).1 with
                | yaara.FindFrameReturnVal.BREAK =>
                  (some yaara.FindFrameReturnVal.BREAK, false,
                    (yaara.findFrame g below (PMread acc.2.2.2 (frame * PAGE_SIZE g + i)).toNat
                      avoid page ((ipv <<< g.OFFSET_WIDTH) + i) (acc.2.2.1, acc.2.2.2)).2.1,
                    (yaara.findFrame g below (PMread acc.2.2.2 (frame * PAGE_SIZE g + i)).toNat
                      avoid page ((ipv <<< g.OFFSET_WIDTH) + i) (acc.2.2.1, acc.2.2.2)).2.2)
                | yaara.FindFrameReturnVal.EMPTY_PAGE_TABLE =>
                  (some yaara.FindFrameReturnVal.BREAK, false,
                    (yaara.findFrame g below (PMread acc.2.2.2 (frame * PAGE_SIZE g + i)).toNat
                      avoid page ((ipv <<< g.OFFSET_WIDTH) + i) (acc.2.2.1, acc.2.2.2)).2.1,
                    PMwrite (yaara.findFrame g below (PMread acc.2.2.2 (frame * PAGE_SIZE g + i)).toNat
                      avoid page ((ipv <<< g.OFFSET_WIDTH) + i) (acc.2.2.1, acc.2.2.2)).2.2
                      (frame * PAGE_SIZE g + i) 0)
                | yaara.FindFrameReturnVal.BIGGER_DISTANCE =>
                  (none, false,
                    { (yaara.findFrame g below (PMread acc.2.2.2 (frame * PAGE_SIZE g + i)).toNat
                        avoid page ((ipv <<< g.OFFSET_WIDTH) + i) (acc.2.2.1, acc.2.2.2)).2.1 with
                      furthestAwayReferenceAddress := frame * PAGE_SIZE g + i },
                    (yaara.findFrame g below (PMread acc.2.2.2 (frame * PAGE_SIZE g + i)).toNat
                      avoid page ((ipv <<< g.OFFSET_WIDTH) + i) (acc.2.2.1, acc.2.2.2)).2.2)
                | yaara.FindFrameReturnVal.CONTINUE =>
                  (none, false,
                    (yaara.findFrame g below (PMread acc.2.2.2 (frame * PAGE_SIZE g + i)).toNat
                      avoid page ((ipv <<< g.OFFSET_WIDTH) + i) (acc.2.2.1, acc.2.2.2)).2.1,
                    (yaara.findFrame g below (PMread acc.2.2.2 (frame * PAGE_SIZE g + i)).toNat
                      avoid page ((ipv <<< g.OFFSET_WIDTH) + i) (acc.2.2.1, acc.2.2.2)).2.2)
              else acc)
          (none, true, vars0, d)).1 with
      | some returnVal =>
        (returnVal,
          ((List.range (PAGE_SIZE g)).foldl
          (fun (acc : Option yaara.FindFrameReturnVal × Bool × yaara.frameSearchingVariables × Device) i =>
            match acc.1 with
            | some _ => acc
            | none =>
              if PMread acc.2.2.2 (frame * PAGE_SIZE g + i) ≠ 0 then
                match (yaara.findFrame g below (PMread acc.2.2.2 (frame * PAGE_SIZE g + i)).toNat
                    avoid page ((ipv <<< g.OFFSET_WIDTH) + i) (acc.2.2.1, acc.2.2.2)).1 with
                | yaara.FindFrameReturnVal.BREAK =>
                  (some yaara.FindFrameReturnVal.BREAK, false,
                    (yaara.findFrame g below (PMread acc.2.2.2 (frame * PAGE_SIZE g + i)).toNat
                      avoid page ((ipv <<< g.OFFSET_WIDTH) + i) (acc.2.2.1, acc.2.2.2)).2.1,
                    (yaara.findFrame g below (PMread acc.2.2.2 (frame * PAGE_SIZE g + i)).toNat
                      avoid page ((ipv <<< g.OFFSET_WIDTH) + i) (acc.2.2.1, acc.2.2.2)).2.2)
                | yaara.FindFrameReturnVal.EMPTY_PAGE_TABLE =>
                  (some yaara.FindFrameReturnVal.BREAK, false,
                    (yaara.findFrame g below (PMread acc.2.2.2 (frame * PAGE_SIZE g + i)).toNat
                      avoid page ((ipv <<< g.OFFSET_WIDTH) + i) (acc.2.2.1, acc.2.2.2)).2.1,
                    PMwrite (yaara.findFrame g below (PMread acc.2.2.2 (frame * PAGE_SIZE g + i)).toNat
                      avoid page ((ipv <<< g.OFFSET_WIDTH) + i) (acc.2.2.1, acc.2.2.2)).2.2
                      (frame * PAGE_SIZE g + i) 0)
                | yaara.FindFrameReturnVal.BIGGER_DISTANCE =>
                  (none, false,
                    { (yaara.findFrame g below (PMread acc.2.2.2 (frame * PAGE_SIZE g + i)).toNat
                        avoid page ((ipv <<< g.OFFSET_WIDTH) + i) (acc.2.2.1, acc.2.2.2)).2.1 with
                      furthestAwayReferenceAddress := frame * PAGE_SIZE g + i },
                    (yaara.findFrame g below (PMread acc.2.2.2 (frame * PAGE_SIZE g + i)).toNat
                      avoid page ((ipv <<< g.OFFSET_WIDTH) + i) (acc.2.2.1, acc.2.2.2)).2.2)
                | yaara.FindFrameReturnVal.CONTINUE =>
                  (none, false,
                    (yaara.findFrame g below (PMread acc.2.2.2 (frame * PAGE_SIZE g + i)).toNat
                      avoid page ((ipv <<< g.OFFSET_WIDTH) + i) (acc.2.2.1, acc.2.2.2)).2.1,
                    (yaara.findFrame g below (PMread acc.2.2.2 (frame * PAGE_SIZE g + i)).toNat
                      avoid page ((ipv <<< g.OFFSET_WIDTH) + i) (acc.2.2.1, acc.2.2.2)).2.2)
              else acc)
          (none, true, vars0, d)).2.2.1,
          ((List.range (PAGE_SIZE g)).foldl
          (fun (acc : Option yaara.FindFrameReturnVal × Bool × yaara.frameSearchingVariables × Device) i =>
            match acc.1 with
            | some _ => acc
            | none =>
              if PMread acc.2.2.2 (frame * PAGE_SIZE g + i) ≠ 0 then
                match (yaara.findFrame g below (PMread acc.2.2.2 (frame * PAGE_SIZE g + i)).toNat
                    avoid page ((ipv <<< g.OFFSET_WIDTH) + i) (acc.2.2.1, acc.2.2.2)).1 with
                | yaara.FindFrameReturnVal.BREAK =>
                  (some yaara.FindFrameReturnVal.BREAK, false,
                    (yaara.findFrame g below (PMread acc.2.2.2 (frame * PAGE_SIZE g + i)).toNat
                      avoid page ((ipv <<< g.OFFSET_WIDTH) + i) (acc.2.2.1, acc.2.2.2)).2.1,
                    (yaara.findFrame g below (PMread acc.2.2.2 (frame * PAGE_SIZE g + i)).toNat
                      avoid page ((ipv <<< g.OFFSET_WIDTH) + i) (acc.2.2.1, acc.2.2.2)).2.2)
                | yaara.FindFrameReturnVal.EMPTY_PAGE_TABLE =>
                  (some yaara.FindFrameReturnVal.BREAK, false,
                    (yaara.findFrame g below (PMread acc.2.2.2 (frame * PAGE_SIZE g + i)).toNat
                      avoid page ((ipv <<< g.OFFSET_WIDTH) + i) (acc.2.2.1, acc.2.2.2)).2.1,
                    PMwrite (yaara.findFrame g below (PMread acc.2.2.2 (frame * PAGE_SIZE g + i)).toNat
                      avoid page ((ipv <<< g.OFFSET_WIDTH) + i) (acc.2.2.1, acc.2.2.2)).2.2
                      (frame * PAGE_SIZE g + i) 0)
                | yaara.FindFrameReturnVal.BIGGER_DISTANCE =>
                  (none, false,
                    { (yaara.findFrame g below (PMread acc.2.2.2 (frame * PAGE_SIZE g + i)).toNat
                        avoid page ((ipv <<< g.OFFSET_WIDTH) + i) (acc.2.2.1, acc.2.2.2)).2.1 with
                      furthestAwayReferenceAddress := frame * PAGE_SIZE g + i },
                    (yaara.findFrame g below (PMread acc.2.2.2 (frame * PAGE_SIZE g + i)).toNat
                      avoid page ((ipv <<< g.OFFSET_WIDTH) + i) (acc.2.2.1, acc.2.2.2)).2.2)
                | yaara.FindFrameReturnVal.CONTINUE =>
                  (none, false,
                    (yaara.findFrame g below (PMread acc.2.2.2 (frame * PAGE_SIZE g + i)).toNat
                      avoid page ((ipv <<< g.OFFSET_WIDTH) + i) (acc.2.2.1, acc.2.2.2)).2.1,
                    (yaara.findFrame g below (PMread acc.2.2.2 (frame * PAGE_SIZE g + i)).toNat
                      avoid page ((ipv <<< g.OFFSET_WIDTH) + i) (acc.2.2.1, acc.2.2.2)).2.2)
              else acc)
          (none, true, vars0, d)).2.2.2)
      | none =>
        if ((List.range (PAGE_SIZE g)).foldl
          (fun (acc : Option yaara.FindFrameReturnVal × Bool × yaara.frameSearchingVariables × Device) i =>
            match acc.1 with
            | some _ => acc
            | none =>
              if PMread acc.2.2.2 (frame * PAGE_SIZE g + i) ≠ 0 then
                match (yaara.findFrame g below (PMread acc.2.2.2 (frame * PAGE_SIZE g + i)).toNat
                    avoid page ((ipv <<< g.OFFSET_WIDTH) + i) (acc.2.2.1, acc.2.2.2)).1 with
                | yaara.FindFrameReturnVal.BREAK =>
                  (some yaara.FindFrameReturnVal.BREAK, false,
                    (yaara.findFrame g below (PMread acc.2.2.2 (frame * PAGE_SIZE g + i)).toNat
                      avoid page ((ipv <<< g.OFFSET_WIDTH) + i) (acc.2.2.1, acc.2.2.2)).2.1,
                    (yaara.findFrame g below (PMread acc.2.2.2 (frame * PAGE_SIZE g + i)).toNat
                      avoid page ((ipv <<< g.OFFSET_WIDTH) + i) (acc.2.2.1, acc.2.2.2)).2.2)
                | yaara.FindFrameReturnVal.EMPTY_PAGE_TABLE =>
                  (some yaara.FindFrameReturnVal.BREAK, false,
                    (yaara.findFrame g below (PMread acc.2.2.2 (frame * PAGE_SIZE g + i)).toNat
                      avoid page ((ipv <<< g.OFFSET_WIDTH) + i) (acc.2.2.1, acc.2.2.2)).2.1,
                    PMwrite (yaara.findFrame g below (PMread acc.2.2.2 (frame * PAGE_SIZE g + i)).toNat
                      avoid page ((ipv <<< g.OFFSET_WIDTH) + i) (acc.2.2.1, acc.2.2.2)).2.2
                      (frame * PAGE_SIZE g + i) 0)
                | yaara.FindFrameReturnVal.BIGGER_DISTANCE =>
                  (none, false,
                    { (yaara.findFrame g below (PMread acc.2.2.2 (frame * PAGE_SIZE g + i)).toNat
                        avoid page ((ipv <<< g.OFFSET_WIDTH) + i) (acc.2.2.1, acc.2.2.2)).2.1 with
                      furthestAwayReferenceAddress := frame * PAGE_SIZE g + i },
                    (yaara.findFrame g below (PMread acc.2.2.2 (frame * PAGE_SIZE g + i)).toNat
                      avoid page ((ipv <<< g.OFFSET_WIDTH) + i) (acc.2.2.1, acc.2.2.2)).2.2)
                | yaara.FindFrameReturnVal.CONTINUE =>
                  (none, false,
                    (yaara.findFrame g below (PMread acc.2.2.2 (frame * PAGE_SIZE g + i)).toNat
                      avoid page ((ipv <<< g.OFFSET_WIDTH) + i) (acc.2.2.1, acc.2.2.2)).2.1,
                    (yaara.findFrame g below (PMread acc.2.2.2 (frame * PAGE_SIZE g + i)).toNat
                      avoid page ((ipv <<< g.OFFSET_WIDTH) + i) (acc.2.2.1, acc.2.2.2)).2.2)
              else acc)
          (none, true, vars0, d)).2.1 = true ∧ frame ≠ avoid then
          (yaara.FindFrameReturnVal.EMPTY_PAGE_TABLE,
            { ((List.range (PAGE_SIZE g)).foldl
          (fun (acc : Option yaara.FindFrameReturnVal × Bool × yaara.frameSearchingVariables × Device) i =>
            match acc.1 with
            | some _ => acc
            | none =>
              if PMread acc.2.2.2 (frame * PAGE_SIZE g + i) ≠ 0 then
                match (yaara.findFrame g below (PMread acc.2.2.2 (frame * PAGE_SIZE g + i)).toNat
                    avoid page ((ipv <<< g.OFFSET_WIDTH) + i) (acc.2.2.1, acc.2.2.2)).1 with
                | yaara.FindFrameReturnVal.BREAK =>
                  (some yaara.FindFrameReturnVal.BREAK, false,
                    (yaara.findFrame g below (PMread acc.2.2.2 (frame * PAGE_SIZE g + i)).toNat
                      avoid page ((ipv <<< g.OFFSET_WIDTH) + i) (acc.2.2.1, acc.2.2.2)).2.1,
                    (yaara.findFrame g below (PMread acc.2.2.2 (frame * PAGE_SIZE g + i)).toNat
                      avoid page ((ipv <<< g.OFFSET_WIDTH) + i) (acc.2.2.1, acc.2.2.2)).2.2)
                | yaara.FindFrameReturnVal.EMPTY_PAGE_TABLE =>
                  (some yaara.FindFrameReturnVal.BREAK, false,
                    (yaara.findFrame g below (PMread acc.2.2.2 (frame * PAGE_SIZE g + i)).toNat
                      avoid page ((ipv <<< g.OFFSET_WIDTH) + i) (acc.2.2.1, acc.2.2.2)).2.1,
                    PMwrite (yaara.findFrame g below (PMread acc.2.2.2 (frame * PAGE_SIZE g + i)).toNat
                      avoid page ((ipv <<< g.OFFSET_WIDTH) + i) (acc.2.2.1, acc.2.2.2)).2.2
                      (frame * PAGE_SIZE g + i) 0)
                | yaara.FindFrameReturnVal.BIGGER_DISTANCE =>
                  (none, false,
                    { (yaara.findFrame g below (PMread acc.2.2.2 (frame * PAGE_SIZE g + i)).toNat
                        avoid page ((ipv <<< g.OFFSET_WIDTH) + i) (acc.2.2.1, acc.2.2.2)).2.1 with
                      furthestAwayReferenceAddress := frame * PAGE_SIZE g + i },
                    (yaara.findFrame g below (PMread acc.2.2.2 (frame * PAGE_SIZE g + i)).toNat
                      avoid page ((ipv <<< g.OFFSET_WIDTH) + i) (acc.2.2.1, acc.2.2.2)).2.2)
                | yaara.FindFrameReturnVal.CONTINUE =>
                  (none, false,
                    (yaara.findFrame g below (PMread acc.2.2.2 (frame * PAGE_SIZE g + i)).toNat
                      avoid page ((ipv <<< g.OFFSET_WIDTH) + i) (acc.2.2.1, acc.2.2.2)).2.1,
                    (yaara.findFrame g below (PMread acc.2.2.2 (frame * PAGE_SIZE g + i)).toNat
                      avoid page ((ipv <<< g.OFFSET_WIDTH) + i) (acc.2.2.1, acc.2.2.2)).2.2)
              else acc)
          (none, true, vars0, d)).2.2.1 with emptyTableIndex := frame },
            ((List.range (PAGE_SIZE g)).foldl
          (fun (acc : Option yaara.FindFrameReturnVal × Bool × yaara.frameSearchingVariables × Device) i =>
            match acc.1 with
            | some _ => acc
            | none =>
              if PMread acc.2.2.2 (frame * PAGE_SIZE g + i) ≠ 0 then
                match (yaara.findFrame g below (PMread acc.2.2.2 (frame * PAGE_SIZE g + i)).toNat
                    avoid page ((ipv <<< g.OFFSET_WIDTH) + i) (acc.2.2.1, acc.2.2.2)).1 with
                | yaara.FindFrameReturnVal.BREAK =>
                  (some yaara.FindFrameReturnVal.BREAK, false,
                    (yaara.findFrame g below (PMread acc.2.2.2 (frame * PAGE_SIZE g + i)).toNat
                      avoid page ((ipv <<< g.OFFSET_WIDTH) + i) (acc.2.2.1, acc.2.2.2)).2.1,
                    (yaara.findFrame g below (PMread acc.2.2.2 (frame * PAGE_SIZE g + i)).toNat
                      avoid page ((ipv <<< g.OFFSET_WIDTH) + i) (acc.2.2.1, acc.2.2.2)).2.2)
                | yaara.FindFrameReturnVal.EMPTY_PAGE_TABLE =>
                  (some yaara.FindFrameReturnVal.BREAK, false,
                    (yaara.findFrame g below (PMread acc.2.2.2 (frame * PAGE_SIZE g + i)).toNat
                      avoid page ((ipv <<< g.OFFSET_WIDTH) + i) (acc.2.2.1, acc.2.2.2)).2.1,
                    PMwrite (yaara.findFrame g below (PMread acc.2.2.2 (frame * PAGE_SIZE g + i)).toNat
                      avoid page ((ipv <<< g.OFFSET_WIDTH) + i) (acc.2.2.1, acc.2.2.2)).2.2
                      (frame * PAGE_SIZE g + i) 0)
                | yaara.FindFrameReturnVal.BIGGER_DISTANCE =>
                  (none, false,
                    { (yaara.findFrame g below (PMread acc.2.2.2 (frame * PAGE_SIZE g + i)).toNat
                        avoid page ((ipv <<< g.OFFSET_WIDTH) + i) (acc.2.2.1, acc.2.2.2)).2.1 with
                      furthestAwayReferenceAddress := frame * PAGE_SIZE g + i },
                    (yaara.findFrame g below (PMread acc.2.2.2 (frame * PAGE_SIZE g + i)).toNat
                      avoid page ((ipv <<< g.OFFSET_WIDTH) + i) (acc.2.2.1, acc.2.2.2)).2.2)
                | yaara.FindFrameReturnVal.CONTINUE =>
                  (none, false,
                    (yaara.findFrame g below (PMread acc.2.2.2 (frame * PAGE_SIZE g + i)).toNat
                      avoid page ((ipv <<< g.OFFSET_WIDTH) + i) (acc.2.2.1, acc.2.2.2)).2.1,
                    (yaara.findFrame g below (PMread acc.2.2.2 (frame * PAGE_SIZE g + i)).toNat
                      avoid page ((ipv <<< g.OFFSET_WIDTH) + i) (acc.2.2.1, acc.2.2.2)).2.2)
              else acc)
          (none, true, vars0, d)).2.2.2)
        else
          (yaara.FindFrameReturnVal.CONTINUE,
            ((List.range (PAGE_SIZE g)).foldl
          (fun (acc : Option yaara.FindFrameReturnVal × Bool × yaara.frameSearchingVariables × Device) i =>
            match acc.1 with
            | some _ => acc
            | none =>
              if PMread acc.2.2.2 (frame * PAGE_SIZE g + i) ≠ 0 then
                match (yaara.findFrame g below (PMread acc.2.2.2 (frame * PAGE_SIZE g + i)).toNat
                    avoid page ((ipv <<< g.OFFSET_WIDTH) + i) (acc.2.2.1, acc.2.2.2)).1 with
                | yaara.FindFrameReturnVal.BREAK =>
                  (some yaara.FindFrameReturnVal.BREAK, false,
                    (yaara.findFrame g below (PMread acc.2.2.2 (frame * PAGE_SIZE g + i)).toNat
                      avoid page ((ipv <<< g.OFFSET_WIDTH) + i) (acc.2.2.1, acc.2.2.2)).2.1,
                    (yaara.findFrame g below (PMread acc.2.2.2 (frame * PAGE_SIZE g + i)).toNat
                      avoid page ((ipv <<< g.OFFSET_WIDTH) + i) (acc.2.2.1, acc.2.2.2)).2.2)
                | yaara.FindFrameReturnVal.EMPTY_PAGE_TABLE =>
                  (some yaara.FindFrameReturnVal.BREAK, false,
                    (yaara.findFrame g below (PMread acc.2.2.2 (frame * PAGE_SIZE g + i)).toNat
                      avoid page ((ipv <<< g.OFFSET_WIDTH) + i) (acc.2.2.1, acc.2.2.2)).2.1,
                    PMwrite (yaara.findFrame g below (PMread acc.2.2.2 (frame * PAGE_SIZE g + i)).toNat
                      avoid page ((ipv <<< g.OFFSET_WIDTH) + i) (acc.2.2.1, acc.2.2.2)).2.2
                      (frame * PAGE_SIZE g + i) 0)
                | yaara.FindFrameReturnVal.BIGGER_DISTANCE =>
                  (none, false,
                    { (yaara.findFrame g below (PMread acc.2.2.2 (frame * PAGE_SIZE g + i)).toNat
                        avoid page ((ipv <<< g.OFFSET_WIDTH) + i) (acc.2.2.1, acc.2.2.2)).2.1 with
                      furthestAwayReferenceAddress := frame * PAGE_SIZE g + i },
                    (yaara.findFrame g below (PMread acc.2.2.2 (frame * PAGE_SIZE g + i)).toNat
                      avoid page ((ipv <<< g.OFFSET_WIDTH) + i) (acc.2.2.1, acc.2.2.2)).2.2)
                | yaara.FindFrameReturnVal.CONTINUE =>
                  (none, false,
                    (yaara.findFrame g below (PMread acc.2.2.2 (frame * PAGE_SIZE g + i)).toNat
                      avoid page ((ipv <<< g.OFFSET_WIDTH) + i) (acc.2.2.1, acc.2.2.2)).2.1,
                    (yaara.findFrame g below (PMread acc.2.2.2 (frame * PAGE_SIZE g + i)).toNat
                      avoid page ((ipv <<< g.OFFSET_WIDTH) + i) (acc.2.2.1, acc.2.2.2)).2.2)
              else acc)
          (none, true, vars0, d)).2.2.1,
            ((List.range (PAGE_SIZE g)).foldl
          (fun (acc : Option yaara.FindFrameReturnVal × Bool × yaara.frameSearchingVariables × Device) i =>
            match acc.1 with
            | some _ => acc
            | none =>
              if PMread acc.2.2.2 (frame * PAGE_SIZE g + i) ≠ 0 then
                match (yaara.findFrame g below (PMread acc.2.2.2 (frame * PAGE_SIZE g + i)).toNat
                    avoid page ((ipv <<< g.OFFSET_WIDTH) + i) (acc.2.2.1, acc.2.2.2)).1 with
                | yaara.FindFrameReturnVal.BREAK =>
                  (some yaara.FindFrameReturnVal.BREAK, false,
                    (yaara.findFrame g below (PMread acc.2.2.2 (frame * PAGE_SIZE g + i)).toNat
                      avoid page ((ipv <<< g.OFFSET_WIDTH) + i) (acc.2.2.1, acc.2.2.2)).2.1,
                    (yaara.findFrame g below (PMread acc.2.2.2 (frame * PAGE_SIZE g + i)).toNat
                      avoid page ((ipv <<< g.OFFSET_WIDTH) + i) (acc.2.2.1, acc.2.2.2)).2.2)
                | yaara.FindFrameReturnVal.EMPTY_PAGE_TABLE =>
                  (some yaara.FindFrameReturnVal.BREAK, false,
                    (yaara.findFrame g below (PMread acc.2.2.2 (frame * PAGE_SIZE g + i)).toNat
                      avoid page ((ipv <<< g.OFFSET_WIDTH) + i) (acc.2.2.1, acc.2.2.2)).2.1,
                    PMwrite (yaara.findFrame g below (PMread acc.2.2.2 (frame * PAGE_SIZE g + i)).toNat
                      avoid page ((ipv <<< g.OFFSET_WIDTH) + i) (acc.2.2.1, acc.2.2.2)).2.2
                      (frame * PAGE_SIZE g + i) 0)
                | yaara.FindFrameReturnVal.BIGGER_DISTANCE =>
                  (none, false,
                    { (yaara.findFrame g below (PMread acc.2.2.2 (frame * PAGE_SIZE g + i)).toNat
                        avoid page ((ipv <<< g.OFFSET_WIDTH) + i) (acc.2.2.1, acc.2.2.2)).2.1 with
                      furthestAwayReferenceAddress := frame * PAGE_SIZE g + i },
                    (yaara.findFrame g below (PMread acc.2.2.2 (frame * PAGE_SIZE g + i)).toNat
                      avoid page ((ipv <<< g.OFFSET_WIDTH) + i) (acc.2.2.1, acc.2.2.2)).2.2)
                | yaara.FindFrameReturnVal.CONTINUE =>
                  (none, false,
                    (yaara.findFrame g below (PMread acc.2.2.2 (frame * PAGE_SIZE g + i)).toNat
                      avoid page ((ipv <<< g.OFFSET_WIDTH) + i) (acc.2.2.1, acc.2.2.2)).2.1,
                    (yaara.findFrame g below (PMread acc.2.2.2 (frame * PAGE_SIZE g + i)).toNat
                      avoid page ((ipv <<< g.OFFSET_WIDTH) + i) (acc.2.2.1, acc.2.2.2)).2.2)
              else acc)
          (none, true, vars0, d)).2.2.2) := by
  subst hv
  rfl

theorem dfsSearch_succ (g : Geometry) (d : Device) (page avoid below frame pf po ipv : Nat)
    (res : FrameSearchResult) :
    dfsSearch g d (below + 1) frame page avoid pf po ipv res =
      noteTable
        ((List.range (PAGE_SIZE g)).foldl
          (fun (acc : Bool × FrameSearchResult) offset =>
            if PMread d (frame * PAGE_SIZE g + offset) ≠ 0 then
              (false, dfsSearch g d below (PMread d (frame * PAGE_SIZE g + offset)).toNat
                page avoid frame offset ((ipv <<< g.OFFSET_WIDTH) ||| offset) acc.2)
            else acc)
          (true, noteFrame frame res)).1 frame avoid pf
        ((List.range (PAGE_SIZE g)).foldl
          (fun (acc : Bool × FrameSearchResult) offset =>
            if PMread d (frame * PAGE_SIZE g + offset) ≠ 0 then
              (false, dfsSearch g d below (PMread d (frame * PAGE_SIZE g + offset)).toNat
                page avoid frame offset ((ipv <<< g.OFFSET_WIDTH) ||| offset) acc.2)
            else acc)
          (true, noteFrame frame res)).2 := by
  rw [dfsSearch]

/-- The scans of the two variants on a subtree, from records that agree, on a device whose
root table is not empty. -/
theorem findFrame_dfs (g : Geometry) (d : Device) (page avoid : Nat)
    (h0 : ¬ ∀ o, o < PAGE_SIZE g → d.ram (0 * PAGE_SIZE g + o) = 0) :
    ∀ (below frame pf po ipv : Nat) (res : FrameSearchResult)
      (vars : yaara.frameSearchingVariables),
      yaara.Agrees g res vars →
      yaara.ScanOutcome g d avoid below frame pf po
        (dfsSearch g d below frame page avoid pf po ipv res)
        (yaara.findFrame g below frame avoid page ipv (vars, d)) := by
  intro below
  induction below with
  | zero =>
    intro frame pf po ipv res vars h
    obtain ⟨hd, ⟨hc, hag⟩ | ⟨hb, hag⟩⟩ := findFrame_leaf g d page avoid frame pf po ipv res vars h
    · left; exact ⟨hc, hd, hag, fun hr => absurd hr.1 (by omega)⟩
    · right; left; exact ⟨hb, hd, hag, rfl⟩
  | succ below ih =>
    intro frame pf po ipv res vars h
    obtain ⟨vars0, hv⟩ : ∃ v, v =
        if frame > vars.maxUsedFrame then { vars with maxUsedFrame := frame } else vars :=
      ⟨_, rfl⟩
    obtain ⟨res0, hres0⟩ : ∃ r, r = noteFrame frame res := ⟨_, rfl⟩
    have hag0 : yaara.Agrees g res0 vars0 := by rw [hv, hres0]; exact h.note frame
    have hloop := findFrame_loop g d page avoid below frame ipv ih res0 vars0 hag0
      (PAGE_SIZE g) le_rfl
    rw [findFrame_succ g d page avoid below frame ipv vars0 vars hv, dfsSearch_succ, ← hres0]
    generalize (List.range (PAGE_SIZE g)).foldl
          (fun (acc : Bool × FrameSearchResult) offset =>
            if PMread d (frame * PAGE_SIZE g + offset) ≠ 0 then
              (false, dfsSearch g d below (PMread d (frame * PAGE_SIZE g + offset)).toNat
                page avoid frame offset ((ipv <<< g.OFFSET_WIDTH) ||| offset) acc.2)
            else acc)
          (true, res0) = M at hloop ⊢
    generalize (List.range (PAGE_SIZE g)).foldl
          (fun (acc : Option yaara.FindFrameReturnVal × Bool × yaara.frameSearchingVariables × Device) i =>
            match acc.1 with
            | some _ => acc
            | none =>
              if PMread acc.2.2.2 (frame * PAGE_SIZE g + i) ≠ 0 then
                match (yaara.findFrame g below (PMread acc.2.2.2 (frame * PAGE_SIZE g + i)).toNat
                    avoid page ((ipv <<< g.OFFSET_WIDTH) + i) (acc.2.2.1, acc.2.2.2)).1 with
                | yaara.FindFrameReturnVal.BREAK =>
                  (some yaara.FindFrameReturnVal.BREAK, false,
                    (yaara.findFrame g below (PMread acc.2.2.2 (frame * PAGE_SIZE g + i)).toNat
                      avoid page ((ipv <<< g.OFFSET_WIDTH) + i) (acc.2.2.1, acc.2.2.2)).2.1,
                    (yaara.findFrame g below (PMread acc.2.2.2 (frame * PAGE_SIZE g + i)).toNat
                      avoid page ((ipv <<< g.OFFSET_WIDTH) + i) (acc.2.2.1, acc.2.2.2)).2.2)
                | yaara.FindFrameReturnVal.EMPTY_PAGE_TABLE =>
                  (some yaara.FindFrameReturnVal.BREAK, false,
                    (yaara.findFrame g below (PMread acc.2.2.2 (frame * PAGE_SIZE g + i)).toNat
                      avoid page ((ipv <<< g.OFFSET_WIDTH) + i) (acc.2.2.1, acc.2.2.2)).2.1,
                    PMwrite (yaara.findFrame g below (PMread acc.2.2.2 (frame * PAGE_SIZE g + i)).toNat
                      avoid page ((ipv <<< g.OFFSET_WIDTH) + i) (acc.2.2.1, acc.2.2.2)).2.2
                      (frame * PAGE_SIZE g + i) 0)
                | yaara.FindFrameReturnVal.BIGGER_DISTANCE =>
                  (none, false,
                    { (yaara.findFrame g below (PMread acc.2.2.2 (frame * PAGE_SIZE g + i)).toNat
                        avoid page ((ipv <<< g.OFFSET_WIDTH) + i) (acc.2.2.1, acc.2.2.2)).2.1 with
                      furthestAwayReferenceAddress := frame * PAGE_SIZE g + i },
                    (yaara.findFrame g below (PMread acc.2.2.2 (frame * PAGE_SIZE g + i)).toNat
                      avoid page ((ipv <<< g.OFFSET_WIDTH) + i) (acc.2.2.1, acc.2.2.2)).2.2)
                | yaara.FindFrameReturnVal.CONTINUE =>
                  (none, false,
                    (yaara.findFrame g below (PMread acc.2.2.2 (frame * PAGE_SIZE g + i)).toNat
                      avoid page ((ipv <<< g.OFFSET_WIDTH) + i) (acc.2.2.1, acc.2.2.2)).2.1,
                    (yaara.findFrame g below (PMread acc.2.2.2 (frame * PAGE_SIZE g + i)).toNat
                      avoid page ((ipv <<< g.OFFSET_WIDTH) + i) (acc.2.2.1, acc.2.2.2)).2.2)
              else acc)
          (none, true, vars0, d) = Y at hloop ⊢
    obtain ⟨yr, ye, yv, yd⟩ := Y
    obtain ⟨mb, mr⟩ := M
    rcases hloop with ⟨hy1, hyd, hye, hall, hag, hacc⟩ | ⟨hy1, hne, hidx, hdev⟩
    · simp only at hy1 hyd hye hall hag hacc
      have hyd' := hyd.symm
      subst hy1 hyd' hye
      by_cases hcond : ye = true ∧ frame ≠ avoid
      · have hz := hall.mp hcond.1
        have hf0 : frame ≠ 0 := by
          intro e
          rw [e] at hz
          exact h0 hz
        dsimp only
        rw [if_pos hcond]
        right; right; left
        refine ⟨rfl, rfl, ⟨by omega, hz, hcond.2, hf0⟩, ?_, ?_, rfl⟩
        · simp [noteTable, hcond.1, hcond.2, hf0, hag.2.1]
        · simp [noteTable, hcond.1, hcond.2, hf0, hag.2.1]
      · dsimp only
        rw [if_neg hcond]
        left
        have hnt : noteTable ye frame avoid pf mr = mr := by
          unfold noteTable
          rw [if_neg]
          intro hh
          exact hcond ⟨hh.1, hh.2.2.1⟩
        refine ⟨rfl, rfl, ?_, ?_⟩
        · show yaara.Agrees g (noteTable ye frame avoid pf mr) yv
          rw [hnt]; exact hag
        · intro hr
          exact hcond ⟨hall.mpr hr.2.1, hr.2.2.1⟩
    · simp only at hy1 hne hidx hdev
      subst hy1
      have hnt : noteTable mb frame avoid pf mr = mr := by
        unfold noteTable
        rw [if_neg]
        intro hh
        exact hne hh.2.2.2
      right; right; right
      refine ⟨rfl, ?_, ?_, ?_⟩
      · show (noteTable mb frame avoid pf mr).emptyTable ≠ 0
        rw [hnt]; exact hne
      · show yv.emptyTableIndex = (noteTable mb frame avoid pf mr).emptyTable
        rw [hnt]; exact hidx
      · show yd = unlinkFromParent g d (noteTable mb frame avoid pf mr).emptyTableParent
          (noteTable mb frame avoid pf mr).emptyTable
        rw [hnt]; exact hdev

theorem dfsLoop_zero (g : Geometry) (d : Device) (page avoid below frame ipv : Nat)
    (l : List Nat) (hz : ∀ o ∈ l, d.ram (frame * PAGE_SIZE g + o) = 0)
    (acc0 : Bool × FrameSearchResult) :
    l.foldl
          (fun (acc : Bool × FrameSearchResult) offset =>
            if PMread d (frame * PAGE_SIZE g + offset) ≠ 0 then
              (false, dfsSearch g d below (PMread d (frame * PAGE_SIZE g + offset)).toNat
                page avoid frame offset ((ipv <<< g.OFFSET_WIDTH) ||| offset) acc.2)
            else acc)
          acc0 = acc0 := by
  induction l with
  | nil => rfl
  | cons x l ih =>
    rw [List.foldl_cons]
    have hx : PMread d (frame * PAGE_SIZE g + x) = 0 := hz x (List.mem_cons_self _ _)
    simp only [hx, ne_eq, not_true_eq_false, if_false]
    exact ih (fun o ho => hz o (List.mem_cons_of_mem _ ho))

theorem findFrameLoop_zero (g : Geometry) (d : Device) (page avoid below frame ipv : Nat)
    (l : List Nat) (hz : ∀ o ∈ l, d.ram (frame * PAGE_SIZE g + o) = 0)
    (b : Bool) (vars0 : yaara.frameSearchingVariables) :
    l.foldl
          (fun (acc : Option yaara.FindFrameReturnVal × Bool × yaara.frameSearchingVariables × Device) i =>
            match acc.1 with
            | some _ => acc
            | none =>
              if PMread acc.2.2.2 (frame * PAGE_SIZE g + i) ≠ 0 then
                match (yaara.findFrame g below (PMread acc.2.2.2 (frame * PAGE_SIZE g + i)).toNat
                    avoid page ((ipv <<< g.OFFSET_WIDTH) + i) (acc.2.2.1, acc.2.2.2)).1 with
                | yaara.FindFrameReturnVal.BREAK =>
                  (some yaara.FindFrameReturnVal.BREAK, false,
                    (yaara.findFrame g below (PMread acc.2.2.2 (frame * PAGE_SIZE g + i)).toNat
                      avoid page ((ipv <<< g.OFFSET_WIDTH) + i) (acc.2.2.1, acc.2.2.2)).2.1,
                    (yaara.findFrame g below (PMread acc.2.2.2 (frame * PAGE_SIZE g + i)).toNat
                      avoid page ((ipv <<< g.OFFSET_WIDTH) + i) (acc.2.2.1, acc.2.2.2)).2.2)
                | yaara.FindFrameReturnVal.EMPTY_PAGE_TABLE =>
                  (some yaara.FindFrameReturnVal.BREAK, false,
                    (yaara.findFrame g below (PMread acc.2.2.2 (frame * PAGE_SIZE g + i)).toNat
                      avoid page ((ipv <<< g.OFFSET_WIDTH) + i) (acc.2.2.1, acc.2.2.2)).2.1,
                    PMwrite (yaara.findFrame g below (PMread acc.2.2.2 (frame * PAGE_SIZE g + i)).toNat
                      avoid page ((ipv <<< g.OFFSET_WIDTH) + i) (acc.2.2.1, acc.2.2.2)).2.2
                      (frame * PAGE_SIZE g + i) 0)
                | yaara.FindFrameReturnVal.BIGGER_DISTANCE =>
                  (none, false,
                    { (yaara.findFrame g below (PMread acc.2.2.2 (frame * PAGE_SIZE g + i)).toNat
                        avoid page ((ipv <<< g.OFFSET_WIDTH) + i) (acc.2.2.1, acc.2.2.2)).2.1 with
                      furthestAwayReferenceAddress := frame * PAGE_SIZE g + i },
                    (yaara.findFrame g below (PMread acc.2.2.2 (frame * PAGE_SIZE g + i)).toNat
                      avoid page ((ipv <<< g.OFFSET_WIDTH) + i) (acc.2.2.1, acc.2.2.2)).2.2)
                | yaara.FindFrameReturnVal.CONTINUE =>
                  (none, false,
                    (yaara.findFrame g below (PMread acc.2.2.2 (frame * PAGE_SIZE g + i)).toNat
                      avoid page ((ipv <<< g.OFFSET_WIDTH) + i) (acc.2.2.1, acc.2.2.2)).2.1,
                    (yaara.findFrame g below (PMread acc.2.2.2 (frame * PAGE_SIZE g + i)).toNat
                      avoid page ((ipv <<< g.OFFSET_WIDTH) + i) (acc.2.2.1, acc.2.2.2)).2.2)
              else acc)
          (none, b, vars0, d) = (none, b, vars0, d) := by
  induction l with
  | nil => rfl
  | cons x l ih =>
    rw [List.foldl_cons]
    have hx : PMread d (frame * PAGE_SIZE g + x) = 0 := hz x (List.mem_cons_self _ _)
    simp only [hx, ne_eq, not_true_eq_false, if_false]
    exact ih (fun o ho => hz o (List.mem_cons_of_mem _ ho))

/-- The frame chosen by `yaara.pageFault` and the device it leaves before `yaara.swapIn` are those of
`findFreeOrEvictFrame`, in every device state. -/
theorem pageFault_eq (g : Geometry) (d : Device) (isTable : Bool) (parent page : Nat)
    (hD : 0 < g.TABLES_DEPTH) :
    yaara.pageFault g d isTable parent page =
      ((findFreeOrEvictFrame g d page parent).1,
        if isTable = true then
          clearFrame g (findFreeOrEvictFrame g d page parent).2
            (findFreeOrEvictFrame g d page parent).1
        else PMrestore g (findFreeOrEvictFrame g d page parent).2
          (findFreeOrEvictFrame g d page parent).1 page) := by
  have hswap : ∀ (dev : Device) (f : Nat), yaara.swapIn g dev isTable page f =
      if isTable = true then clearFrame g dev f else PMrestore g dev f page := fun _ _ => rfl
  suffices hkey :
      (if (yaara.findFrame g g.TABLES_DEPTH 0 parent page 0
            (yaara.frameSearchingVariables.zero, d)).2.1.emptyTableIndex ≠ 0 then
          ((yaara.findFrame g g.TABLES_DEPTH 0 parent page 0
              (yaara.frameSearchingVariables.zero, d)).2.1.emptyTableIndex,
            (yaara.findFrame g g.TABLES_DEPTH 0 parent page 0 (yaara.frameSearchingVariables.zero, d)).2.2)
        else if (yaara.findFrame g g.TABLES_DEPTH 0 parent page 0
            (yaara.frameSearchingVariables.zero, d)).2.1.maxUsedFrame < g.NUM_FRAMES - 1 then
          ((yaara.findFrame g g.TABLES_DEPTH 0 parent page 0
              (yaara.frameSearchingVariables.zero, d)).2.1.maxUsedFrame + 1,
            (yaara.findFrame g g.TABLES_DEPTH 0 parent page 0 (yaara.frameSearchingVariables.zero, d)).2.2)
        else
          ((PMread (yaara.findFrame g g.TABLES_DEPTH 0 parent page 0
              (yaara.frameSearchingVariables.zero, d)).2.2
            (yaara.findFrame g g.TABLES_DEPTH 0 parent page 0
              (yaara.frameSearchingVariables.zero, d)).2.1.furthestAwayReferenceAddress).toNat,
            PMwrite (PMevict g (yaara.findFrame g g.TABLES_DEPTH 0 parent page 0
                (yaara.frameSearchingVariables.zero, d)).2.2
              (PMread (yaara.findFrame g g.TABLES_DEPTH 0 parent page 0
                  (yaara.frameSearchingVariables.zero, d)).2.2
                (yaara.findFrame g g.TABLES_DEPTH 0 parent page 0
                  (yaara.frameSearchingVariables.zero, d)).2.1.furthestAwayReferenceAddress).toNat
              (yaara.findFrame g g.TABLES_DEPTH 0 parent page 0
                (yaara.frameSearchingVariables.zero, d)).2.1.furthestAwayPageIndex)
              (yaara.findFrame g g.TABLES_DEPTH 0 parent page 0
                (yaara.frameSearchingVariables.zero, d)).2.1.furthestAwayReferenceAddress 0)) =
        findFreeOrEvictFrame g d page parent by
    unfold yaara.pageFault
    simp only [hswap]
    rw [hkey]
  have hag : yaara.Agrees g FrameSearchResult.zero yaara.frameSearchingVariables.zero :=
    ⟨rfl, rfl, rfl, rfl, rfl, by simp [FrameSearchResult.zero, yaara.frameSearchingVariables.zero]⟩
  have hfin : ∀ (R : FrameSearchResult) (v : yaara.frameSearchingVariables), yaara.Agrees g R v →
      (if v.emptyTableIndex ≠ 0 then (v.emptyTableIndex, d)
        else if v.maxUsedFrame < g.NUM_FRAMES - 1 then (v.maxUsedFrame + 1, d)
        else ((PMread d v.furthestAwayReferenceAddress).toNat,
          PMwrite (PMevict g d (PMread d v.furthestAwayReferenceAddress).toNat
            v.furthestAwayPageIndex) v.furthestAwayReferenceAddress 0)) =
      (if R.emptyTable ≠ 0 then (R.emptyTable, unlinkFromParent g d R.emptyTableParent R.emptyTable)
        else if R.maxUsedFrame + 1 < g.NUM_FRAMES then (R.maxUsedFrame + 1, d)
        else ((PMread d (R.bestEvictParent * PAGE_SIZE g + R.bestEvictOffset)).toNat,
          PMwrite (PMevict g d (PMread d (R.bestEvictParent * PAGE_SIZE g + R.bestEvictOffset)).toNat
            R.bestEvictPageNumber) (R.bestEvictParent * PAGE_SIZE g + R.bestEvictOffset) 0)) := by
    intro R v ⟨a1, a2, a3, a4, a5, a6⟩
    rw [if_neg (show ¬ v.emptyTableIndex ≠ 0 by simp [a1]),
      if_neg (show ¬ R.emptyTable ≠ 0 by simp [a2]), a3, a5, a6]
    by_cases hlt : R.maxUsedFrame + 1 < g.NUM_FRAMES
    · rw [if_pos hlt, if_pos (by omega)]
    · rw [if_neg hlt, if_neg (by omega)]
  have hmain : findFreeOrEvictFrame g d page parent =
      (if (scanTree g d page parent).emptyTable ≠ 0 then
        ((scanTree g d page parent).emptyTable,
          unlinkFromParent g d (scanTree g d page parent).emptyTableParent
            (scanTree g d page parent).emptyTable)
        else if (scanTree g d page parent).maxUsedFrame + 1 < g.NUM_FRAMES then
          ((scanTree g d page parent).maxUsedFrame + 1, d)
        else ((PMread d ((scanTree g d page parent).bestEvictParent * PAGE_SIZE g +
              (scanTree g d page parent).bestEvictOffset)).toNat,
          PMwrite (PMevict g d (PMread d ((scanTree g d page parent).bestEvictParent * PAGE_SIZE g +
              (scanTree g d page parent).bestEvictOffset)).toNat
            (scanTree g d page parent).bestEvictPageNumber)
            ((scanTree g d page parent).bestEvictParent * PAGE_SIZE g +
              (scanTree g d page parent).bestEvictOffset) 0)) := rfl
  rw [hmain]
  by_cases h0 : ∀ o, o < PAGE_SIZE g → d.ram (0 * PAGE_SIZE g + o) = 0
  · obtain ⟨n, hn⟩ : ∃ n, g.TABLES_DEPTH = n + 1 := ⟨g.TABLES_DEPTH - 1, by omega⟩
    have hz : ∀ o ∈ List.range (PAGE_SIZE g), d.ram (0 * PAGE_SIZE g + o) = 0 :=
      fun o ho => h0 o (List.mem_range.mp ho)
    have hR : scanTree g d page parent = FrameSearchResult.zero := by
      unfold scanTree
      rw [hn, dfsSearch_succ, dfsLoop_zero g d page parent n 0 0 _ hz]
      simp [noteTable, noteFrame, FrameSearchResult.zero]
    have hY : (yaara.findFrame g g.TABLES_DEPTH 0 parent page 0 (yaara.frameSearchingVariables.zero, d)).2.2 = d ∧
        yaara.Agrees g FrameSearchResult.zero
          (yaara.findFrame g g.TABLES_DEPTH 0 parent page 0 (yaara.frameSearchingVariables.zero, d)).2.1 := by
      rw [hn, findFrame_succ g d page parent n 0 0 yaara.frameSearchingVariables.zero
        yaara.frameSearchingVariables.zero (by simp [yaara.frameSearchingVariables.zero]),
        findFrameLoop_zero g d page parent n 0 0 _ hz]
      dsimp only
      by_cases hc : true = true ∧ 0 ≠ parent
      · rw [if_pos hc]; exact ⟨rfl, hag⟩
      · rw [if_neg hc]; exact ⟨rfl, hag⟩
    rw [hR, hY.1]
    exact hfin _ _ hY.2
  · have hS := findFrame_dfs g d page parent h0 g.TABLES_DEPTH 0 0 0 0 FrameSearchResult.zero
      yaara.frameSearchingVariables.zero hag
    have hR : scanTree g d page parent =
        dfsSearch g d g.TABLES_DEPTH 0 page parent 0 0 0 FrameSearchResult.zero := rfl
    rw [hR]
    generalize dfsSearch g d g.TABLES_DEPTH 0 page parent 0 0 0 FrameSearchResult.zero = R at hS ⊢
    generalize yaara.findFrame g g.TABLES_DEPTH 0 parent page 0 (yaara.frameSearchingVariables.zero, d) = Y
      at hS ⊢
    obtain ⟨y1, yv, yd⟩ := Y
    rcases hS with ⟨_, e2, e3, _⟩ | ⟨_, _, _, e4⟩ | ⟨_, _, e3, _⟩ | ⟨_, e2, e3, e4⟩
    · simp only at e2 e3
      rw [e2]
      exact hfin _ _ e3
    · omega
    · exact absurd rfl e3.2.2.2
    · simp only at e2 e3 e4
      dsimp only
      rw [if_pos (by rw [e3]; exact e2), if_pos e2, e3, e4]

theorem foldl_congr_mem {α : Type} (f f' : α → Nat → α) (l : List Nat)
    (h : ∀ i ∈ l, ∀ s, f s i = f' s i) : ∀ s, l.foldl f s = l.foldl f' s := by
  induction l with
  | nil => intro s; rfl
  | cons x l ih =>
    intro s
    rw [List.foldl_cons, List.foldl_cons, h x (List.mem_cons_self _ _) s]
    exact ih (fun i hi => h i (List.mem_cons_of_mem _ hi)) _

theorem getAddressIteration_eq (g : Geometry) (a : Nat) (ha : a < VIRTUAL_MEMORY_SIZE g)
    (st : Nat × Device) (i : Nat) (hi : i < g.TABLES_DEPTH) :
    yaara.getAddressIteration g a (yaara.parseAddress g a) st i =
      traverseStep g (parseAddress g a) (pageNumberOf g (parseAddress g a)) st i := by
  have hp : yaara.parseAddress g a = parseAddress g a := rfl
  unfold yaara.getAddressIteration traverseStep
  rw [hp, pageNumberOf_shift g a ha]
  by_cases hz : PMread st.2 (st.1 * PAGE_SIZE g + (parseAddress g a).getD i 0) = 0
  · simp only [hz, if_true]
    rw [pageFault_eq g st.2 _ st.1 _ (by omega)]
    simp only [decide_eq_true_eq]
  · simp only [hz, if_false]

theorem getPhysicalAddress_eq (g : Geometry) (d : Device) (a : Nat)
    (ha : a < VIRTUAL_MEMORY_SIZE g) :
    yaara.getPhysicalAddress g d a = traverseTree g d a := by
  have hp : yaara.parseAddress g a = parseAddress g a := rfl
  unfold yaara.getPhysicalAddress traverseTree
  simp only
  rw [foldl_congr_mem (yaara.getAddressIteration g a (yaara.parseAddress g a))
    (traverseStep g (parseAddress g a) (pageNumberOf g (parseAddress g a)))
    (List.range g.TABLES_DEPTH)
    (fun i hi s => getAddressIteration_eq g a ha s i (List.mem_range.mp hi)) (0, d), hp]

theorem VMread_agree (g : Geometry) (d : Device) (a : Nat) (ptr : Bool) :
    yaara.VMread g d a ptr = VMread g d a ptr := by
  unfold yaara.VMread VMread
  by_cases h : a < VIRTUAL_MEMORY_SIZE g ∧ ptr = true
  · obtain ⟨ha, rfl⟩ := h
    rw [if_neg (by simp; omega), if_neg (by simp; omega), getPhysicalAddress_eq g d a ha]
  · have h1 : ptr = false ∨ a ≥ VIRTUAL_MEMORY_SIZE g := by
      by_cases ha : a < VIRTUAL_MEMORY_SIZE g
      · left
        cases ptr with
        | false => rfl
        | true => exact absurd ⟨ha, rfl⟩ h
      · right; omega
    rw [if_pos h1, if_pos h1.symm]

theorem VMwrite_agree (g : Geometry) (d : Device) (a : Nat) (w : Int) :
    yaara.VMwrite g d a w = VMwrite g d a w := by
  unfold yaara.VMwrite VMwrite
  by_cases ha : a ≥ VIRTUAL_MEMORY_SIZE g
  · rw [if_pos ha, if_pos ha]
  · rw [if_neg ha, if_neg ha, getPhysicalAddress_eq g d a (by omega)]

theorem VMinitialize_agree (g : Geometry) (d : Device) :
    yaara.VMinitialize g d = VMinitialize g d := by
  unfold yaara.VMinitialize VMinitialize clearFrame
  apply foldl_congr_mem
  intro i _ s
  rw [Nat.zero_mul, Nat.zero_add]

theorem applyOp_agree (g : Geometry) (d : Device) (op : Op) :
    yaara.applyOp g d op = applyOp g d op := by
  cases op with
  | read a p => simp only [yaara.applyOp, applyOp, VMread_agree]
  | write a w => simp only [yaara.applyOp, applyOp, VMwrite_agree]

theorem run_agree (g : Geometry) (ops : List Op) : ∀ (d : Device),
    yaara.run g d ops = run g d ops := by
  induction ops with
  | nil => intro d; rfl
  | cons op ops ih =>
    intro d
    show yaara.run g (yaara.applyOp g d op) ops = run g (applyOp g d op) ops
    rw [applyOp_agree, ih]

theorem returns_agree (g : Geometry) (ops : List Op) : ∀ (d : Device),
    yaara.returns g d ops = returns g d ops := by
  induction ops with
  | nil => intro d; rfl
  | cons op ops ih =>
    intro d
    cases op with
    | read a p => simp only [yaara.returns, returns, VMread_agree, ih]
    | write a w => simp only [yaara.returns, returns, VMwrite_agree, ih]

/-! ## The claims -/

/-- C1. Immediate round trip. With `NUM_FRAMES > TABLES_DEPTH + 1`, in every state reached
from `VMinitialize` by `VMread`/`VMwrite` calls, for every address below
`VIRTUAL_MEMORY_SIZE` and every word `w`, `VMwrite(a, w)` returns 1 and a `VMread(a, &r)`
issued directly afterwards returns 1 with `r == w`; a second write to the same address
overwrites the first. -/
theorem write_read_round_trip (g : Geometry) (hNF : g.TABLES_DEPTH + 1 < g.NUM_FRAMES)
    (d : Device) (hd : Reachable g d) (a : Nat) (ha : a < VIRTUAL_MEMORY_SIZE g) (w : Int) :
    (VMwrite g d a w).1 = 1 ∧
    (VMread g (VMwrite g d a w).2 a true).ret = 1 ∧
    (VMread g (VMwrite g d a w).2 a true).stored = some w ∧
    ∀ w2 : Int,
      (VMwrite g (VMwrite g d a w).2 a w2).1 = 1 ∧
      (VMread g (VMwrite g (VMwrite g d a w).2 a w2).2 a true).ret = 1 ∧
      (VMread g (VMwrite g (VMwrite g d a w).2 a w2).2 a true).stored = some w2 := by
  have hNF' : g.TABLES_DEPTH < g.NUM_FRAMES := by omega
  obtain ⟨h1, h2, h3, _⟩ := VMwrite_spec g d (hd.inv hNF') hNF' a ha w
  obtain ⟨k1, k2, _, _⟩ := VMread_spec g _ h2 hNF' a ha
  refine ⟨h1, k1, by rw [k2, h3], ?_⟩
  intro w2
  obtain ⟨m1, m2, m3, _⟩ := VMwrite_spec g _ h2 hNF' a ha w2
  obtain ⟨n1, n2, _, _⟩ := VMread_spec g _ m2 hNF' a ha
  exact ⟨m1, n1, by rw [n2, m3]⟩

/-- Witness of C1: the overwrite scenario, address 100 written with 7 right after
`VMinitialize` on the geometry of the scenarios. -/
theorem write_read_round_trip_witness :
    (VMwrite demoGeometry demoStart 100 7).1 = 1 ∧
    (VMread demoGeometry (VMwrite demoGeometry demoStart 100 7).2 100 true).ret = 1 ∧
    (VMread demoGeometry (VMwrite demoGeometry demoStart 100 7).2 100 true).stored = some 7 ∧
    ∀ w2 : Int,
      (VMwrite demoGeometry (VMwrite demoGeometry demoStart 100 7).2 100 w2).1 = 1 ∧
      (VMread demoGeometry (VMwrite demoGeometry (VMwrite demoGeometry demoStart 100 7).2
        100 w2).2 100 true).ret = 1 ∧
      (VMread demoGeometry (VMwrite demoGeometry (VMwrite demoGeometry demoStart 100 7).2
        100 w2).2 100 true).stored = some w2 :=
  write_read_round_trip demoGeometry (by decide) demoStart ⟨demoDevice, [], rfl⟩ 100
    (by decide) 7

/-- C2. Persistence across eviction. With `NUM_FRAMES > TABLES_DEPTH + 1` and the backing
store a map from page numbers to page contents, after `VMinitialize` and any sequence of
`VMread`/`VMwrite` calls, `VMread(a, &r)` returns 1 and yields the value of the most recent
`VMwrite` to `a`, whatever reads and writes of other addresses, evictions and restores
happened in between. -/
theorem read_yields_last_write (g : Geometry) (hNF : g.TABLES_DEPTH + 1 < g.NUM_FRAMES)
    (d0 : Device) (ops : List Op) (a : Nat) (ha : a < VIRTUAL_MEMORY_SIZE g) (w : Int)
    (hw : lastWrite a ops = some w) :
    (VMread g (run g ( VMinitialize g d0) ops) a true).ret = 1 ∧
    (VMread g (run g ( VMinitialize g d0) ops) a true).stored = some w := by
  have hNF' : g.TABLES_DEPTH < g.NUM_FRAMES := by omega
  have hinit := VMinitialize_inv g d0 (by omega)
  obtain ⟨k1, k2, _, _⟩ := VMread_spec g _ (run_inv g _ hinit hNF' ops) hNF' a ha
  refine ⟨k1, ?_⟩
  rw [k2, run_vmem g _ hinit hNF' a ha ops, hw]
  rfl

/-- Witness of C2: on the geometry of the scenarios the word written to address 0 is read
back after the pages 1, 2, 3 and 4 were written, the last of which evicts page 0. -/
theorem read_yields_last_write_witness :
    (VMread demoGeometry (run demoGeometry ( VMinitialize demoGeometry demoDevice)
      [Op.write 0 1, Op.write 16 2, Op.write 32 3, Op.write 48 4, Op.write 64 5]) 0 true).ret = 1 ∧
    (VMread demoGeometry (run demoGeometry ( VMinitialize demoGeometry demoDevice)
      [Op.write 0 1, Op.write 16 2, Op.write 32 3, Op.write 48 4, Op.write 64 5]) 0 true).stored
        = some 1 :=
  read_yields_last_write demoGeometry (by decide) demoDevice
    [Op.write 0 1, Op.write 16 2, Op.write 32 3, Op.write 48 4, Op.write 64 5] 0 (by decide) 1
    (by decide)

/-- C3. Rejected calls are atomic: `VMwrite` to an address at or above
`VIRTUAL_MEMORY_SIZE`, `VMread` from such an address, and `VMread` with a null output
pointer return 0 and hand back the device exactly as it was (memory, backing store and
journal of device calls), and `VMread` stores nothing through the pointer. -/
theorem rejected_calls_atomic (g : Geometry) (d : Device) (a : Nat) (w : Int) (p : Bool) :
    (VIRTUAL_MEMORY_SIZE g ≤ a → VMwrite g d a w = (0, d)) ∧
    (VIRTUAL_MEMORY_SIZE g ≤ a →
      (VMread g d a p).ret = 0 ∧ (VMread g d a p).stored = none ∧ (VMread g d a p).device = d) ∧
    ((VMread g d a false).ret = 0 ∧ (VMread g d a false).stored = none ∧
      (VMread g d a false).device = d) := by
  refine ⟨?_, ?_, ?_⟩
  · intro h; simp [VMwrite, h]
  · intro h; simp [VMread, h]
  · simp [VMread]

/-- Witness of C3: the out-of-range scenario, `VMwrite(4096, 1)` on the geometry of the
scenarios. -/
theorem rejected_calls_atomic_witness :
    VIRTUAL_MEMORY_SIZE demoGeometry ≤ 4096 ∧ VMwrite demoGeometry demoFull 4096 1 = (0, demoFull) :=
  ⟨by decide, (rejected_calls_atomic demoGeometry demoFull 4096 1 true).1 (by decide)⟩

/-- C4. Return values: `VMwrite` returns 1 exactly when the address is below
`VIRTUAL_MEMORY_SIZE`, `VMread` returns 1 exactly when the address is below
`VIRTUAL_MEMORY_SIZE` and the pointer is non-null, and both return 0 otherwise; address
`VIRTUAL_MEMORY_SIZE - 1` succeeds and address `VIRTUAL_MEMORY_SIZE` fails. -/
theorem return_value_contract (g : Geometry) (d : Device) (a : Nat) (w : Int) (p : Bool) :
    ((VMwrite g d a w).1 = 1 ↔ a < VIRTUAL_MEMORY_SIZE g) ∧
    ((VMread g d a p).ret = 1 ↔ a < VIRTUAL_MEMORY_SIZE g ∧ p = true) ∧
    ((VMwrite g d a w).1 = 1 ∨ (VMwrite g d a w).1 = 0) ∧
    ((VMread g d a p).ret = 1 ∨ (VMread g d a p).ret = 0) ∧
    (VMwrite g d (VIRTUAL_MEMORY_SIZE g - 1) w).1 = 1 ∧
    (VMread g d (VIRTUAL_MEMORY_SIZE g - 1) true).ret = 1 ∧
    (VMwrite g d (VIRTUAL_MEMORY_SIZE g) w).1 = 0 ∧
    (VMread g d (VIRTUAL_MEMORY_SIZE g) p).ret = 0 := by
  have hpos : 0 < VIRTUAL_MEMORY_SIZE g := Nat.mul_pos (NUM_PAGES_pos g) (PAGE_SIZE_pos g)
  have hw : ∀ x, (VMwrite g d x w).1 = if VIRTUAL_MEMORY_SIZE g ≤ x then 0 else 1 := by
    intro x; unfold VMwrite; split <;> rfl
  have hr : ∀ x q, (VMread g d x q).ret =
      if VIRTUAL_MEMORY_SIZE g ≤ x ∨ q = false then 0 else 1 := by
    intro x q; unfold VMread; split <;> rfl
  refine ⟨?_, ?_, ?_, ?_, ?_, ?_, ?_, ?_⟩
  · rw [hw]; by_cases h : VIRTUAL_MEMORY_SIZE g ≤ a
    · simp only [h, if_true]; constructor
      · intro h0; exact absurd h0 (by decide)
      · intro h1; omega
    · simp only [h, if_false, true_iff]; omega
  · rw [hr]
    by_cases h : VIRTUAL_MEMORY_SIZE g ≤ a
    · simp only [h, true_or, if_true]; constructor
      · intro h0; exact absurd h0 (by decide)
      · intro h1; omega
    · cases p
      · simp
      · simp only [h, or_self, if_false, true_iff, Bool.true_eq_false]; exact ⟨by omega, trivial⟩
  · rw [hw]; split <;> simp
  · rw [hr]; split <;> simp
  · rw [hw]; rw [if_neg (by omega)]
  · rw [hr]; rw [if_neg (by simp; omega)]
  · rw [hw]; simp
  · rw [hr]; simp

/-- C5. `VMinitialize`, from any device state, leaves every word of frame 0 equal to 0,
keeps every word outside frame 0 and the backing store as they were, and calling it a
second time changes neither memory nor backing store. -/
theorem VMinitialize_effect (g : Geometry) (d : Device) :
    (∀ o, o < PAGE_SIZE g → ( VMinitialize g d).ram (0 * PAGE_SIZE g + o) = 0) ∧
    (∀ a, PAGE_SIZE g ≤ a → ( VMinitialize g d).ram a = d.ram a) ∧
    ( VMinitialize g d).swap = d.swap ∧
    ( VMinitialize g ( VMinitialize g d)).ram = ( VMinitialize g d).ram ∧
    ( VMinitialize g ( VMinitialize g d)).swap = ( VMinitialize g d).swap := by
  have hp := PAGE_SIZE_pos g
  refine ⟨?_, ?_, ?_, ?_, ?_⟩
  · intro o ho
    simp only [ VMinitialize, clearFrame_ram, Nat.zero_mul, Nat.zero_add]
    rw [if_pos (Nat.div_eq_of_lt ho)]
  · intro a ha
    simp only [ VMinitialize, clearFrame_ram]
    rw [if_neg]
    intro h
    have := (Nat.div_eq_zero_iff hp).mp h
    omega
  · simp [ VMinitialize]
  · funext a
    simp only [ VMinitialize, clearFrame_ram]
    split <;> rfl
  · simp [ VMinitialize]

/-- Witness of C5: word 3 of frame 0 after `VMinitialize` on a memory of non-zero words. -/
theorem VMinitialize_effect_witness :
    3 < PAGE_SIZE demoGeometry ∧
    ( VMinitialize demoGeometry demoDevice).ram (0 * PAGE_SIZE demoGeometry + 3) = 0 :=
  ⟨by decide, (VMinitialize_effect demoGeometry demoDevice).1 3 (by decide)⟩

/-- C6. Root and protected-frame protection. With `NUM_FRAMES > TABLES_DEPTH + 1`, in every
reachable state, at every level at which the resolver faults and calls
`findFreeOrEvictFrame(targetPage, avoidFrame)`, the frame returned lies in
`[1, NUM_FRAMES)` and differs from `avoidFrame`; the calls the allocator makes on the device
contain no `PMevict` of frame 0; and every entry on the path from the root to the protected
frame keeps its non-zero value, so that the protected frame is still reached along it. -/
theorem allocator_protects_path (g : Geometry) (hNF : g.TABLES_DEPTH + 1 < g.NUM_FRAMES)
    (d : Device) (hd : Reachable g d) (a : Nat) (_ha : a < VIRTUAL_MEMORY_SIZE g)
    (level : Nat) (hlevel : level < g.TABLES_DEPTH)
    (hfault : (traverseUpTo g d a level).2.ram
      ((traverseUpTo g d a level).1 * PAGE_SIZE g + (parseAddress g a).getD level 0) = 0) :
    1 ≤ (findFreeOrEvictFrame g (traverseUpTo g d a level).2
        (pageNumberOf g (parseAddress g a)) (traverseUpTo g d a level).1).1 ∧
    (findFreeOrEvictFrame g (traverseUpTo g d a level).2
        (pageNumberOf g (parseAddress g a)) (traverseUpTo g d a level).1).1 < g.NUM_FRAMES ∧
    (findFreeOrEvictFrame g (traverseUpTo g d a level).2
        (pageNumberOf g (parseAddress g a)) (traverseUpTo g d a level).1).1
      ≠ (traverseUpTo g d a level).1 ∧
    (∃ calls, (findFreeOrEvictFrame g (traverseUpTo g d a level).2
        (pageNumberOf g (parseAddress g a)) (traverseUpTo g d a level).1).2.journal
        = calls ++ (traverseUpTo g d a level).2.journal ∧
      ∀ frame page, Call.evict frame page ∈ calls → frame ≠ 0) ∧
    (∀ j t, j < level →
      walkFrom g (traverseUpTo g d a level).2 0 ((parseAddress g a).take j) = some t →
      (findFreeOrEvictFrame g (traverseUpTo g d a level).2
        (pageNumberOf g (parseAddress g a)) (traverseUpTo g d a level).1).2.ram
          (t * PAGE_SIZE g + (parseAddress g a).getD j 0)
        = (traverseUpTo g d a level).2.ram (t * PAGE_SIZE g + (parseAddress g a).getD j 0) ∧
      (traverseUpTo g d a level).2.ram (t * PAGE_SIZE g + (parseAddress g a).getD j 0) ≠ 0) ∧
    Resident g (findFreeOrEvictFrame g (traverseUpTo g d a level).2
        (pageNumberOf g (parseAddress g a)) (traverseUpTo g d a level).1).2
      ((parseAddress g a).take level) (traverseUpTo g d a level).1 := by
  have hNF' : g.TABLES_DEPTH < g.NUM_FRAMES := by omega
  obtain ⟨hinv, hc, _⟩ := traverseUpTo_spec g d (hd.inv hNF') hNF' a level (by omega)
  have hlen : (((parseAddress g a).take g.TABLES_DEPTH).take level).length = level := by
    simp [parseAddress_length]; omega
  have hPn := fault_not_resident g _ a level _ hlevel hc hfault
  obtain ⟨nf, d1, hff, hnf0, hnfl, hnfc, hres, _, hram, _, hj⟩ :=
    findFree_spec g _ hinv hNF' _ _ hc (by rw [hlen]; exact hlevel) _ (pagePath_valid g a)
      (pagePath_length g a) hPn
  rw [pageNumberOf_eq, hff]
  simp only
  have htake : ∀ j, j ≤ level →
      ((parseAddress g a).take g.TABLES_DEPTH).take j = (parseAddress g a).take j := by
    intro j hj'
    rw [List.take_take, Nat.min_eq_left (by omega)]
  have hc1 : Resident g d1 ((parseAddress g a).take level) (traverseUpTo g d a level).1 := by
    rw [← htake level le_rfl]
    exact (hres _ _).mpr ⟨hc, hnfc.symm⟩
  refine ⟨by omega, hnfl, hnfc, ?_, ?_, hc1⟩
  · rcases hj with h | ⟨x, h⟩ | ⟨x, pg, h⟩
    · exact ⟨[], by rw [h]; rfl, by intro f p hm; cases hm⟩
    · refine ⟨[Call.write x 0], by rw [h]; rfl, ?_⟩
      intro f p hm
      simp at hm
    · refine ⟨[Call.write x 0, Call.evict nf pg], by rw [h]; rfl, ?_⟩
      intro f p hm
      simp at hm
      rw [hm.1]; exact hnf0
  · intro j t hjl ht
    have hsplit : (parseAddress g a).take level =
        (parseAddress g a).take (j + 1) ++ ((parseAddress g a).take level).drop (j + 1) := by
      have := List.take_append_drop (j + 1) ((parseAddress g a).take level)
      rw [List.take_take, Nat.min_eq_left (by omega)] at this
      exact this.symm
    have hj1 : (parseAddress g a).take (j + 1) =
        (parseAddress g a).take j ++ [(parseAddress g a).getD j 0] :=
      take_succ_getD _ _ (by rw [parseAddress_length]; omega)
    -- the entry is not null before the call
    have hbefore : Resident g (traverseUpTo g d a level).2 ((parseAddress g a).take level)
        (traverseUpTo g d a level).1 := by rw [← htake level le_rfl]; exact hc
    rw [hsplit] at hbefore hc1
    obtain ⟨y, hy⟩ := hbefore.prefix_left
    obtain ⟨y1, hy1⟩ := hc1.prefix_left
    rw [hj1] at hy hy1
    obtain ⟨x, hx, hx0, _, _, _⟩ := hy.snoc_inv
    obtain ⟨x1, hx1, hx10, _, _, _⟩ := hy1.snoc_inv
    have e : x = t := by simpa using hx.2.symm.trans ht
    subst e
    have hx1' := ((hres _ _).mp hx1).1
    have e1 : x1 = x := hx1'.unique hx
    subst e1
    refine ⟨?_, hx0⟩
    rcases hram (x1 * PAGE_SIZE g + (parseAddress g a).getD j 0) with h | ⟨h, _⟩
    · exact h
    · exact absurd h hx10

/-- Witness of C6: the fault at level 1 of the first write, `VMwrite(13, 3)`, on the
geometry of the scenarios, where the protected frame is the table just created. -/
theorem allocator_protects_path_witness :
    1 ≤ (findFreeOrEvictFrame demoGeometry coldFault.2
        (pageNumberOf demoGeometry (parseAddress demoGeometry 13)) coldFault.1).1 ∧
    (findFreeOrEvictFrame demoGeometry coldFault.2
        (pageNumberOf demoGeometry (parseAddress demoGeometry 13)) coldFault.1).1
      < demoGeometry.NUM_FRAMES ∧
    (findFreeOrEvictFrame demoGeometry coldFault.2
        (pageNumberOf demoGeometry (parseAddress demoGeometry 13)) coldFault.1).1 ≠ coldFault.1 ∧
    (∃ calls, (findFreeOrEvictFrame demoGeometry coldFault.2
        (pageNumberOf demoGeometry (parseAddress demoGeometry 13)) coldFault.1).2.journal
        = calls ++ coldFault.2.journal ∧
      ∀ frame page, Call.evict frame page ∈ calls → frame ≠ 0) ∧
    (∀ j t, j < 1 →
      walkFrom demoGeometry coldFault.2 0 ((parseAddress demoGeometry 13).take j) = some t →
      (findFreeOrEvictFrame demoGeometry coldFault.2
        (pageNumberOf demoGeometry (parseAddress demoGeometry 13)) coldFault.1).2.ram
          (t * PAGE_SIZE demoGeometry + (parseAddress demoGeometry 13).getD j 0)
        = coldFault.2.ram (t * PAGE_SIZE demoGeometry + (parseAddress demoGeometry 13).getD j 0) ∧
      coldFault.2.ram (t * PAGE_SIZE demoGeometry + (parseAddress demoGeometry 13).getD j 0) ≠ 0) ∧
    Resident demoGeometry (findFreeOrEvictFrame demoGeometry coldFault.2
        (pageNumberOf demoGeometry (parseAddress demoGeometry 13)) coldFault.1).2
      ((parseAddress demoGeometry 13).take 1) coldFault.1 :=
  allocator_protects_path demoGeometry (by decide) demoStart ⟨demoDevice, [], rfl⟩ 13
    (by decide) 1 (by decide) (by decide)

/-- C7, as amended. With `NUM_FRAMES > TABLES_DEPTH`, in every reachable state, whenever the
resolver faults and `findFreeOrEvictFrame` finds neither an empty table nor a never-used
frame, it calls `PMevict(victim, p)` for the frame `victim` it returns, the cyclic distance
between the faulting page and `p` is at least the cyclic distance between the faulting page
and the page number of every resident leaf, and `p` is the first page, in the order of the
scan, that attains this maximum. -/
theorem eviction_is_farthest (g : Geometry) (hNF : g.TABLES_DEPTH < g.NUM_FRAMES)
    (d : Device) (hd : Reachable g d) (a : Nat) (_ha : a < VIRTUAL_MEMORY_SIZE g)
    (level : Nat) (hlevel : level < g.TABLES_DEPTH)
    (hfault : (traverseUpTo g d a level).2.ram
      ((traverseUpTo g d a level).1 * PAGE_SIZE g + (parseAddress g a).getD level 0) = 0)
    (r : FrameSearchResult)
    (hr : r = scanTree g (traverseUpTo g d a level).2 (pageNumberOf g (parseAddress g a))
      (traverseUpTo g d a level).1)
    (h1 : r.emptyTable = 0) (h2 : ¬ r.maxUsedFrame + 1 < g.NUM_FRAMES) :
    (findFreeOrEvictFrame g (traverseUpTo g d a level).2
        (pageNumberOf g (parseAddress g a)) (traverseUpTo g d a level).1).2.journal
      = Call.write (r.bestEvictParent * PAGE_SIZE g + r.bestEvictOffset) 0 ::
          Call.evict (findFreeOrEvictFrame g (traverseUpTo g d a level).2
            (pageNumberOf g (parseAddress g a)) (traverseUpTo g d a level).1).1
            r.bestEvictPageNumber :: (traverseUpTo g d a level).2.journal ∧
    (∀ q ∈ leafPages g (traverseUpTo g d a level).2,
      computeCyclicDistance g (pageNumberOf g (parseAddress g a)) q ≤
        computeCyclicDistance g (pageNumberOf g (parseAddress g a)) r.bestEvictPageNumber) ∧
    ∃ l1 l2, leafPages g (traverseUpTo g d a level).2 = l1 ++ r.bestEvictPageNumber :: l2 ∧
      ∀ q ∈ l1, computeCyclicDistance g (pageNumberOf g (parseAddress g a)) q <
        computeCyclicDistance g (pageNumberOf g (parseAddress g a)) r.bestEvictPageNumber := by
  obtain ⟨hinv, hc, _⟩ := traverseUpTo_spec g d (hd.inv hNF) hNF a level (by omega)
  have hlen : (((parseAddress g a).take g.TABLES_DEPTH).take level).length = level := by
    simp [parseAddress_length]; omega
  have hPn := fault_not_resident g _ a level _ hlevel hc hfault
  rw [pageNumberOf_eq] at hr ⊢
  obtain ⟨q, _, _, _, _, hdist, _, hmax, hfirst, hff⟩ :=
    findFree_evict g _ hinv hNF _ _ hc (by rw [hlen]; exact hlevel) _ (pagePath_valid g a)
      (pagePath_length g a) hPn r hr h1 h2
  rw [hff]
  refine ⟨rfl, ?_, ?_⟩
  · intro pg hpg
    obtain ⟨p, x, hp, hl, rfl⟩ := (leafPages_mem g _ pg).mp hpg
    rw [← hdist]
    exact hmax p x hp hl
  · rw [← hdist]; exact hfirst

/-- Witness of C7 as amended, the forced-eviction scenario: after writes to the addresses
0, 16, 32 and 48 the write to address 64 (page 4) faults at level 1 with all six frames in
use and evicts page 0, held by frame 2. -/
theorem eviction_is_farthest_witness :
    ((findFreeOrEvictFrame demoGeometry demoFault.2
        (pageNumberOf demoGeometry (parseAddress demoGeometry 64)) demoFault.1).2.journal
      = Call.write (demoScan.bestEvictParent * PAGE_SIZE demoGeometry + demoScan.bestEvictOffset) 0 ::
          Call.evict (findFreeOrEvictFrame demoGeometry demoFault.2
            (pageNumberOf demoGeometry (parseAddress demoGeometry 64)) demoFault.1).1
            demoScan.bestEvictPageNumber :: demoFault.2.journal ∧
    (∀ q ∈ leafPages demoGeometry demoFault.2,
      computeCyclicDistance demoGeometry (pageNumberOf demoGeometry (parseAddress demoGeometry 64)) q ≤
        computeCyclicDistance demoGeometry (pageNumberOf demoGeometry (parseAddress demoGeometry 64))
          demoScan.bestEvictPageNumber) ∧
    ∃ l1 l2, leafPages demoGeometry demoFault.2 = l1 ++ demoScan.bestEvictPageNumber :: l2 ∧
      ∀ q ∈ l1,
        computeCyclicDistance demoGeometry (pageNumberOf demoGeometry (parseAddress demoGeometry 64)) q <
          computeCyclicDistance demoGeometry (pageNumberOf demoGeometry (parseAddress demoGeometry 64))
            demoScan.bestEvictPageNumber) ∧
    pageNumberOf demoGeometry (parseAddress demoGeometry 64) = 4 ∧
    demoScan.bestEvictPageNumber = 0 ∧
    (findFreeOrEvictFrame demoGeometry demoFault.2
      (pageNumberOf demoGeometry (parseAddress demoGeometry 64)) demoFault.1).1 = 2 ∧
    leafPages demoGeometry demoFault.2 = [0, 1, 2, 3] :=
  ⟨eviction_is_farthest demoGeometry (by decide) demoFull
    ⟨demoDevice, [Op.write 0 1, Op.write 16 2, Op.write 32 3, Op.write 48 4], rfl⟩ 64 (by decide)
    1 (by decide) (by decide) demoScan rfl (by decide) (by decide),
    by decide, by decide, by decide, by decide⟩

/-- Counterexample to C7 as stated, without a bound on `NUM_FRAMES`: on the geometry
`OFFSET_WIDTH = 1`, `TABLES_DEPTH = 2`, `NUM_FRAMES = 2`, the first write after
`VMinitialize` faults at level 1 with no empty table and no unused frame, the allocator
calls `PMevict(1, 0)`, and no leaf is resident: page 0 is not the page of a resident leaf. -/
theorem eviction_without_leaf :
    Reachable tightGeometry ( VMinitialize tightGeometry demoDevice) ∧
    (0 : Nat) < VIRTUAL_MEMORY_SIZE tightGeometry ∧
    1 < tightGeometry.TABLES_DEPTH ∧
    (traverseUpTo tightGeometry ( VMinitialize tightGeometry demoDevice) 0 1).2.ram
      ((traverseUpTo tightGeometry ( VMinitialize tightGeometry demoDevice) 0 1).1 *
        PAGE_SIZE tightGeometry + (parseAddress tightGeometry 0).getD 1 0) = 0 ∧
    (scanTree tightGeometry (traverseUpTo tightGeometry ( VMinitialize tightGeometry demoDevice) 0 1).2
      (pageNumberOf tightGeometry (parseAddress tightGeometry 0))
      (traverseUpTo tightGeometry ( VMinitialize tightGeometry demoDevice) 0 1).1).emptyTable = 0 ∧
    ¬ (scanTree tightGeometry (traverseUpTo tightGeometry ( VMinitialize tightGeometry demoDevice) 0 1).2
      (pageNumberOf tightGeometry (parseAddress tightGeometry 0))
      (traverseUpTo tightGeometry ( VMinitialize tightGeometry demoDevice) 0 1).1).maxUsedFrame + 1
        < tightGeometry.NUM_FRAMES ∧
    (findFreeOrEvictFrame tightGeometry
      (traverseUpTo tightGeometry ( VMinitialize tightGeometry demoDevice) 0 1).2
      (pageNumberOf tightGeometry (parseAddress tightGeometry 0))
      (traverseUpTo tightGeometry ( VMinitialize tightGeometry demoDevice) 0 1).1).2.journal.take 2
      = [Call.write 0 0, Call.evict 1 0] ∧
    ¬ ∃ l1 l2, leafPages tightGeometry
      (traverseUpTo tightGeometry ( VMinitialize tightGeometry demoDevice) 0 1).2
        = l1 ++ (0 : Nat) :: l2 := by
  refine ⟨⟨demoDevice, [], rfl⟩, by decide, by decide, by decide, by decide, by decide,
    by decide, ?_⟩
  rintro ⟨l1, l2, h⟩
  have hnil : leafPages tightGeometry
      (traverseUpTo tightGeometry ( VMinitialize tightGeometry demoDevice) 0 1).2 = [] := by
    decide
  rw [hnil] at h
  simp at h

/-- C8. Parent uniqueness. With `NUM_FRAMES > TABLES_DEPTH + 1`, after `VMinitialize` and
after every later `VMread`/`VMwrite` call, every non-zero entry of a table of the tree is a
frame index in `[1, NUM_FRAMES)`, every frame of the tree other than the root is the value of
exactly one entry of a table of the tree, and a frame is reached from the root along one
path only (no shared children, no cycles, frame 0 is nobody's child). -/
theorem parent_uniqueness (g : Geometry) (hNF : g.TABLES_DEPTH + 1 < g.NUM_FRAMES)
    (d : Device) (hd : Reachable g d) :
    (∀ p t o, Resident g d p t → p.length < g.TABLES_DEPTH → o < PAGE_SIZE g →
      d.ram (t * PAGE_SIZE g + o) ≠ 0 →
      1 ≤ d.ram (t * PAGE_SIZE g + o) ∧ d.ram (t * PAGE_SIZE g + o) < (g.NUM_FRAMES : Int)) ∧
    (∀ p f, Resident g d p f → f ≠ 0 →
      ∃! e : Nat × Nat, (∃ q, Resident g d q e.1 ∧ q.length < g.TABLES_DEPTH) ∧
        e.2 < PAGE_SIZE g ∧ d.ram (e.1 * PAGE_SIZE g + e.2) = (f : Int)) ∧
    (∀ p q f, Resident g d p f → Resident g d q f → p = q) ∧
    (∀ p, p ≠ [] → ¬ Resident g d p 0) := by
  have hinv := hd.inv (by omega : g.TABLES_DEPTH < g.NUM_FRAMES)
  refine ⟨?_, ?_, hinv.inj, ?_⟩
  · intro p t o hp hl ho hne
    have h0 := hinv.nonneg p t o hp hl ho
    have hchild := hp.snoc hl ho hne
    obtain ⟨k, hk, hkiff⟩ := hinv.range
    have := (hkiff _).mp ⟨_, hchild⟩
    omega
  · intro p f hp hf0
    rcases List.eq_nil_or_concat p with rfl | ⟨q, o, rfl⟩
    · exact absurd (hp.unique (Resident.root g d)) hf0
    · rw [List.concat_eq_append] at hp
      obtain ⟨x, hx, hx0, hxe, ho, hlq⟩ := hp.snoc_inv
      have hent : d.ram (x * PAGE_SIZE g + o) = (f : Int) := by
        have := hinv.nonneg q x o hx hlq ho
        omega
      refine ⟨(x, o), ⟨⟨q, hx, hlq⟩, ho, hent⟩, ?_⟩
      rintro ⟨t', o'⟩ ⟨⟨q', hq', hlq'⟩, ho', hent'⟩
      simp only at hq' ho' hent'
      have hne' : d.ram (t' * PAGE_SIZE g + o') ≠ 0 := by
        rw [hent']; exact_mod_cast hf0
      have hres := hq'.snoc hlq' ho' hne'
      rw [hent', Int.toNat_ofNat] at hres
      have e := hinv.inj _ _ _ hres hp
      obtain ⟨e1, e2⟩ := List.append_inj' e rfl
      have e3 : o' = o := by simpa using e2
      subst e1 e3
      rw [hq'.unique hx]
  · intro p hp0 hp
    exact hp0 (hinv.inj _ _ _ hp (Resident.root g d))

/-- Witness of C8: the state of the scenarios in which all six frames are in use. -/
theorem parent_uniqueness_witness :
    (∀ p t o, Resident demoGeometry demoFull p t → p.length < demoGeometry.TABLES_DEPTH → o < PAGE_SIZE demoGeometry →
      demoFull.ram (t * PAGE_SIZE demoGeometry + o) ≠ 0 →
      1 ≤ demoFull.ram (t * PAGE_SIZE demoGeometry + o) ∧ demoFull.ram (t * PAGE_SIZE demoGeometry + o) < (demoGeometry.NUM_FRAMES : Int)) ∧
    (∀ p f, Resident demoGeometry demoFull p f → f ≠ 0 →
      ∃! e : Nat × Nat, (∃ q, Resident demoGeometry demoFull q e.1 ∧ q.length < demoGeometry.TABLES_DEPTH) ∧
        e.2 < PAGE_SIZE demoGeometry ∧ demoFull.ram (e.1 * PAGE_SIZE demoGeometry + e.2) = (f : Int)) ∧
    (∀ p q f, Resident demoGeometry demoFull p f → Resident demoGeometry demoFull q f → p = q) ∧
    (∀ p, p ≠ [] → ¬ Resident demoGeometry demoFull p 0) :=
  parent_uniqueness demoGeometry (by decide) demoFull
    ⟨demoDevice, [Op.write 0 1, Op.write 16 2, Op.write 32 3, Op.write 48 4], rfl⟩

/-- C9. Cold write. For every initial content of physical memory, with an empty backing
store and `NUM_FRAMES > TABLES_DEPTH`, the first `VMwrite(a, w)` after `VMinitialize` with
`a < VIRTUAL_MEMORY_SIZE` returns 1; it faults at every level and the allocator supplies the
frames `1, 2, ..., TABLES_DEPTH` in that order; afterwards the entry of frame `level` on the
path of `a` is `level + 1`, every other entry of the tables `0, ..., TABLES_DEPTH - 1` is 0,
and `w` is stored at physical address `TABLES_DEPTH * PAGE_SIZE + (a mod PAGE_SIZE)`; a
following `VMread(a, &r)` returns 1 with `r == w`. -/
theorem cold_write (g : Geometry) (hNF : g.TABLES_DEPTH < g.NUM_FRAMES) (d0 : Device)
    (hswap : ∀ p, d0.swap p = none) (a : Nat) (ha : a < VIRTUAL_MEMORY_SIZE g) (w : Int) :
    (VMwrite g ( VMinitialize g d0) a w).1 = 1 ∧
    (∀ level, level < g.TABLES_DEPTH →
      (traverseUpTo g ( VMinitialize g d0) a level).2.ram
        ((traverseUpTo g ( VMinitialize g d0) a level).1 * PAGE_SIZE g +
          (parseAddress g a).getD level 0) = 0 ∧
      (findFreeOrEvictFrame g (traverseUpTo g ( VMinitialize g d0) a level).2
        (pageNumberOf g (parseAddress g a)) (traverseUpTo g ( VMinitialize g d0) a level).1).1
        = level + 1) ∧
    (∀ level, level < g.TABLES_DEPTH →
      (VMwrite g ( VMinitialize g d0) a w).2.ram
        (level * PAGE_SIZE g + (parseAddress g a).getD level 0) = ((level + 1 : Nat) : Int)) ∧
    (∀ level o, level < g.TABLES_DEPTH → o < PAGE_SIZE g →
      o ≠ (parseAddress g a).getD level 0 →
      (VMwrite g ( VMinitialize g d0) a w).2.ram (level * PAGE_SIZE g + o) = 0) ∧
    (VMwrite g ( VMinitialize g d0) a w).2.ram (g.TABLES_DEPTH * PAGE_SIZE g + a % PAGE_SIZE g) = w ∧
    (VMread g (VMwrite g ( VMinitialize g d0) a w).2 a true).ret = 1 ∧
    (VMread g (VMwrite g ( VMinitialize g d0) a w).2 a true).stored = some w := by
  have hinit := VMinitialize_inv g d0 (by omega : 0 < g.NUM_FRAMES)
  obtain ⟨h1, h2, h3, _⟩ := VMwrite_spec g _ hinit hNF a ha w
  obtain ⟨k1, k2, _, _⟩ := VMread_spec g _ h2 hNF a ha
  obtain ⟨c1, _, _, _, c5, c6⟩ := cold_chain g hNF d0 hswap a g.TABLES_DEPTH le_rfl
  have hoff : (parseAddress g a).getD g.TABLES_DEPTH 0 = a % PAGE_SIZE g := by
    rw [parseAddress_getD g a _ le_rfl]; simp
  have hv : (VMwrite g ( VMinitialize g d0) a w).2 =
      PMwrite (traverseUpTo g ( VMinitialize g d0) a g.TABLES_DEPTH).2
        (g.TABLES_DEPTH * PAGE_SIZE g + a % PAGE_SIZE g) w := by
    unfold VMwrite
    rw [if_neg (by omega), traverseTree_eq]
    simp only [c1, hoff]
  have hlt : a % PAGE_SIZE g < PAGE_SIZE g := Nat.mod_lt _ (PAGE_SIZE_pos g)
  refine ⟨h1, ?_, ?_, ?_, ?_, k1, by rw [k2, h3]⟩
  · intro level hlevel
    obtain ⟨e1, _, _, _, _, e6⟩ := cold_chain g hNF d0 hswap a level (by omega)
    obtain ⟨f1, _⟩ := cold_chain g hNF d0 hswap a (level + 1) (by omega)
    have hz : (traverseUpTo g ( VMinitialize g d0) a level).2.ram
        ((traverseUpTo g ( VMinitialize g d0) a level).1 * PAGE_SIZE g +
          (parseAddress g a).getD level 0) = 0 := by
      rw [e1]
      exact e6 level _ le_rfl (parseAddress_getD_lt g a level) (Or.inl rfl)
    refine ⟨hz, ?_⟩
    rw [traverseUpTo_succ] at f1
    unfold traverseStep at f1
    simp only [PMread_eq, hz, if_true] at f1
    exact f1
  · intro level hlevel
    rw [hv, PMwrite_ram, if_neg]
    · exact c5 level hlevel
    · intro e
      have := (frame_addr_inj g (parseAddress_getD_lt g a level) hlt e).1
      omega
  · intro level o hlevel ho hne
    rw [hv, PMwrite_ram, if_neg]
    · exact c6 level o (by omega) ho (Or.inr hne)
    · intro e
      have := (frame_addr_inj g ho hlt e).1
      omega
  · rw [hv, PMwrite_ram, if_pos rfl]

/-- Witness of C9 on the geometry of the scenarios: `VMwrite(13, 3)` on a memory filled with
non-zero words leaves word 0 of frame 0 equal to 1, word 0 of frame 1 equal to 2 and physical
word 45 equal to 3. -/
theorem cold_write_witness :
    ((VMwrite demoGeometry ( VMinitialize demoGeometry demoDevice) 13 3).1 = 1 ∧
    (∀ level, level < demoGeometry.TABLES_DEPTH →
      (traverseUpTo demoGeometry ( VMinitialize demoGeometry demoDevice) 13 level).2.ram
        ((traverseUpTo demoGeometry ( VMinitialize demoGeometry demoDevice) 13 level).1 *
          PAGE_SIZE demoGeometry + (parseAddress demoGeometry 13).getD level 0) = 0 ∧
      (findFreeOrEvictFrame demoGeometry
        (traverseUpTo demoGeometry ( VMinitialize demoGeometry demoDevice) 13 level).2
        (pageNumberOf demoGeometry (parseAddress demoGeometry 13))
        (traverseUpTo demoGeometry ( VMinitialize demoGeometry demoDevice) 13 level).1).1
        = level + 1) ∧
    (∀ level, level < demoGeometry.TABLES_DEPTH →
      (VMwrite demoGeometry ( VMinitialize demoGeometry demoDevice) 13 3).2.ram
        (level * PAGE_SIZE demoGeometry + (parseAddress demoGeometry 13).getD level 0)
        = ((level + 1 : Nat) : Int)) ∧
    (∀ level o, level < demoGeometry.TABLES_DEPTH → o < PAGE_SIZE demoGeometry →
      o ≠ (parseAddress demoGeometry 13).getD level 0 →
      (VMwrite demoGeometry ( VMinitialize demoGeometry demoDevice) 13 3).2.ram
        (level * PAGE_SIZE demoGeometry + o) = 0) ∧
    (VMwrite demoGeometry ( VMinitialize demoGeometry demoDevice) 13 3).2.ram
      (demoGeometry.TABLES_DEPTH * PAGE_SIZE demoGeometry + 13 % PAGE_SIZE demoGeometry) = 3 ∧
    (VMread demoGeometry (VMwrite demoGeometry ( VMinitialize demoGeometry demoDevice) 13 3).2
      13 true).ret = 1 ∧
    (VMread demoGeometry (VMwrite demoGeometry ( VMinitialize demoGeometry demoDevice) 13 3).2
      13 true).stored = some 3) ∧
    (VMwrite demoGeometry ( VMinitialize demoGeometry demoDevice) 13 3).2.ram 0 = 1 ∧
    (VMwrite demoGeometry ( VMinitialize demoGeometry demoDevice) 13 3).2.ram 16 = 2 ∧
    (VMwrite demoGeometry ( VMinitialize demoGeometry demoDevice) 13 3).2.ram 45 = 3 :=
  ⟨cold_write demoGeometry (by decide) demoDevice (fun _ => rfl) 13 (by decide) 3,
    by decide, by decide, by decide⟩

/-- C10. Address parser round trip. For every virtual address below
`VIRTUAL_MEMORY_SIZE`, `parseAddress` (the same loop in both variants) fills
`indices[0..TABLES_DEPTH]` with values below `PAGE_SIZE` whose weighted sum
`Σ indices[i] * PAGE_SIZE ^ (TABLES_DEPTH - i)` is the address: the fields are stored most
significant first and `indices[TABLES_DEPTH]` is the in-page offset.  The machine types of
the source hold these values: the address is a `uint64_t`, `1 << OFFSET_WIDTH` and the mask
`(1 << OFFSET_WIDTH) - 1` are values of `int`, the mask is `PAGE_SIZE - 1`, and every index
is a value of `word_t`. -/
theorem parseAddress_round_trip (g : Geometry) (a : Nat) (ha : a < VIRTUAL_MEMORY_SIZE g) :
    VIRTUAL_MEMORY_SIZE g = 2 ^ (g.OFFSET_WIDTH * (g.TABLES_DEPTH + 1)) ∧
    (parseAddress g a).length = g.TABLES_DEPTH + 1 ∧
    (∀ i, i ≤ g.TABLES_DEPTH → (parseAddress g a).getD i 0 < PAGE_SIZE g) ∧
    (∑ i in Finset.range (g.TABLES_DEPTH + 1),
        (parseAddress g a).getD i 0 * PAGE_SIZE g ^ (g.TABLES_DEPTH - i)) = a ∧
    (parseAddress g a).getD g.TABLES_DEPTH 0 = a % PAGE_SIZE g ∧
    yaara.parseAddress g a = parseAddress g a ∧
    a < 2 ^ 64 ∧
    1 <<< g.OFFSET_WIDTH < 2 ^ 31 ∧
    (1 <<< g.OFFSET_WIDTH) - 1 = PAGE_SIZE g - 1 ∧
    (∀ i, i ≤ g.TABLES_DEPTH →
      (parseAddress g a).getD i 0 = (a >>> (g.OFFSET_WIDTH * (g.TABLES_DEPTH - i))) &&&
        ((1 <<< g.OFFSET_WIDTH) - 1)) ∧
    (∀ i, i ≤ g.TABLES_DEPTH → (parseAddress g a).getD i 0 < 2 ^ 31) := by
  have hps : PAGE_SIZE g < 2 ^ 31 := by
    rw [PAGE_SIZE_eq]
    exact Nat.pow_lt_pow_right (by norm_num) g.indexFits
  refine ⟨?_, parseAddress_length g a, fun i _ => parseAddress_getD_lt g a i,
    parseAddress_sum g a ha, ?_, rfl, lt_trans ha (VIRTUAL_MEMORY_SIZE_lt g), hps, rfl, ?_, ?_⟩
  · rw [VIRTUAL_MEMORY_SIZE_eq, PAGE_SIZE_eq, ← pow_mul]
  · rw [parseAddress_getD g a _ le_rfl]; simp
  · intro i hi
    rw [parseAddress_getD g a i hi, Nat.one_shiftLeft, Nat.and_pow_two_sub_one_eq_mod,
      Nat.shiftRight_eq_div_pow, PAGE_SIZE_eq, ← pow_mul]
  · intro i _
    exact lt_trans (parseAddress_getD_lt g a i) hps

/-- Witness of C10: address 13 on the geometry of the scenarios, parsed into the indices
0, 0 and 13. -/
theorem parseAddress_round_trip_witness :
    (VIRTUAL_MEMORY_SIZE demoGeometry =
      2 ^ (demoGeometry.OFFSET_WIDTH * (demoGeometry.TABLES_DEPTH + 1)) ∧
    (parseAddress demoGeometry 13).length = demoGeometry.TABLES_DEPTH + 1 ∧
    (∀ i, i ≤ demoGeometry.TABLES_DEPTH →
      (parseAddress demoGeometry 13).getD i 0 < PAGE_SIZE demoGeometry) ∧
    (∑ i in Finset.range (demoGeometry.TABLES_DEPTH + 1),
        (parseAddress demoGeometry 13).getD i 0 *
          PAGE_SIZE demoGeometry ^ (demoGeometry.TABLES_DEPTH - i)) = 13 ∧
    (parseAddress demoGeometry 13).getD demoGeometry.TABLES_DEPTH 0 = 13 % PAGE_SIZE demoGeometry ∧
    yaara.parseAddress demoGeometry 13 = parseAddress demoGeometry 13 ∧
    13 < 2 ^ 64 ∧
    1 <<< demoGeometry.OFFSET_WIDTH < 2 ^ 31 ∧
    (1 <<< demoGeometry.OFFSET_WIDTH) - 1 = PAGE_SIZE demoGeometry - 1 ∧
    (∀ i, i ≤ demoGeometry.TABLES_DEPTH →
      (parseAddress demoGeometry 13).getD i 0 =
        (13 >>> (demoGeometry.OFFSET_WIDTH * (demoGeometry.TABLES_DEPTH - i))) &&&
          ((1 <<< demoGeometry.OFFSET_WIDTH) - 1)) ∧
    (∀ i, i ≤ demoGeometry.TABLES_DEPTH → (parseAddress demoGeometry 13).getD i 0 < 2 ^ 31)) ∧
    parseAddress demoGeometry 13 = [0, 0, 13] ∧
    parseAddress demoGeometry 2748 = [10, 11, 12] :=
  ⟨parseAddress_round_trip demoGeometry 13 (by decide), by decide, by decide⟩

/-- C11. Page-number derivation. For every virtual address below `VIRTUAL_MEMORY_SIZE`, the
page number that `traverseTree` builds by folding the first `TABLES_DEPTH` parsed indices
with `(p << OFFSET_WIDTH) | index` equals `a >> OFFSET_WIDTH` and lies below `NUM_PAGES`;
at a fault it is the target page handed to `findFreeOrEvictFrame`, and at a leaf fault the
page handed to `PMrestore`. -/
theorem page_number_derivation (g : Geometry) (a : Nat) (ha : a < VIRTUAL_MEMORY_SIZE g) :
    pageNumberOf g (parseAddress g a) = a >>> g.OFFSET_WIDTH ∧
    pageNumberOf g (parseAddress g a) < NUM_PAGES g ∧
    ∀ (st : Nat × Device) (level : Nat),
      PMread st.2 (st.1 * PAGE_SIZE g + (parseAddress g a).getD level 0) = 0 →
      traverseStep g (parseAddress g a) (pageNumberOf g (parseAddress g a)) st level =
        ((findFreeOrEvictFrame g st.2 (a >>> g.OFFSET_WIDTH) st.1).1,
          PMwrite
            (if level < g.TABLES_DEPTH - 1 then
              clearFrame g (findFreeOrEvictFrame g st.2 (a >>> g.OFFSET_WIDTH) st.1).2
                (findFreeOrEvictFrame g st.2 (a >>> g.OFFSET_WIDTH) st.1).1
            else
              PMrestore g (findFreeOrEvictFrame g st.2 (a >>> g.OFFSET_WIDTH) st.1).2
                (findFreeOrEvictFrame g st.2 (a >>> g.OFFSET_WIDTH) st.1).1
                (a >>> g.OFFSET_WIDTH))
            (st.1 * PAGE_SIZE g + (parseAddress g a).getD level 0)
            ((findFreeOrEvictFrame g st.2 (a >>> g.OFFSET_WIDTH) st.1).1 : Int)) := by
  refine ⟨pageNumberOf_shift g a ha, pageNumberOf_lt g a, ?_⟩
  intro st level hz
  unfold traverseStep
  simp only [hz, if_true, pageNumberOf_shift g a ha]

/-- Witness of C11: address 77 on the geometry of the scenarios, page 4. -/
theorem page_number_derivation_witness :
    (pageNumberOf demoGeometry (parseAddress demoGeometry 77) = 77 >>> demoGeometry.OFFSET_WIDTH ∧
    pageNumberOf demoGeometry (parseAddress demoGeometry 77) < NUM_PAGES demoGeometry ∧
    ∀ (st : Nat × Device) (level : Nat),
      PMread st.2 (st.1 * PAGE_SIZE demoGeometry + (parseAddress demoGeometry 77).getD level 0) = 0 →
      traverseStep demoGeometry (parseAddress demoGeometry 77)
          (pageNumberOf demoGeometry (parseAddress demoGeometry 77)) st level =
        ((findFreeOrEvictFrame demoGeometry st.2 (77 >>> demoGeometry.OFFSET_WIDTH) st.1).1,
          PMwrite
            (if level < demoGeometry.TABLES_DEPTH - 1 then
              clearFrame demoGeometry
                (findFreeOrEvictFrame demoGeometry st.2 (77 >>> demoGeometry.OFFSET_WIDTH) st.1).2
                (findFreeOrEvictFrame demoGeometry st.2 (77 >>> demoGeometry.OFFSET_WIDTH) st.1).1
            else
              PMrestore demoGeometry
                (findFreeOrEvictFrame demoGeometry st.2 (77 >>> demoGeometry.OFFSET_WIDTH) st.1).2
                (findFreeOrEvictFrame demoGeometry st.2 (77 >>> demoGeometry.OFFSET_WIDTH) st.1).1
                (77 >>> demoGeometry.OFFSET_WIDTH))
            (st.1 * PAGE_SIZE demoGeometry + (parseAddress demoGeometry 77).getD level 0)
            ((findFreeOrEvictFrame demoGeometry st.2 (77 >>> demoGeometry.OFFSET_WIDTH) st.1).1 : Int))) ∧
    pageNumberOf demoGeometry (parseAddress demoGeometry 77) = 4 :=
  ⟨page_number_derivation demoGeometry 77 (by decide), by decide⟩

/-- C12. Cyclic distance. For all page numbers `a`, `b` below `NUM_PAGES`, the subtraction
`NUM_PAGES - |a - b|` does not wrap around, `computeCyclicDistance(a, b)` equals
`min(|a - b|, NUM_PAGES - |a - b|)`, it is symmetric, at most `NUM_PAGES / 2`, and 0 exactly
when `a == b`. -/
theorem cyclic_distance_spec (g : Geometry) (a b : Nat) (ha : a < NUM_PAGES g)
    (hb : b < NUM_PAGES g) :
    (max a b - min a b ≤ NUM_PAGES g ∧
      (NUM_PAGES g + 2 ^ 64 - (max a b - min a b) % 2 ^ 64) % 2 ^ 64 =
        NUM_PAGES g - (max a b - min a b)) ∧
    computeCyclicDistance g a b = min (max a b - min a b) (NUM_PAGES g - (max a b - min a b)) ∧
    computeCyclicDistance g a b = computeCyclicDistance g b a ∧
    computeCyclicDistance g a b ≤ NUM_PAGES g / 2 ∧
    (computeCyclicDistance g a b = 0 ↔ a = b) := by
  have hN : NUM_PAGES g < 2 ^ 64 := by
    have h1 := VIRTUAL_MEMORY_SIZE_lt g
    have h2 : NUM_PAGES g ≤ VIRTUAL_MEMORY_SIZE g :=
      Nat.le_mul_of_pos_right _ (PAGE_SIZE_pos g)
    omega
  have hd : ∀ x y : Nat, (if x > y then x - y else y - x) = max x y - min x y := by
    intro x y
    split <;> omega
  have e1 := computeCyclicDistance_eq g a b ha hb
  have e2 := computeCyclicDistance_eq g b a hb ha
  rw [hd] at e1 e2
  have hsym : max b a - min b a = max a b - min a b := by omega
  rw [hsym] at e2
  have hlt : max a b - min a b < NUM_PAGES g := by omega
  have hzero : max a b - min a b = 0 ↔ a = b := by omega
  rw [e1, e2]
  generalize max a b - min a b = diff at hlt hzero ⊢
  refine ⟨⟨by omega, ?_⟩, rfl, rfl, by omega, ?_⟩
  · have h1 : diff % 2 ^ 64 = diff := Nat.mod_eq_of_lt (by omega)
    have h2 : NUM_PAGES g + 2 ^ 64 - diff = (NUM_PAGES g - diff) + 2 ^ 64 := by omega
    rw [h1, h2, Nat.add_mod_right, Nat.mod_eq_of_lt (by omega)]
  · rw [← hzero]; omega

/-- Witness of C12: the pages 4 and 250 of the 256 pages of the scenarios, at distance 10. -/
theorem cyclic_distance_spec_witness :
    ((max 4 250 - min 4 250 ≤ NUM_PAGES demoGeometry ∧
      (NUM_PAGES demoGeometry + 2 ^ 64 - (max 4 250 - min 4 250) % 2 ^ 64) % 2 ^ 64 =
        NUM_PAGES demoGeometry - (max 4 250 - min 4 250)) ∧
    computeCyclicDistance demoGeometry 4 250 =
      min (max 4 250 - min 4 250) (NUM_PAGES demoGeometry - (max 4 250 - min 4 250)) ∧
    computeCyclicDistance demoGeometry 4 250 = computeCyclicDistance demoGeometry 250 4 ∧
    computeCyclicDistance demoGeometry 4 250 ≤ NUM_PAGES demoGeometry / 2 ∧
    (computeCyclicDistance demoGeometry 4 250 = 0 ↔ 4 = 250)) ∧
    computeCyclicDistance demoGeometry 4 250 = 10 :=
  ⟨cyclic_distance_spec demoGeometry 4 250 (by decide) (by decide), by decide⟩

/-- C13, as amended. Priority 1 (empty-table reuse). With `NUM_FRAMES > TABLES_DEPTH`, in
every state in which the resolver of a reachable device can call the allocator, and for every
target page and protected frame: if the tree contains a table at depth below `TABLES_DEPTH`
whose `PAGE_SIZE` entries are all 0 and which is neither frame 0 nor `avoidFrame`, then
`findFreeOrEvictFrame` returns the first such table in the order of the scan (entries by
ascending offset, a table examined after its children), whatever the scan found about unused
frames and eviction candidates; it writes 0 to the one entry of the tree that pointed to that
table, changes no other word of memory and makes no other device call. -/
theorem empty_table_reuse (g : Geometry) (hNF : g.TABLES_DEPTH < g.NUM_FRAMES)
    (d : Device) (hd : Reachable g d) (a level : Nat) (hlevel : level ≤ g.TABLES_DEPTH)
    (st : Nat × Device) (hst : st = traverseUpTo g d a level)
    (targetPage avoidFrame : Nat)
    (p : List Nat) (x : Nat) (hp : Resident g st.2 p x) (hl : p.length < g.TABLES_DEPTH)
    (hz : ∀ o, o < PAGE_SIZE g → st.2.ram (x * PAGE_SIZE g + o) = 0)
    (hx0 : x ≠ 0) (hxa : x ≠ avoidFrame) :
    ∃ par j l1 l2,
      visits g st.2 g.TABLES_DEPTH 0 0 0 0 =
        l1 ++ Visit.table (findFreeOrEvictFrame g st.2 targetPage avoidFrame).1 par true :: l2 ∧
      (∀ f par', Visit.table f par' true ∈ l1 → f = 0 ∨ f = avoidFrame) ∧
      (findFreeOrEvictFrame g st.2 targetPage avoidFrame).1 ≠ 0 ∧
      (findFreeOrEvictFrame g st.2 targetPage avoidFrame).1 ≠ avoidFrame ∧
      (∃ q i, Resident g st.2 (q ++ [i]) (findFreeOrEvictFrame g st.2 targetPage avoidFrame).1 ∧
        (q ++ [i]).length < g.TABLES_DEPTH ∧ Resident g st.2 q par ∧
        ∀ o, o < PAGE_SIZE g →
          st.2.ram ((findFreeOrEvictFrame g st.2 targetPage avoidFrame).1 * PAGE_SIZE g + o) = 0) ∧
      j < PAGE_SIZE g ∧
      st.2.ram (par * PAGE_SIZE g + j) =
        ((findFreeOrEvictFrame g st.2 targetPage avoidFrame).1 : Int) ∧
      (∀ q' x' o', Resident g st.2 q' x' → q'.length < g.TABLES_DEPTH → o' < PAGE_SIZE g →
        st.2.ram (x' * PAGE_SIZE g + o') =
          ((findFreeOrEvictFrame g st.2 targetPage avoidFrame).1 : Int) →
        x' = par ∧ o' = j) ∧
      (findFreeOrEvictFrame g st.2 targetPage avoidFrame).2 =
        PMwrite st.2 (par * PAGE_SIZE g + j) 0 ∧
      (∀ w, (findFreeOrEvictFrame g st.2 targetPage avoidFrame).2.ram w =
        if w = par * PAGE_SIZE g + j then 0 else st.2.ram w) ∧
      (findFreeOrEvictFrame g st.2 targetPage avoidFrame).2.swap = st.2.swap ∧
      (findFreeOrEvictFrame g st.2 targetPage avoidFrame).2.journal =
        Call.write (par * PAGE_SIZE g + j) 0 :: st.2.journal := by
  subst hst
  obtain ⟨hinv, _, _⟩ := resolver_state g hNF d hd a level hlevel
  have h1 : (scanTree g (traverseUpTo g d a level).2 targetPage avoidFrame).emptyTable ≠ 0 := by
    intro h0
    rcases scan_empty_none g _ targetPage avoidFrame h0 p x hp hl hz with h | h
    · exact hx0 h
    · exact hxa h
  obtain ⟨q, i, j, he, hlen, hq, hzero, hne, hj, hent, hff⟩ :=
    findFree_reuse_any g _ targetPage avoidFrame h1
  obtain ⟨l1, l2, hvis, hfirst⟩ := scan_empty_first g _ targetPage avoidFrame h1
  have hlq : q.length < g.TABLES_DEPTH := by simp at hlen; omega
  rw [hff]
  exact ⟨_, j, l1, l2, hvis, hfirst, h1, hne, ⟨q, i, he, hlen, hq, hzero⟩, hj, hent,
    fun q' x' o' hq' hl' ho' hent' =>
      entry_unique g _ hinv q _ j _ h1 hq hlq hj hent q' x' o' hq' hl' ho' hent',
    rfl, fun _ => rfl, rfl, rfl⟩

/-- Witness of C13 as amended, the empty-table scenario: on `demoSparse` all six frames are
in use and the table of frame 3 lost its only child; at the fault of `VMwrite(48, 5)` (page 3,
current frame 1) the allocator returns frame 3 and clears entry 1 of the root. -/
theorem empty_table_reuse_witness :
    (∃ par j l1 l2,
      visits demoGeometry sparseFault.2 demoGeometry.TABLES_DEPTH 0 0 0 0 =
        l1 ++ Visit.table (findFreeOrEvictFrame demoGeometry sparseFault.2 3 1).1 par true :: l2 ∧
      (∀ f par', Visit.table f par' true ∈ l1 → f = 0 ∨ f = 1) ∧
      (findFreeOrEvictFrame demoGeometry sparseFault.2 3 1).1 ≠ 0 ∧
      (findFreeOrEvictFrame demoGeometry sparseFault.2 3 1).1 ≠ 1 ∧
      (∃ q i, Resident demoGeometry sparseFault.2 (q ++ [i])
          (findFreeOrEvictFrame demoGeometry sparseFault.2 3 1).1 ∧
        (q ++ [i]).length < demoGeometry.TABLES_DEPTH ∧
        Resident demoGeometry sparseFault.2 q par ∧
        ∀ o, o < PAGE_SIZE demoGeometry →
          sparseFault.2.ram ((findFreeOrEvictFrame demoGeometry sparseFault.2 3 1).1 *
            PAGE_SIZE demoGeometry + o) = 0) ∧
      j < PAGE_SIZE demoGeometry ∧
      sparseFault.2.ram (par * PAGE_SIZE demoGeometry + j) =
        ((findFreeOrEvictFrame demoGeometry sparseFault.2 3 1).1 : Int) ∧
      (∀ q' x' o', Resident demoGeometry sparseFault.2 q' x' →
        q'.length < demoGeometry.TABLES_DEPTH → o' < PAGE_SIZE demoGeometry →
        sparseFault.2.ram (x' * PAGE_SIZE demoGeometry + o') =
          ((findFreeOrEvictFrame demoGeometry sparseFault.2 3 1).1 : Int) →
        x' = par ∧ o' = j) ∧
      (findFreeOrEvictFrame demoGeometry sparseFault.2 3 1).2 =
        PMwrite sparseFault.2 (par * PAGE_SIZE demoGeometry + j) 0 ∧
      (∀ w, (findFreeOrEvictFrame demoGeometry sparseFault.2 3 1).2.ram w =
        if w = par * PAGE_SIZE demoGeometry + j then 0 else sparseFault.2.ram w) ∧
      (findFreeOrEvictFrame demoGeometry sparseFault.2 3 1).2.swap = sparseFault.2.swap ∧
      (findFreeOrEvictFrame demoGeometry sparseFault.2 3 1).2.journal =
        Call.write (par * PAGE_SIZE demoGeometry + j) 0 :: sparseFault.2.journal) ∧
    sparseFault.1 = 1 ∧
    pageNumberOf demoGeometry (parseAddress demoGeometry 48) = 3 ∧
    sparseFault.2.ram (sparseFault.1 * PAGE_SIZE demoGeometry +
      (parseAddress demoGeometry 48).getD 1 0) = 0 ∧
    (findFreeOrEvictFrame demoGeometry sparseFault.2 3 1).1 = 3 ∧
    (findFreeOrEvictFrame demoGeometry sparseFault.2 3 1).2.journal.head? =
      some (Call.write 1 0) :=
  ⟨empty_table_reuse demoGeometry (by decide) demoSparse
    ⟨demoDevice, [Op.write 0 1, Op.write 256 2, Op.write 16 3, Op.write 32 4], rfl⟩ 48 1
    (by decide) sparseFault rfl 3 1 [1] 3 ⟨⟨by decide, by decide⟩, by decide⟩
    (by decide) (by decide) (by decide) (by decide),
    by decide, by decide, by decide, by decide, by decide⟩

/-- Counterexample to C13 as stated, without a bound on `NUM_FRAMES`: on the geometry
`OFFSET_WIDTH = 1`, `TABLES_DEPTH = 4`, `NUM_FRAMES = 3`, after `VMinitialize`,
`VMwrite(18, 1)` and `VMwrite(0, 2)` the empty table of frame 2 is the value of two entries of
the tree, entry 0 of the root and entry 0 of frame 1. The resolver of `VMwrite(24, _)` faults
at level 1 with current frame 1; the allocator returns frame 2 and clears the entry of the
root only: the entry of frame 1 still points to the frame it hands out. -/
theorem empty_table_two_parents :
    Reachable slimGeometry slimDevice ∧
    (24 : Nat) < VIRTUAL_MEMORY_SIZE slimGeometry ∧
    (traverseUpTo slimGeometry slimDevice 24 1).1 = 1 ∧
    (traverseUpTo slimGeometry slimDevice 24 1).2.journal = slimDevice.journal ∧
    slimDevice.ram (1 * PAGE_SIZE slimGeometry + (parseAddress slimGeometry 24).getD 1 0) = 0 ∧
    pageNumberOf slimGeometry (parseAddress slimGeometry 24) = 12 ∧
    Resident slimGeometry slimDevice [0] 2 ∧
    [0].length < slimGeometry.TABLES_DEPTH ∧
    (∀ o, o < PAGE_SIZE slimGeometry → slimDevice.ram (2 * PAGE_SIZE slimGeometry + o) = 0) ∧
    (findFreeOrEvictFrame slimGeometry slimDevice 12 1).1 = 2 ∧
    (findFreeOrEvictFrame slimGeometry slimDevice 12 1).2.journal =
      Call.write 0 0 :: slimDevice.journal ∧
    Resident slimGeometry slimDevice [] 0 ∧
    slimDevice.ram (0 * PAGE_SIZE slimGeometry + 0) = 2 ∧
    Resident slimGeometry slimDevice [1] 1 ∧
    slimDevice.ram (1 * PAGE_SIZE slimGeometry + 0) = 2 ∧
    (findFreeOrEvictFrame slimGeometry slimDevice 12 1).2.ram (1 * PAGE_SIZE slimGeometry + 0) = 2 ∧
    ¬ ∃ par j, ∀ x' o', (∃ q', Resident slimGeometry slimDevice q' x' ∧
        q'.length < slimGeometry.TABLES_DEPTH) → o' < PAGE_SIZE slimGeometry →
      slimDevice.ram (x' * PAGE_SIZE slimGeometry + o') =
        ((findFreeOrEvictFrame slimGeometry slimDevice 12 1).1 : Int) → x' = par ∧ o' = j := by
  refine ⟨⟨blankDevice, [Op.write 18 1, Op.write 0 2], rfl⟩, by decide, by decide, by decide,
    by decide, by decide, ⟨⟨by decide, by decide⟩, by decide⟩, by decide, by decide, by decide,
    by decide, ⟨⟨by decide, by decide⟩, by decide⟩, by decide,
    ⟨⟨by decide, by decide⟩, by decide⟩, by decide, by decide, ?_⟩
  rintro ⟨par, j, h⟩
  have a1 := h 0 0 ⟨[], ⟨⟨by decide, by decide⟩, by decide⟩, by decide⟩ (by decide) (by decide)
  have a2 := h 1 0 ⟨[1], ⟨⟨by decide, by decide⟩, by decide⟩, by decide⟩ (by decide) (by decide)
  omega

/-- C14, as amended. Priority 3 (eviction) effect. With `NUM_FRAMES > TABLES_DEPTH`, in every
reachable state, whenever the resolver faults and `findFreeOrEvictFrame` finds neither an
empty table nor a never-used frame, the frame `v` it returns is a resident leaf, the device
receives `PMevict(v, p)` once, where `p` is the page number spelled by the table indices on
the path from the root to `v`, followed by one write of 0 to the entry that pointed to `v`,
which is the only entry of the tree that did; no other word of memory changes and the
backing store changes at page `p` only; a `PMrestore` of page `p`, as long as the backing
store holds what this eviction left for `p`, fills the frame with the words `v` held at
eviction time. -/
theorem eviction_effect (g : Geometry) (hNF : g.TABLES_DEPTH < g.NUM_FRAMES)
    (d : Device) (hd : Reachable g d) (a : Nat) (_ha : a < VIRTUAL_MEMORY_SIZE g)
    (level : Nat) (hlevel : level < g.TABLES_DEPTH)
    (st : Nat × Device) (hst : st = traverseUpTo g d a level)
    (hfault : st.2.ram (st.1 * PAGE_SIZE g + (parseAddress g a).getD level 0) = 0)
    (r : FrameSearchResult)
    (hr : r = scanTree g st.2 (pageNumberOf g (parseAddress g a)) st.1)
    (h1 : r.emptyTable = 0) (h2 : ¬ r.maxUsedFrame + 1 < g.NUM_FRAMES)
    (found : Nat × Device)
    (hfound : found = findFreeOrEvictFrame g st.2 (pageNumberOf g (parseAddress g a)) st.1) :
    ∃ q,
      Resident g st.2 (q ++ [r.bestEvictOffset]) found.1 ∧
      (q ++ [r.bestEvictOffset]).length = g.TABLES_DEPTH ∧
      found.1 ≠ 0 ∧
      r.bestEvictPageNumber = pageFrom g 0 (q ++ [r.bestEvictOffset]) ∧
      Resident g st.2 q r.bestEvictParent ∧
      r.bestEvictOffset < PAGE_SIZE g ∧
      st.2.ram (r.bestEvictParent * PAGE_SIZE g + r.bestEvictOffset) = (found.1 : Int) ∧
      (∀ q' x' o', Resident g st.2 q' x' → q'.length < g.TABLES_DEPTH → o' < PAGE_SIZE g →
        st.2.ram (x' * PAGE_SIZE g + o') = (found.1 : Int) →
        x' = r.bestEvictParent ∧ o' = r.bestEvictOffset) ∧
      found.2.journal =
        Call.write (r.bestEvictParent * PAGE_SIZE g + r.bestEvictOffset) 0 ::
          Call.evict found.1 r.bestEvictPageNumber :: st.2.journal ∧
      (∀ w, found.2.ram w =
        if w = r.bestEvictParent * PAGE_SIZE g + r.bestEvictOffset then 0 else st.2.ram w) ∧
      (∀ pg, pg ≠ r.bestEvictPageNumber → found.2.swap pg = st.2.swap pg) ∧
      (∀ (later : Device) (f off : Nat),
        later.swap r.bestEvictPageNumber = found.2.swap r.bestEvictPageNumber →
        off < PAGE_SIZE g →
        (PMrestore g later f r.bestEvictPageNumber).ram (f * PAGE_SIZE g + off) =
          st.2.ram (found.1 * PAGE_SIZE g + off)) := by
  subst hst
  obtain ⟨hinv, hc, hlen⟩ := resolver_state g hNF d hd a level (by omega)
  have hPn := fault_not_resident g _ a level _ hlevel hc hfault
  rw [pageNumberOf_eq] at hr hfound
  obtain ⟨q, hv, hl, hq, hpg, _, _, _, _, hff⟩ :=
    findFree_evict g _ hinv hNF _ _ hc (by rw [hlen]; exact hlevel) _ (pagePath_valid g a)
      (pagePath_length g a) hPn r hr h1 h2
  rw [hff] at hfound
  subst hfound
  obtain ⟨x, hx, hne, hto, ho, hlq⟩ := hv.snoc_inv
  have hxp : x = r.bestEvictParent := hx.unique hq
  subst hxp
  have hnn := hinv.nonneg _ _ _ hq hlq ho
  have hent : (traverseUpTo g d a level).2.ram
      (r.bestEvictParent * PAGE_SIZE g + r.bestEvictOffset) = (r.bestEvictFrame : Int) := by
    rw [← hto]; exact (Int.toNat_of_nonneg hnn).symm
  have hne0 : r.bestEvictFrame ≠ 0 := by
    intro e; rw [e] at hv; exact root_not_child g _ hinv _ _ hv
  refine ⟨q, hv, hl, hne0, hpg, hq, ho, hent, ?_, rfl, fun _ => rfl, ?_, ?_⟩
  · intro q' x' o' hq' hl' ho' hent'
    exact entry_unique g _ hinv q _ _ _ hne0 hq hlq ho hent q' x' o' hq' hl' ho' hent'
  · intro pg hpg'
    exact PMevict_swap_ne g _ _ _ _ hpg'
  · intro later f off hsw hoff
    have hdiv : (f * PAGE_SIZE g + off) / PAGE_SIZE g = f := by
      rw [Nat.mul_comm, Nat.mul_add_div (by omega), Nat.div_eq_of_lt hoff]; rfl
    have hmod : (f * PAGE_SIZE g + off) % PAGE_SIZE g = off := by
      rw [Nat.mul_comm, Nat.mul_add_mod, Nat.mod_eq_of_lt hoff]
    rw [PMrestore_ram, if_pos hdiv, hmod, hsw]
    exact swapped_word g _ _ _ off hoff

/-- Witness of C14 as amended, the forced-eviction scenario: the write to address 64 on
`demoFull` faults at level 1 with all six frames in use; the allocator returns frame 2, the
leaf of page 0, after `PMevict(2, 0)` and a write of 0 to entry 0 of frame 1. -/
theorem eviction_effect_witness :
    (∃ q,
      Resident demoGeometry demoFault.2 (q ++ [demoScan.bestEvictOffset])
        (findFreeOrEvictFrame demoGeometry demoFault.2
          (pageNumberOf demoGeometry (parseAddress demoGeometry 64)) demoFault.1).1 ∧
      (q ++ [demoScan.bestEvictOffset]).length = demoGeometry.TABLES_DEPTH ∧
      (findFreeOrEvictFrame demoGeometry demoFault.2
        (pageNumberOf demoGeometry (parseAddress demoGeometry 64)) demoFault.1).1 ≠ 0 ∧
      demoScan.bestEvictPageNumber = pageFrom demoGeometry 0 (q ++ [demoScan.bestEvictOffset]) ∧
      Resident demoGeometry demoFault.2 q demoScan.bestEvictParent ∧
      demoScan.bestEvictOffset < PAGE_SIZE demoGeometry ∧
      demoFault.2.ram (demoScan.bestEvictParent * PAGE_SIZE demoGeometry +
          demoScan.bestEvictOffset) =
        ((findFreeOrEvictFrame demoGeometry demoFault.2
          (pageNumberOf demoGeometry (parseAddress demoGeometry 64)) demoFault.1).1 : Int) ∧
      (∀ q' x' o', Resident demoGeometry demoFault.2 q' x' →
        q'.length < demoGeometry.TABLES_DEPTH → o' < PAGE_SIZE demoGeometry →
        demoFault.2.ram (x' * PAGE_SIZE demoGeometry + o') =
          ((findFreeOrEvictFrame demoGeometry demoFault.2
            (pageNumberOf demoGeometry (parseAddress demoGeometry 64)) demoFault.1).1 : Int) →
        x' = demoScan.bestEvictParent ∧ o' = demoScan.bestEvictOffset) ∧
      (findFreeOrEvictFrame demoGeometry demoFault.2
        (pageNumberOf demoGeometry (parseAddress demoGeometry 64)) demoFault.1).2.journal =
        Call.write (demoScan.bestEvictParent * PAGE_SIZE demoGeometry +
            demoScan.bestEvictOffset) 0 ::
          Call.evict (findFreeOrEvictFrame demoGeometry demoFault.2
            (pageNumberOf demoGeometry (parseAddress demoGeometry 64)) demoFault.1).1
            demoScan.bestEvictPageNumber :: demoFault.2.journal ∧
      (∀ w, (findFreeOrEvictFrame demoGeometry demoFault.2
          (pageNumberOf demoGeometry (parseAddress demoGeometry 64)) demoFault.1).2.ram w =
        if w = demoScan.bestEvictParent * PAGE_SIZE demoGeometry + demoScan.bestEvictOffset
        then 0 else demoFault.2.ram w) ∧
      (∀ pg, pg ≠ demoScan.bestEvictPageNumber →
        (findFreeOrEvictFrame demoGeometry demoFault.2
          (pageNumberOf demoGeometry (parseAddress demoGeometry 64)) demoFault.1).2.swap pg =
          demoFault.2.swap pg) ∧
      (∀ (later : Device) (f off : Nat),
        later.swap demoScan.bestEvictPageNumber =
          (findFreeOrEvictFrame demoGeometry demoFault.2
            (pageNumberOf demoGeometry (parseAddress demoGeometry 64)) demoFault.1).2.swap
            demoScan.bestEvictPageNumber →
        off < PAGE_SIZE demoGeometry →
        (PMrestore demoGeometry later f demoScan.bestEvictPageNumber).ram
            (f * PAGE_SIZE demoGeometry + off) =
          demoFault.2.ram ((findFreeOrEvictFrame demoGeometry demoFault.2
            (pageNumberOf demoGeometry (parseAddress demoGeometry 64)) demoFault.1).1 *
              PAGE_SIZE demoGeometry + off))) ∧
    (findFreeOrEvictFrame demoGeometry demoFault.2
      (pageNumberOf demoGeometry (parseAddress demoGeometry 64)) demoFault.1).1 = 2 ∧
    demoScan.bestEvictPageNumber = 0 ∧
    demoScan.bestEvictParent = 1 ∧ demoScan.bestEvictOffset = 0 :=
  ⟨eviction_effect demoGeometry (by decide) demoFull
    ⟨demoDevice, [Op.write 0 1, Op.write 16 2, Op.write 32 3, Op.write 48 4], rfl⟩ 64 (by decide)
    1 (by decide) demoFault rfl (by decide) demoScan rfl (by decide) (by decide) _ rfl,
    by decide, by decide, by decide, by decide⟩

/-- Counterexample to C14 as stated, without a bound on `NUM_FRAMES`: on the geometry
`OFFSET_WIDTH = 1`, `TABLES_DEPTH = 2`, `NUM_FRAMES = 2`, the first write after
`VMinitialize` faults at level 1 with no empty table and no unused frame; the allocator
evicts and returns frame 1, which is the table the resolver is standing on, at depth 1: the
frame returned is not a resident leaf. -/
theorem eviction_of_table :
    Reachable tightGeometry ( VMinitialize tightGeometry demoDevice) ∧
    (0 : Nat) < VIRTUAL_MEMORY_SIZE tightGeometry ∧
    1 < tightGeometry.TABLES_DEPTH ∧
    tightFault.1 = 1 ∧
    tightFault.2.ram (tightFault.1 * PAGE_SIZE tightGeometry +
      (parseAddress tightGeometry 0).getD 1 0) = 0 ∧
    (scanTree tightGeometry tightFault.2
      (pageNumberOf tightGeometry (parseAddress tightGeometry 0)) tightFault.1).emptyTable = 0 ∧
    ¬ (scanTree tightGeometry tightFault.2
      (pageNumberOf tightGeometry (parseAddress tightGeometry 0)) tightFault.1).maxUsedFrame + 1
        < tightGeometry.NUM_FRAMES ∧
    (findFreeOrEvictFrame tightGeometry tightFault.2
      (pageNumberOf tightGeometry (parseAddress tightGeometry 0)) tightFault.1).1 = 1 ∧
    (findFreeOrEvictFrame tightGeometry tightFault.2
      (pageNumberOf tightGeometry (parseAddress tightGeometry 0)) tightFault.1).2.journal.take 2
      = [Call.write 0 0, Call.evict 1 0] ∧
    Resident tightGeometry tightFault.2 [0] 1 ∧
    ¬ ∃ p, Resident tightGeometry tightFault.2 p
        (findFreeOrEvictFrame tightGeometry tightFault.2
          (pageNumberOf tightGeometry (parseAddress tightGeometry 0)) tightFault.1).1 ∧
      p.length = tightGeometry.TABLES_DEPTH := by
  refine ⟨⟨demoDevice, [], rfl⟩, by decide, by decide, by decide, by decide, by decide,
    by decide, by decide, by decide, ⟨⟨by decide, by decide⟩, by decide⟩, ?_⟩
  rintro ⟨p, hp, hl⟩
  have hmem := (leafPages_mem tightGeometry tightFault.2 (pageFrom tightGeometry 0 p)).mpr
    ⟨p, _, hp, hl, rfl⟩
  have hnil : leafPages tightGeometry tightFault.2 = [] := by decide
  rw [hnil] at hmem
  cases hmem

/-- C15, as amended. Priority 2 (never-used frame). With `NUM_FRAMES > TABLES_DEPTH`, in
every state in which the resolver of a reachable device can call the allocator: after the
scan from the root `maxUsedFrame` is the largest frame index reachable from frame 0, it is
below `NUM_FRAMES`, and the frames reachable from the root are exactly
`0, 1, ..., maxUsedFrame`; and whenever the allocator, called at a fault, returns
`maxUsedFrame + 1`, that frame is below `NUM_FRAMES`, is not in the tree, is the value of no
entry of a table of the tree, and the allocator has left the device (memory, backing store,
calls received) as it was. -/
theorem fresh_frame_unused (g : Geometry) (hNF : g.TABLES_DEPTH < g.NUM_FRAMES)
    (d : Device) (hd : Reachable g d) (a : Nat) (_ha : a < VIRTUAL_MEMORY_SIZE g)
    (level : Nat) (hlevel : level ≤ g.TABLES_DEPTH)
    (st : Nat × Device) (hst : st = traverseUpTo g d a level)
    (r : FrameSearchResult)
    (hr : r = scanTree g st.2 (pageNumberOf g (parseAddress g a)) st.1) :
    (∀ p x, Resident g st.2 p x → x ≤ r.maxUsedFrame) ∧
    (∃ p, Resident g st.2 p r.maxUsedFrame) ∧
    r.maxUsedFrame < g.NUM_FRAMES ∧
    (∀ x, (∃ p, Resident g st.2 p x) ↔ x ≤ r.maxUsedFrame) ∧
    (level < g.TABLES_DEPTH →
      st.2.ram (st.1 * PAGE_SIZE g + (parseAddress g a).getD level 0) = 0 →
      (findFreeOrEvictFrame g st.2 (pageNumberOf g (parseAddress g a)) st.1).1 =
        r.maxUsedFrame + 1 →
      r.emptyTable = 0 ∧
      r.maxUsedFrame + 1 < g.NUM_FRAMES ∧
      (∀ p, ¬ Resident g st.2 p (r.maxUsedFrame + 1)) ∧
      (∀ q x o, Resident g st.2 q x → q.length < g.TABLES_DEPTH → o < PAGE_SIZE g →
        st.2.ram (x * PAGE_SIZE g + o) ≠ ((r.maxUsedFrame + 1 : Nat) : Int)) ∧
      (findFreeOrEvictFrame g st.2 (pageNumberOf g (parseAddress g a)) st.1).2 = st.2) := by
  subst hst
  obtain ⟨hinv, hc, hlen⟩ := resolver_state g hNF d hd a level hlevel
  have hmax := scan_max g (traverseUpTo g d a level).2 (pageNumberOf g (parseAddress g a))
    (traverseUpTo g d a level).1
  rw [← hr] at hmax
  have hiff : ∀ x, (∃ p, Resident g (traverseUpTo g d a level).2 p x) ↔ x ≤ r.maxUsedFrame := by
    intro x
    rw [hr]
    exact scan_max_iff g _ hinv _ _ x
  have hlt : r.maxUsedFrame < g.NUM_FRAMES := by
    rw [hr]; exact scan_max_lt g _ hinv _ _
  refine ⟨hmax.1, hmax.2, hlt, hiff, ?_⟩
  intro hlevel' hfault hret
  have hnot : ∀ p, ¬ Resident g (traverseUpTo g d a level).2 p (r.maxUsedFrame + 1) := by
    intro p hp
    have := hmax.1 p _ hp
    omega
  have hnoent : ∀ q x o, Resident g (traverseUpTo g d a level).2 q x → q.length < g.TABLES_DEPTH →
      o < PAGE_SIZE g →
      (traverseUpTo g d a level).2.ram (x * PAGE_SIZE g + o) ≠ ((r.maxUsedFrame + 1 : Nat) : Int) := by
    intro q x o hq hl ho hent
    exact hnot _ (Resident.of_entry hq hl ho hent (by omega))
  by_cases h1 : r.emptyTable = 0
  · by_cases h2 : r.maxUsedFrame + 1 < g.NUM_FRAMES
    · refine ⟨h1, h2, hnot, hnoent, ?_⟩
      rw [findFree_fresh g _ _ _ (hr ▸ h1) (hr ▸ h2)]
    · exfalso
      have hPn := fault_not_resident g _ a level _ hlevel' hc hfault
      rw [pageNumberOf_eq] at hr hret
      obtain ⟨q, hv, _, _, _, _, _, _, _, hff⟩ :=
        findFree_evict g _ hinv hNF _ _ hc (by rw [hlen]; exact hlevel') _ (pagePath_valid g a)
          (pagePath_length g a) hPn r hr h1 h2
      rw [hff] at hret
      have := hmax.1 _ _ hv
      simp only at hret
      omega
  · exfalso
    obtain ⟨q, i, j, he, _, _, _, _, _, _, hff⟩ :=
      findFree_reuse_any g _ _ _ (hr ▸ h1)
    rw [hff, ← hr] at hret
    have := hmax.1 _ _ (hr ▸ he)
    simp only at hret
    omega

/-- Witness of C15 as amended, the cold-start scenario: at level 1 of the first write,
`VMwrite(13, 3)`, the tree holds the frames 0 and 1, the scan reports `maxUsedFrame = 1` and
the allocator returns frame 2 without a device call. -/
theorem fresh_frame_unused_witness :
    ((∀ p x, Resident demoGeometry coldFault.2 p x →
        x ≤ (scanTree demoGeometry coldFault.2
          (pageNumberOf demoGeometry (parseAddress demoGeometry 13)) coldFault.1).maxUsedFrame) ∧
    (∃ p, Resident demoGeometry coldFault.2 p
      (scanTree demoGeometry coldFault.2
        (pageNumberOf demoGeometry (parseAddress demoGeometry 13)) coldFault.1).maxUsedFrame) ∧
    (scanTree demoGeometry coldFault.2
      (pageNumberOf demoGeometry (parseAddress demoGeometry 13)) coldFault.1).maxUsedFrame
        < demoGeometry.NUM_FRAMES ∧
    (∀ x, (∃ p, Resident demoGeometry coldFault.2 p x) ↔
      x ≤ (scanTree demoGeometry coldFault.2
        (pageNumberOf demoGeometry (parseAddress demoGeometry 13)) coldFault.1).maxUsedFrame) ∧
    (1 < demoGeometry.TABLES_DEPTH →
      coldFault.2.ram (coldFault.1 * PAGE_SIZE demoGeometry +
        (parseAddress demoGeometry 13).getD 1 0) = 0 →
      (findFreeOrEvictFrame demoGeometry coldFault.2
        (pageNumberOf demoGeometry (parseAddress demoGeometry 13)) coldFault.1).1 =
        (scanTree demoGeometry coldFault.2
          (pageNumberOf demoGeometry (parseAddress demoGeometry 13)) coldFault.1).maxUsedFrame + 1 →
      (scanTree demoGeometry coldFault.2
        (pageNumberOf demoGeometry (parseAddress demoGeometry 13)) coldFault.1).emptyTable = 0 ∧
      (scanTree demoGeometry coldFault.2
        (pageNumberOf demoGeometry (parseAddress demoGeometry 13)) coldFault.1).maxUsedFrame + 1
          < demoGeometry.NUM_FRAMES ∧
      (∀ p, ¬ Resident demoGeometry coldFault.2 p
        ((scanTree demoGeometry coldFault.2
          (pageNumberOf demoGeometry (parseAddress demoGeometry 13)) coldFault.1).maxUsedFrame + 1)) ∧
      (∀ q x o, Resident demoGeometry coldFault.2 q x → q.length < demoGeometry.TABLES_DEPTH →
        o < PAGE_SIZE demoGeometry →
        coldFault.2.ram (x * PAGE_SIZE demoGeometry + o) ≠
          (((scanTree demoGeometry coldFault.2
            (pageNumberOf demoGeometry (parseAddress demoGeometry 13))
              coldFault.1).maxUsedFrame + 1 : Nat) : Int)) ∧
      (findFreeOrEvictFrame demoGeometry coldFault.2
        (pageNumberOf demoGeometry (parseAddress demoGeometry 13)) coldFault.1).2 = coldFault.2)) ∧
    (1 : Nat) < demoGeometry.TABLES_DEPTH ∧
    coldFault.2.ram (coldFault.1 * PAGE_SIZE demoGeometry +
      (parseAddress demoGeometry 13).getD 1 0) = 0 ∧
    (scanTree demoGeometry coldFault.2
      (pageNumberOf demoGeometry (parseAddress demoGeometry 13)) coldFault.1).maxUsedFrame = 1 ∧
    (findFreeOrEvictFrame demoGeometry coldFault.2
      (pageNumberOf demoGeometry (parseAddress demoGeometry 13)) coldFault.1).1 = 2 :=
  ⟨fresh_frame_unused demoGeometry (by decide) demoStart ⟨demoDevice, [], rfl⟩ 13 (by decide)
    1 (by decide) coldFault rfl _ rfl, by decide, by decide, by decide, by decide⟩

/-- Counterexample to C15 as stated, without a bound on `NUM_FRAMES`: on the geometry
`OFFSET_WIDTH = 1`, `TABLES_DEPTH = 3`, `NUM_FRAMES = 3`, after `VMinitialize` and
`VMwrite(8, 2)` the scan from the root reports `maxUsedFrame = 2`, and frame 1 is not
reachable from the root: the frames of the tree are 0 and 2, not `0, ..., maxUsedFrame`. -/
theorem reachable_frames_gap :
    Reachable crampedGeometry crampedDevice ∧
    (8 : Nat) < VIRTUAL_MEMORY_SIZE crampedGeometry ∧
    (∀ t c, (scanTree crampedGeometry crampedDevice t c).maxUsedFrame = 2) ∧
    Resident crampedGeometry crampedDevice [0] 2 ∧
    (∀ o, o < PAGE_SIZE crampedGeometry →
      crampedDevice.ram (2 * PAGE_SIZE crampedGeometry + o) = 0) ∧
    crampedDevice.ram 1 = 0 ∧
    ¬ ∃ p, Resident crampedGeometry crampedDevice p 1 := by
  have hv : visits crampedGeometry crampedDevice crampedGeometry.TABLES_DEPTH 0 0 0 0 =
      [Visit.enter 0, Visit.enter 2, Visit.table 2 0 true, Visit.table 0 0 false] := by decide
  refine ⟨⟨demoDevice, [Op.write 8 2], rfl⟩, by decide, ?_,
    ⟨⟨by decide, by decide⟩, by decide⟩, by decide, by decide, ?_⟩
  · intro t c
    have h1 := scan_max crampedGeometry crampedDevice t c
    have h2 := h1.1 [0] 2 ⟨⟨by decide, by decide⟩, by decide⟩
    obtain ⟨p, hp⟩ := h1.2
    have h3 := (enter_mem_root crampedGeometry crampedDevice _).mpr ⟨p, hp⟩
    rw [hv] at h3
    simp at h3
    omega
  · intro h
    have h3 := (enter_mem_root crampedGeometry crampedDevice 1).mpr h
    rw [hv] at h3
    simp at h3

/-- C16. Eviction always has a valid candidate. With `NUM_FRAMES > TABLES_DEPTH + 1`, in
every state reachable from `VMinitialize` through `VMread`/`VMwrite`, whenever the resolver
faults and `findFreeOrEvictFrame` finds no empty table and no never-used frame, the scan has
recorded a resident leaf with `bestDistance > 0` and `bestEvictFrame != 0`, the entry
`bestEvictParent * PAGE_SIZE + bestEvictOffset` it reads holds that leaf, and the frame evicted
and returned is that leaf: the `bestEvict` fields are not at their initial zeros. -/
theorem eviction_has_candidate (g : Geometry) (hNF : g.TABLES_DEPTH + 1 < g.NUM_FRAMES)
    (d : Device) (hd : Reachable g d) (a : Nat) (_ha : a < VIRTUAL_MEMORY_SIZE g)
    (level : Nat) (hlevel : level < g.TABLES_DEPTH)
    (st : Nat × Device) (hst : st = traverseUpTo g d a level)
    (hfault : st.2.ram (st.1 * PAGE_SIZE g + (parseAddress g a).getD level 0) = 0)
    (r : FrameSearchResult)
    (hr : r = scanTree g st.2 (pageNumberOf g (parseAddress g a)) st.1)
    (h1 : r.emptyTable = 0) (h2 : ¬ r.maxUsedFrame + 1 < g.NUM_FRAMES) :
    0 < r.bestDistance ∧
    r.bestEvictFrame ≠ 0 ∧
    ¬ (r.bestEvictFrame = 0 ∧ r.bestEvictParent = 0 ∧ r.bestEvictOffset = 0 ∧
      r.bestEvictPageNumber = 0 ∧ r.bestDistance = 0) ∧
    (∃ q, Resident g st.2 (q ++ [r.bestEvictOffset]) r.bestEvictFrame ∧
      (q ++ [r.bestEvictOffset]).length = g.TABLES_DEPTH ∧
      Resident g st.2 q r.bestEvictParent ∧
      r.bestEvictPageNumber = pageFrom g 0 (q ++ [r.bestEvictOffset])) ∧
    r.bestDistance =
      computeCyclicDistance g (pageNumberOf g (parseAddress g a)) r.bestEvictPageNumber ∧
    st.2.ram (r.bestEvictParent * PAGE_SIZE g + r.bestEvictOffset) = (r.bestEvictFrame : Int) ∧
    (findFreeOrEvictFrame g st.2 (pageNumberOf g (parseAddress g a)) st.1).1 = r.bestEvictFrame ∧
    (findFreeOrEvictFrame g st.2 (pageNumberOf g (parseAddress g a)) st.1).2.journal =
      Call.write (r.bestEvictParent * PAGE_SIZE g + r.bestEvictOffset) 0 ::
        Call.evict r.bestEvictFrame r.bestEvictPageNumber :: st.2.journal := by
  subst hst
  have hNF' : g.TABLES_DEPTH < g.NUM_FRAMES := by omega
  obtain ⟨hinv, hc, hlen⟩ := resolver_state g hNF' d hd a level (by omega)
  have hPn := fault_not_resident g _ a level _ hlevel hc hfault
  rw [pageNumberOf_eq] at hr ⊢
  obtain ⟨q, hv, hl, hq, hpg, hdist, hpos, _, _, hff⟩ :=
    findFree_evict g _ hinv hNF' _ _ hc (by rw [hlen]; exact hlevel) _ (pagePath_valid g a)
      (pagePath_length g a) hPn r hr h1 h2
  obtain ⟨x, hx, hne, hto, ho, hlq⟩ := hv.snoc_inv
  have hxp : x = r.bestEvictParent := hx.unique hq
  subst hxp
  have hnn := hinv.nonneg _ _ _ hq hlq ho
  have hent : (traverseUpTo g d a level).2.ram
      (r.bestEvictParent * PAGE_SIZE g + r.bestEvictOffset) = (r.bestEvictFrame : Int) := by
    rw [← hto]; exact (Int.toNat_of_nonneg hnn).symm
  have hne0 : r.bestEvictFrame ≠ 0 := by
    intro e; rw [e] at hv; exact root_not_child g _ hinv _ _ hv
  rw [hff]
  exact ⟨hpos, hne0, fun h => hne0 h.1, ⟨q, hv, hl, hq, hpg⟩, hdist, hent, rfl, rfl⟩

/-- Witness of C16, the forced-eviction scenario: the write to address 64 on `demoFull`
faults at level 1 with all six frames in use; the scan has recorded the leaf of page 0,
frame 2, at distance 4. -/
theorem eviction_has_candidate_witness :
    (0 < demoScan.bestDistance ∧
    demoScan.bestEvictFrame ≠ 0 ∧
    ¬ (demoScan.bestEvictFrame = 0 ∧ demoScan.bestEvictParent = 0 ∧
      demoScan.bestEvictOffset = 0 ∧ demoScan.bestEvictPageNumber = 0 ∧
      demoScan.bestDistance = 0) ∧
    (∃ q, Resident demoGeometry demoFault.2 (q ++ [demoScan.bestEvictOffset])
        demoScan.bestEvictFrame ∧
      (q ++ [demoScan.bestEvictOffset]).length = demoGeometry.TABLES_DEPTH ∧
      Resident demoGeometry demoFault.2 q demoScan.bestEvictParent ∧
      demoScan.bestEvictPageNumber = pageFrom demoGeometry 0 (q ++ [demoScan.bestEvictOffset])) ∧
    demoScan.bestDistance =
      computeCyclicDistance demoGeometry (pageNumberOf demoGeometry (parseAddress demoGeometry 64))
        demoScan.bestEvictPageNumber ∧
    demoFault.2.ram (demoScan.bestEvictParent * PAGE_SIZE demoGeometry +
      demoScan.bestEvictOffset) = (demoScan.bestEvictFrame : Int) ∧
    (findFreeOrEvictFrame demoGeometry demoFault.2
      (pageNumberOf demoGeometry (parseAddress demoGeometry 64)) demoFault.1).1 =
        demoScan.bestEvictFrame ∧
    (findFreeOrEvictFrame demoGeometry demoFault.2
      (pageNumberOf demoGeometry (parseAddress demoGeometry 64)) demoFault.1).2.journal =
      Call.write (demoScan.bestEvictParent * PAGE_SIZE demoGeometry +
          demoScan.bestEvictOffset) 0 ::
        Call.evict demoScan.bestEvictFrame demoScan.bestEvictPageNumber ::
          demoFault.2.journal) ∧
    demoScan.bestEvictFrame = 2 ∧ demoScan.bestDistance = 4 ∧
    demoScan.emptyTable = 0 ∧ demoScan.maxUsedFrame = 5 :=
  ⟨eviction_has_candidate demoGeometry (by decide) demoFull
    ⟨demoDevice, [Op.write 0 1, Op.write 16 2, Op.write 32 3, Op.write 48 4], rfl⟩ 64 (by decide)
    1 (by decide) demoFault rfl (by decide) demoScan rfl (by decide) (by decide),
    by decide, by decide, by decide, by decide⟩

/-- C17. A hit is side-effect free. In every device state, reachable or not, if every table
entry on the path of address `a` is non-zero, so that the walk from the root reaches a frame
`f`, then `traverseTree(a)` returns `f * PAGE_SIZE + offset` and the device as it was (no
word of memory changed, no device call made), `VMread(a)` returns that word and leaves the
device unchanged, `VMwrite(a, w)` changes the one physical word at the returned address and
nothing else, and every address of the same page resolves to the same frame `f` without
changing the device, so that no leaf is added. -/
theorem hit_is_side_effect_free (g : Geometry) (d : Device) (a : Nat)
    (_ha : a < VIRTUAL_MEMORY_SIZE g) (f : Nat)
    (hres : walkFrom g d 0 ((parseAddress g a).take g.TABLES_DEPTH) = some f) (w : Int) :
    traverseTree g d a = (f * PAGE_SIZE g + (parseAddress g a).getD g.TABLES_DEPTH 0, d) ∧
    ((VMread g d a true).ret = 1 ∧
      (VMread g d a true).stored =
        some (d.ram (f * PAGE_SIZE g + (parseAddress g a).getD g.TABLES_DEPTH 0)) ∧
      (VMread g d a true).device = d) ∧
    (VMwrite g d a w = (1, PMwrite d (f * PAGE_SIZE g + (parseAddress g a).getD g.TABLES_DEPTH 0) w) ∧
      (VMwrite g d a w).2.ram (f * PAGE_SIZE g + (parseAddress g a).getD g.TABLES_DEPTH 0) = w ∧
      (∀ x, x ≠ f * PAGE_SIZE g + (parseAddress g a).getD g.TABLES_DEPTH 0 →
        (VMwrite g d a w).2.ram x = d.ram x) ∧
      (VMwrite g d a w).2.swap = d.swap ∧
      (VMwrite g d a w).2.journal =
        Call.write (f * PAGE_SIZE g + (parseAddress g a).getD g.TABLES_DEPTH 0) w :: d.journal) ∧
    (∀ b, b < VIRTUAL_MEMORY_SIZE g →
      (parseAddress g b).take g.TABLES_DEPTH = (parseAddress g a).take g.TABLES_DEPTH →
      traverseTree g d b = (f * PAGE_SIZE g + (parseAddress g b).getD g.TABLES_DEPTH 0, d) ∧
      leafPages g (traverseTree g d b).2 = leafPages g d) := by
  have ht := traverseTree_hit g d a f hres
  have hw : VMwrite g d a w =
      (1, PMwrite d (f * PAGE_SIZE g + (parseAddress g a).getD g.TABLES_DEPTH 0) w) := by
    unfold VMwrite
    rw [if_neg (by omega), ht]
  have hr : VMread g d a true =
      ⟨1, some (d.ram (f * PAGE_SIZE g + (parseAddress g a).getD g.TABLES_DEPTH 0)), d⟩ := by
    unfold VMread
    rw [if_neg (by simp; omega), ht]
    rfl
  refine ⟨ht, by rw [hr]; exact ⟨rfl, rfl, rfl⟩, ⟨hw, ?_, ?_, ?_, ?_⟩, ?_⟩
  · rw [hw]; exact if_pos rfl
  · intro x hx; rw [hw]; exact if_neg hx
  · rw [hw]; rfl
  · rw [hw]; rfl
  · intro b _ hb
    have := traverseTree_hit g d b f (by rw [hb]; exact hres)
    exact ⟨this, by rw [this]⟩

/-- Witness of C17: the two-addresses scenario on the state in which page 1 is held by frame
3; the addresses 16 and 17 of page 1 resolve to the words 48 and 49 of frame 3. -/
theorem hit_is_side_effect_free_witness :
    (traverseTree demoGeometry demoFull 16 =
      (3 * PAGE_SIZE demoGeometry + (parseAddress demoGeometry 16).getD demoGeometry.TABLES_DEPTH 0,
        demoFull) ∧
    ((VMread demoGeometry demoFull 16 true).ret = 1 ∧
      (VMread demoGeometry demoFull 16 true).stored =
        some (demoFull.ram (3 * PAGE_SIZE demoGeometry +
          (parseAddress demoGeometry 16).getD demoGeometry.TABLES_DEPTH 0)) ∧
      (VMread demoGeometry demoFull 16 true).device = demoFull) ∧
    (VMwrite demoGeometry demoFull 16 9 =
        (1, PMwrite demoFull (3 * PAGE_SIZE demoGeometry +
          (parseAddress demoGeometry 16).getD demoGeometry.TABLES_DEPTH 0) 9) ∧
      (VMwrite demoGeometry demoFull 16 9).2.ram (3 * PAGE_SIZE demoGeometry +
        (parseAddress demoGeometry 16).getD demoGeometry.TABLES_DEPTH 0) = 9 ∧
      (∀ x, x ≠ 3 * PAGE_SIZE demoGeometry +
          (parseAddress demoGeometry 16).getD demoGeometry.TABLES_DEPTH 0 →
        (VMwrite demoGeometry demoFull 16 9).2.ram x = demoFull.ram x) ∧
      (VMwrite demoGeometry demoFull 16 9).2.swap = demoFull.swap ∧
      (VMwrite demoGeometry demoFull 16 9).2.journal =
        Call.write (3 * PAGE_SIZE demoGeometry +
          (parseAddress demoGeometry 16).getD demoGeometry.TABLES_DEPTH 0) 9 :: demoFull.journal) ∧
    (∀ b, b < VIRTUAL_MEMORY_SIZE demoGeometry →
      (parseAddress demoGeometry b).take demoGeometry.TABLES_DEPTH =
        (parseAddress demoGeometry 16).take demoGeometry.TABLES_DEPTH →
      traverseTree demoGeometry demoFull b =
        (3 * PAGE_SIZE demoGeometry + (parseAddress demoGeometry b).getD demoGeometry.TABLES_DEPTH 0,
          demoFull) ∧
      leafPages demoGeometry (traverseTree demoGeometry demoFull b).2 =
        leafPages demoGeometry demoFull)) ∧
    (traverseTree demoGeometry demoFull 16).1 = 48 ∧
    (traverseTree demoGeometry demoFull 17).1 = 49 :=
  ⟨hit_is_side_effect_free demoGeometry demoFull 16 (by decide) 3 (by decide) 9,
    by decide, by decide⟩

/-- C18, as amended. Resolver postcondition. With `TABLES_DEPTH >= 1` and
`NUM_FRAMES > TABLES_DEPTH + 1`, in every reachable state and for every
`a < VIRTUAL_MEMORY_SIZE`, `traverseTree(a)` returns `f * PAGE_SIZE + indices[TABLES_DEPTH]`
where `f` is the frame reached by following the `TABLES_DEPTH` table indices of `a` from
frame 0 in the resulting state, every entry followed is non-zero afterwards,
`1 <= f < NUM_FRAMES`, and the address returned lies in
`[PAGE_SIZE, NUM_FRAMES * PAGE_SIZE)`: it is not a word of the root table. -/
theorem resolver_postcondition (g : Geometry) (hD : 0 < g.TABLES_DEPTH)
    (hNF : g.TABLES_DEPTH + 1 < g.NUM_FRAMES)
    (d : Device) (hd : Reachable g d) (a : Nat) (_ha : a < VIRTUAL_MEMORY_SIZE g) :
    ∃ f,
      (traverseTree g d a).1 = f * PAGE_SIZE g + (parseAddress g a).getD g.TABLES_DEPTH 0 ∧
      (parseAddress g a).getD g.TABLES_DEPTH 0 < PAGE_SIZE g ∧
      walkFrom g (traverseTree g d a).2 0 ((parseAddress g a).take g.TABLES_DEPTH) = some f ∧
      (∀ level, level < g.TABLES_DEPTH →
        ∃ t, walkFrom g (traverseTree g d a).2 0 ((parseAddress g a).take level) = some t ∧
          (traverseTree g d a).2.ram (t * PAGE_SIZE g + (parseAddress g a).getD level 0) ≠ 0 ∧
          walkFrom g (traverseTree g d a).2 0 ((parseAddress g a).take (level + 1)) =
            some ((traverseTree g d a).2.ram
              (t * PAGE_SIZE g + (parseAddress g a).getD level 0)).toNat) ∧
      1 ≤ f ∧ f < g.NUM_FRAMES ∧
      PAGE_SIZE g ≤ (traverseTree g d a).1 ∧
      (traverseTree g d a).1 < g.NUM_FRAMES * PAGE_SIZE g ∧
      (traverseTree g d a).1 / PAGE_SIZE g ≠ 0 := by
  have hNF' : g.TABLES_DEPTH < g.NUM_FRAMES := by omega
  obtain ⟨f, h0, hinv, hres, _⟩ := traverseTree_spec g d (hd.inv hNF') hNF' a
  have hoff := parseAddress_getD_lt g a g.TABLES_DEPTH
  have hps := PAGE_SIZE_pos g
  have hsteps : ∀ level, level < g.TABLES_DEPTH →
      ∃ t, walkFrom g (traverseTree g d a).2 0 ((parseAddress g a).take level) = some t ∧
        (traverseTree g d a).2.ram (t * PAGE_SIZE g + (parseAddress g a).getD level 0) ≠ 0 ∧
        walkFrom g (traverseTree g d a).2 0 ((parseAddress g a).take (level + 1)) =
          some ((traverseTree g d a).2.ram
            (t * PAGE_SIZE g + (parseAddress g a).getD level 0)).toNat := by
    intro level hlevel
    have e1 : ((parseAddress g a).take g.TABLES_DEPTH).take (level + 1) =
        (parseAddress g a).take (level + 1) := by
      rw [List.take_take, Nat.min_eq_left (by omega)]
    have e2 : ((parseAddress g a).take g.TABLES_DEPTH).take level =
        (parseAddress g a).take level := by
      rw [List.take_take, Nat.min_eq_left (by omega)]
    have hsplit := pagePath_take g a level hlevel
    rw [e1, e2] at hsplit
    have hpre : Resident g (traverseTree g d a).2
        ((parseAddress g a).take (level + 1) ++
          ((parseAddress g a).take g.TABLES_DEPTH).drop (level + 1))
        f := by
      rw [← e1, List.take_append_drop]; exact hres
    obtain ⟨y, hy⟩ := hpre.prefix_left
    rw [hsplit] at hy
    obtain ⟨t, ht, hne, hto, _, _⟩ := hy.snoc_inv
    refine ⟨t, ht.2, hne, ?_⟩
    rw [hsplit, hto]
    exact hy.2
  have hf0 : f ≠ 0 := by
    intro e
    obtain ⟨t, ht, hne, hw⟩ := hsteps (g.TABLES_DEPTH - 1) (by omega)
    have hfull : g.TABLES_DEPTH - 1 + 1 = g.TABLES_DEPTH := by omega
    have hsplit := pagePath_take g a (g.TABLES_DEPTH - 1) (by omega)
    rw [hfull, List.take_of_length_le (by rw [pagePath_length])] at hsplit
    rw [hsplit, e] at hres
    exact root_not_child g _ hinv _ _ hres
  have hfl : f < g.NUM_FRAMES := by
    obtain ⟨k, hk, hiff⟩ := hinv.range
    have := (hiff f).mp ⟨_, hres⟩
    omega
  have hlow : PAGE_SIZE g ≤ f * PAGE_SIZE g := Nat.le_mul_of_pos_left _ (by omega)
  have hhigh : f * PAGE_SIZE g + PAGE_SIZE g ≤ g.NUM_FRAMES * PAGE_SIZE g := by
    calc f * PAGE_SIZE g + PAGE_SIZE g = (f + 1) * PAGE_SIZE g := by ring
      _ ≤ g.NUM_FRAMES * PAGE_SIZE g := Nat.mul_le_mul_right _ (by omega)
  refine ⟨f, h0, hoff, hres.2, hsteps, by omega, hfl, by omega, by omega, ?_⟩
  rw [h0]
  intro e
  have := (Nat.div_eq_zero_iff hps).mp e
  omega

/-- Witness of C18 as amended: on `demoFull` the address 64, of the non-resident page 4, is
resolved to the physical address 32 of frame 2. -/
theorem resolver_postcondition_witness :
    (∃ f,
      (traverseTree demoGeometry demoFull 64).1 =
        f * PAGE_SIZE demoGeometry + (parseAddress demoGeometry 64).getD demoGeometry.TABLES_DEPTH 0 ∧
      (parseAddress demoGeometry 64).getD demoGeometry.TABLES_DEPTH 0 < PAGE_SIZE demoGeometry ∧
      walkFrom demoGeometry (traverseTree demoGeometry demoFull 64).2 0
        ((parseAddress demoGeometry 64).take demoGeometry.TABLES_DEPTH) = some f ∧
      (∀ level, level < demoGeometry.TABLES_DEPTH →
        ∃ t, walkFrom demoGeometry (traverseTree demoGeometry demoFull 64).2 0
            ((parseAddress demoGeometry 64).take level) = some t ∧
          (traverseTree demoGeometry demoFull 64).2.ram
            (t * PAGE_SIZE demoGeometry + (parseAddress demoGeometry 64).getD level 0) ≠ 0 ∧
          walkFrom demoGeometry (traverseTree demoGeometry demoFull 64).2 0
              ((parseAddress demoGeometry 64).take (level + 1)) =
            some ((traverseTree demoGeometry demoFull 64).2.ram
              (t * PAGE_SIZE demoGeometry + (parseAddress demoGeometry 64).getD level 0)).toNat) ∧
      1 ≤ f ∧ f < demoGeometry.NUM_FRAMES ∧
      PAGE_SIZE demoGeometry ≤ (traverseTree demoGeometry demoFull 64).1 ∧
      (traverseTree demoGeometry demoFull 64).1 < demoGeometry.NUM_FRAMES * PAGE_SIZE demoGeometry ∧
      (traverseTree demoGeometry demoFull 64).1 / PAGE_SIZE demoGeometry ≠ 0) ∧
    (traverseTree demoGeometry demoFull 64).1 = 32 :=
  ⟨resolver_postcondition demoGeometry (by decide) (by decide) demoFull
    ⟨demoDevice, [Op.write 0 1, Op.write 16 2, Op.write 32 3, Op.write 48 4], rfl⟩ 64 (by decide),
    by decide⟩

/-- Counterexample to C18 as stated, for `TABLES_DEPTH = 0`: on the geometry
`OFFSET_WIDTH = 1`, `TABLES_DEPTH = 0`, `NUM_FRAMES = 2`, which satisfies
`NUM_FRAMES > TABLES_DEPTH + 1`, right after `VMinitialize` the resolver returns the physical
address 1 for the virtual address 1: the frame is 0 and the address is below `PAGE_SIZE`. -/
theorem resolver_returns_root :
    flatGeometry.TABLES_DEPTH + 1 < flatGeometry.NUM_FRAMES ∧
    Reachable flatGeometry ( VMinitialize flatGeometry demoDevice) ∧
    (1 : Nat) < VIRTUAL_MEMORY_SIZE flatGeometry ∧
    (traverseTree flatGeometry ( VMinitialize flatGeometry demoDevice) 1).1 = 1 ∧
    (parseAddress flatGeometry 1).getD flatGeometry.TABLES_DEPTH 0 = 1 ∧
    PAGE_SIZE flatGeometry = 2 ∧
    (traverseTree flatGeometry ( VMinitialize flatGeometry demoDevice) 1).1 / PAGE_SIZE flatGeometry = 0 ∧
    ¬ ∃ f, (traverseTree flatGeometry ( VMinitialize flatGeometry demoDevice) 1).1 =
        f * PAGE_SIZE flatGeometry + (parseAddress flatGeometry 1).getD flatGeometry.TABLES_DEPTH 0 ∧
      1 ≤ f ∧ f < flatGeometry.NUM_FRAMES := by
  refine ⟨by decide, ⟨demoDevice, [], rfl⟩, by decide, by decide, by decide, by decide,
    by decide, ?_⟩
  rintro ⟨f, h, h1, _⟩
  have e1 : (traverseTree flatGeometry ( VMinitialize flatGeometry demoDevice) 1).1 = 1 := by decide
  have e2 : (parseAddress flatGeometry 1).getD flatGeometry.TABLES_DEPTH 0 = 1 := by decide
  have e3 : PAGE_SIZE flatGeometry = 2 := by decide
  rw [e1, e2, e3] at h
  omega

/-- C19. The two source variants are equivalent. For every initial physical memory and
backing store and every sequence of `VMread`/`VMwrite` calls after `VMinitialize`, the
variant of `VirtualMemory.cpp` (summary record, full scan, unlink by searching the parent) and
the variant of `yaara/VirtualMemory.cpp` (tagged return value, scan that unlinks and stops at
the first empty table) leave the same device after `VMinitialize`, return the same values and
deliver the same words to `VMread` along the sequence, and leave the same device (physical
memory, backing store and device calls received) after every call; each API function of one
variant is equal to that of the other on every device state. -/
theorem variants_agree (g : Geometry) (d0 : Device) (ops : List Op) :
    yaara.VMinitialize g d0 = VMinitialize g d0 ∧
    yaara.returns g ( yaara.VMinitialize g d0) ops = returns g ( VMinitialize g d0) ops ∧
    (∀ n, yaara.run g ( yaara.VMinitialize g d0) (ops.take n) =
      run g ( VMinitialize g d0) (ops.take n)) ∧
    (∀ n, (yaara.run g ( yaara.VMinitialize g d0) (ops.take n)).ram =
        (run g ( VMinitialize g d0) (ops.take n)).ram ∧
      (yaara.run g ( yaara.VMinitialize g d0) (ops.take n)).swap =
        (run g ( VMinitialize g d0) (ops.take n)).swap) ∧
    (∀ (d : Device) (a : Nat) (ptr : Bool), yaara.VMread g d a ptr = VMread g d a ptr) ∧
    (∀ (d : Device) (a : Nat) (w : Int), yaara.VMwrite g d a w = VMwrite g d a w) := by
  have hrun : ∀ n, yaara.run g ( yaara.VMinitialize g d0) (ops.take n) =
      run g ( VMinitialize g d0) (ops.take n) := by
    intro n
    rw [VMinitialize_agree, run_agree]
  refine ⟨VMinitialize_agree g d0, ?_, hrun, ?_, VMread_agree g, VMwrite_agree g⟩
  · rw [VMinitialize_agree, returns_agree]
  · intro n
    rw [hrun n]
    exact ⟨rfl, rfl⟩

/-- C20. Never-written memory reads as zero. For every initial content of physical memory,
with a backing store that holds no page and `NUM_FRAMES > TABLES_DEPTH + 1`, after
`VMinitialize` and any sequence of `VMread`/`VMwrite` calls, `VMread(a, &r)` for an address
`a < VIRTUAL_MEMORY_SIZE` that no `VMwrite` of the sequence has targeted returns 1 with
`r == 0`; and for two initial contents of physical memory the same sequence of calls followed
by the same read gives the same return value and the same word: the values read do not depend
on the initial contents of the frames. -/
theorem unwritten_reads_zero (g : Geometry) (hNF : g.TABLES_DEPTH + 1 < g.NUM_FRAMES)
    (d0 : Device) (hswap : ∀ p, d0.swap p = none) (ops : List Op)
    (a : Nat) (ha : a < VIRTUAL_MEMORY_SIZE g) (hnw : ∀ w, Op.write a w ∉ ops) :
    (VMread g (run g ( VMinitialize g d0) ops) a true).ret = 1 ∧
    (VMread g (run g ( VMinitialize g d0) ops) a true).stored = some 0 ∧
    (∀ (d1 : Device), (∀ p, d1.swap p = none) → ∀ (calls : List Op) (b : Nat) (ptr : Bool),
      (VMread g (run g ( VMinitialize g d1) calls) b ptr).ret =
        (VMread g (run g ( VMinitialize g d0) calls) b ptr).ret ∧
      (VMread g (run g ( VMinitialize g d1) calls) b ptr).stored =
        (VMread g (run g ( VMinitialize g d0) calls) b ptr).stored) := by
  have hNF' : g.TABLES_DEPTH < g.NUM_FRAMES := by omega
  obtain ⟨k1, k2⟩ := read_after_run g hNF' d0 hswap ops a ha
  rw [lastWrite_none a ops hnw] at k2
  refine ⟨k1, k2, ?_⟩
  intro d1 hswap1 calls b ptr
  by_cases h : b < VIRTUAL_MEMORY_SIZE g ∧ ptr = true
  · obtain ⟨hb, rfl⟩ := h
    obtain ⟨a1, a2⟩ := read_after_run g hNF' d0 hswap calls b hb
    obtain ⟨b1, b2⟩ := read_after_run g hNF' d1 hswap1 calls b hb
    exact ⟨by rw [a1, b1], by rw [a2, b2]⟩
  · rw [VMread_rejected g _ b ptr h, VMread_rejected g _ b ptr h]
    exact ⟨rfl, rfl⟩

/-- Witness of C20: on the geometry of the scenarios, from a physical memory that holds no
zero word, after writes to the addresses 0, 16, 32, 48 and 64 the never-written address 17,
which lies in the written page 1, reads as 0. -/
theorem unwritten_reads_zero_witness :
    ((VMread demoGeometry (run demoGeometry ( VMinitialize demoGeometry demoDevice)
        [Op.write 0 1, Op.write 16 2, Op.write 32 3, Op.write 48 4, Op.write 64 5]) 17 true).ret
      = 1 ∧
    (VMread demoGeometry (run demoGeometry ( VMinitialize demoGeometry demoDevice)
        [Op.write 0 1, Op.write 16 2, Op.write 32 3, Op.write 48 4, Op.write 64 5]) 17
      true).stored = some 0 ∧
    (∀ (d1 : Device), (∀ p, d1.swap p = none) → ∀ (calls : List Op) (b : Nat) (ptr : Bool),
      (VMread demoGeometry (run demoGeometry ( VMinitialize demoGeometry d1) calls) b ptr).ret =
        (VMread demoGeometry (run demoGeometry ( VMinitialize demoGeometry demoDevice) calls)
          b ptr).ret ∧
      (VMread demoGeometry (run demoGeometry ( VMinitialize demoGeometry d1) calls) b ptr).stored =
        (VMread demoGeometry (run demoGeometry ( VMinitialize demoGeometry demoDevice) calls)
          b ptr).stored)) ∧
    (∀ x, x < 96 → demoDevice.ram x ≠ 0) :=
  ⟨unwritten_reads_zero demoGeometry (by decide) demoDevice (fun _ => rfl)
    [Op.write 0 1, Op.write 16 2, Op.write 32 3, Op.write 48 4, Op.write 64 5] 17 (by decide)
    (by intro w hw; simp at hw),
    by decide⟩

end VirtualMemory
